import Mathlib

/-!
# nexboard-be: authorization and referential guards over a relational store

A shallow embedding of the Go services, repositories and handlers of
`grahagandangr/nexboard-be`.

* The PostgreSQL database is a `Store`: one list of rows per table, in
  insertion order, plus one counter per table from which `INSERT` draws the
  next internal id.
* `QueryRow(...).Scan(...)` yields the first matching row, or `sql.ErrNoRows`.
* A Go function `f(args) (T, error)` that writes to the database becomes
  `f : Store → args → Except Err T × Store`; a function that only reads
  becomes `f : Store → args → Except Err T`.
* `utils.GenerateUUID()` is an argument (`uuid`) of the function that calls it.
* Timestamps (`created_at`, `modified_at`, `joined_at`) and the never-written
  `created_by` / `modified_by` columns are left out.
-/

namespace Nexboard

/-! ## Errors -/

/-- Go `error` values seen by the services: `errors.New(message)`,
`sql.ErrNoRows`, and any other failure reported by the database driver. -/
inductive Err where
  | New (message : String)
  | ErrNoRows
  | Db (message : String)
deriving DecidableEq, Repr

/-- The method `err.Error()`. -/
def Err.Error : Err → String
  | .New message => message
  | .ErrNoRows => "sql: no rows in result set"
  | .Db message => message

/-! ## Models (package `models`) -/

/-- Row of table `users`, `models.User`. -/
structure User where
  ID : Int
  ExternalID : String
  Name : String
  Email : String
  Password : String
  AvatarURL : Option String
  ActiveStatus : Int
deriving DecidableEq, Repr

/-- Row of table `workspaces` (the columns of `models.Workspace`). -/
structure WorkspaceRow where
  ID : Int
  ExternalID : String
  Name : String
  Description : Option String
  OwnerID : Int
  ActiveStatus : Int
deriving DecidableEq, Repr

/-- The struct `models.Workspace`: a workspace row together with the owner's
external id, which the repository fills in from the join with `users`. -/
structure Workspace where
  ID : Int
  ExternalID : String
  Name : String
  Description : Option String
  OwnerID : Int
  OwnerExternalID : String
  ActiveStatus : Int
deriving DecidableEq, Repr

structure WorkspaceResponse where
  ExternalID : String
  Name : String
  Description : Option String
  OwnerExternalID : String
deriving DecidableEq, Repr

structure WorkspaceRequest where
  Name : String
  Description : Option String
deriving DecidableEq, Repr

/-- Row of table `workspace_members`, `models.WorkspaceMember`. -/
structure WorkspaceMember where
  ID : Int
  WorkspaceID : Int
  UserID : Int
  Role : String
deriving DecidableEq, Repr

structure WorkspaceMemberResponse where
  UserExternalID : String
  Name : String
  Email : String
  Role : String
deriving DecidableEq, Repr

/-- The struct `models.InviteMemberRequest`; its binding tag admits the roles
`owner`, `admin` and `member`. -/
structure InviteMemberRequest where
  UserExternalID : String
  Role : String
deriving DecidableEq, Repr

/-- The struct `models.UpdateMemberRoleRequest`; its binding tag admits the
roles `owner`, `admin` and `member`. -/
structure UpdateMemberRoleRequest where
  Role : String
deriving DecidableEq, Repr

/-- Row of table `boards` (the columns of `models.Board`). -/
structure BoardRow where
  ID : Int
  ExternalID : String
  WorkspaceID : Int
  CreatedByID : Option Int
  Name : String
  Description : Option String
  ActiveStatus : Int
deriving DecidableEq, Repr

/-- The struct `models.Board`: a board row together with the external id of
its workspace, filled in from the join with `workspaces`. -/
structure Board where
  ID : Int
  ExternalID : String
  WorkspaceID : Int
  WorkspaceExternalID : String
  CreatedByID : Option Int
  Name : String
  Description : Option String
  ActiveStatus : Int
deriving DecidableEq, Repr

structure BoardResponse where
  ExternalID : String
  WorkspaceExternalID : String
  Name : String
  Description : Option String
deriving DecidableEq, Repr

structure BoardRequest where
  Name : String
  Description : Option String
deriving DecidableEq, Repr

/-- Row of table `statuses`, `models.Status`. -/
structure Status where
  ID : Int
  ExternalID : String
  Name : String
  Color : Option String
  Position : Int
  ActiveStatus : Int
deriving DecidableEq, Repr

structure StatusResponse where
  ExternalID : String
  Name : String
  Color : Option String
  Position : Int
deriving DecidableEq, Repr

structure StatusRequest where
  Name : String
  Color : Option String
  Position : Option Int
deriving DecidableEq, Repr

/-- A point in time (`time.Time`), kept abstract as a number. -/
abbrev Time := Int

/-- Row of table `tasks`, `models.Task`. -/
structure Task where
  ID : Int
  ExternalID : String
  BoardID : Int
  StatusID : Int
  AssignedTo : Option Int
  CreatedByID : Int
  Title : String
  Description : Option String
  Priority : String
  DueDate : Option Time
  Position : Int
  ActiveStatus : Int
deriving DecidableEq, Repr

structure TaskStatusInfo where
  ExternalID : String
  Name : String
  Color : Option String
deriving DecidableEq, Repr

structure TaskAssigneeInfo where
  ExternalID : String
  Name : String
deriving DecidableEq, Repr

structure TaskResponse where
  ExternalID : String
  BoardExternalID : String
  Status : TaskStatusInfo
  AssignedTo : Option TaskAssigneeInfo
  Title : String
  Description : Option String
  Priority : String
  DueDate : Option Time
  Position : Int
deriving DecidableEq, Repr

structure TaskRequest where
  Title : String
  Description : Option String
  Priority : String
  DueDate : Option Time
  StatusExternalID : String
  AssignedToExternalID : Option String
deriving DecidableEq, Repr

structure MoveTaskStatusRequest where
  StatusExternalID : String
deriving DecidableEq, Repr

structure AssignTaskRequest where
  AssignedToExternalID : Option String
deriving DecidableEq, Repr

/-! ## The database -/

/-- The database: the six tables, and for each table the value its id
sequence hands out next. -/
structure Store where
  users : List User
  workspaces : List WorkspaceRow
  workspace_members : List WorkspaceMember
  boards : List BoardRow
  statuses : List Status
  tasks : List Task
  users_seq : Int
  workspaces_seq : Int
  workspace_members_seq : Int
  boards_seq : Int
  statuses_seq : Int
  tasks_seq : Int
deriving DecidableEq, Repr

/-- Method `DB.QueryRow(query, ...).Scan(...)`: the first row of the result set, or
`sql.ErrNoRows` when the result set is empty. -/
def QueryRow {α : Type} : List α → Except Err α
  | [] => .error .ErrNoRows
  | row :: _ => .ok row

/-! ## Package `repositories` -/

/-- The statement `SELECT ... FROM users WHERE external_id = $1 AND active_status = 1`. -/
def UserRepository.GetUserByExternalID (s : Store) (externalID : String) : Except Err User :=
  QueryRow (s.users.filter (fun u => u.ExternalID == externalID && u.ActiveStatus == 1))

/-- Modelled from the spec: the schema of table `workspace_members` is not part
of the sources. The spec gives the table the composite key (workspace, user),
so an `INSERT` of a pair that is already present is refused by the database;
the id of the new row comes from the table's sequence. -/
def insertWorkspaceMember (s : Store) (workspaceID userID : Int) (role : String) :
    Except Err WorkspaceMember × Store :=
  if s.workspace_members.any (fun m => m.WorkspaceID == workspaceID && m.UserID == userID) then
    (.error (.Db "pq: duplicate key value violates unique constraint"), s)
  else
    let row : WorkspaceMember :=
      { ID := s.workspace_members_seq, WorkspaceID := workspaceID, UserID := userID, Role := role }
    (.ok row, { s with workspace_members := s.workspace_members ++ [row],
                       workspace_members_seq := s.workspace_members_seq + 1 })

/-- Method `WorkspaceRepository.CreateWorkspace`: one transaction that inserts the
workspace row (new rows are ACTIVE, `active_status = 1`) and the owner's
membership row with role `owner`; a failure of the second insert rolls the
first one back. Returns the workspace with its `ID` set. -/
def WorkspaceRepository.CreateWorkspace (s : Store) (workspace : Workspace) :
    Except Err Workspace × Store :=
  let workspace1 : Workspace := { workspace with ID := s.workspaces_seq }
  let row : WorkspaceRow :=
    { ID := workspace1.ID, ExternalID := workspace.ExternalID, Name := workspace.Name,
      Description := workspace.Description, OwnerID := workspace.OwnerID, ActiveStatus := 1 }
  let tx : Store := { s with workspaces := s.workspaces ++ [row],
                             workspaces_seq := s.workspaces_seq + 1 }
  match insertWorkspaceMember tx workspace1.ID workspace1.OwnerID "owner" with
  | (.error err, _) => (.error err, s)
  | (.ok _, tx1) => (.ok workspace1, tx1)

/-- The statement `SELECT ... FROM workspaces w JOIN users o ON w.owner_id = o.id
WHERE w.external_id = $1 AND w.active_status = 1`. -/
def WorkspaceRepository.GetWorkspaceByExternalID (s : Store) (externalID : String) :
    Except Err Workspace :=
  QueryRow ((s.workspaces.filter (fun w => w.ExternalID == externalID && w.ActiveStatus == 1)).flatMap
    (fun w => (s.users.filter (fun o => o.ID == w.OwnerID)).map (fun o =>
      ({ ID := w.ID, ExternalID := w.ExternalID, Name := w.Name, Description := w.Description,
         OwnerID := w.OwnerID, OwnerExternalID := o.ExternalID,
         ActiveStatus := w.ActiveStatus } : Workspace))))

/-- The statement `UPDATE workspaces SET name = $1, description = $2 WHERE id = $3
RETURNING modified_at`, scanned with `QueryRow`: `sql.ErrNoRows` when no row
has the id. -/
def WorkspaceRepository.UpdateWorkspace (s : Store) (w : Workspace) : Except Err Unit × Store :=
  if s.workspaces.any (fun r => r.ID == w.ID) then
    (.ok (), { s with workspaces := s.workspaces.map (fun r =>
      if r.ID == w.ID then { r with Name := w.Name, Description := w.Description } else r) })
  else (.error .ErrNoRows, s)

/-- The statement `DELETE FROM workspaces WHERE id = $1`.
Modelled from the spec: the schema is not part of the sources; the spec
delegates the removal of a workspace's dependents to the persistence layer, so
the membership rows and boards of the workspace, and the tasks of those
boards, go with it. -/
def WorkspaceRepository.DeleteWorkspace (s : Store) (id : Int) : Except Err Unit × Store :=
  (.ok (), { s with
    workspaces := s.workspaces.filter (fun w => !(w.ID == id)),
    workspace_members := s.workspace_members.filter (fun m => !(m.WorkspaceID == id)),
    boards := s.boards.filter (fun b => !(b.WorkspaceID == id)),
    tasks := s.tasks.filter (fun t =>
      !(s.boards.any (fun b => b.ID == t.BoardID && b.WorkspaceID == id))) })

/-- The statement `INSERT INTO workspace_members (workspace_id, user_id, role) VALUES ($1, $2, $3)
RETURNING id, joined_at`. -/
def WorkspaceRepository.AddMember (s : Store) (wm : WorkspaceMember) :
    Except Err WorkspaceMember × Store :=
  insertWorkspaceMember s wm.WorkspaceID wm.UserID wm.Role

/-- The statement `SELECT u.external_id, u.name, u.email, wm.role FROM workspace_members wm
JOIN users u ON wm.user_id = u.id WHERE wm.workspace_id = $1`. -/
def WorkspaceRepository.GetMembers (s : Store) (workspaceID : Int) :
    Except Err (List WorkspaceMemberResponse) :=
  .ok ((s.workspace_members.filter (fun wm => wm.WorkspaceID == workspaceID)).flatMap
    (fun wm => (s.users.filter (fun u => u.ID == wm.UserID)).map (fun u =>
      ({ UserExternalID := u.ExternalID, Name := u.Name, Email := u.Email,
         Role := wm.Role } : WorkspaceMemberResponse))))

/-- The statement `SELECT role FROM workspace_members WHERE workspace_id = $1 AND user_id = $2`. -/
def WorkspaceRepository.GetMemberRole (s : Store) (workspaceID userID : Int) : Except Err String :=
  QueryRow ((s.workspace_members.filter
    (fun m => m.WorkspaceID == workspaceID && m.UserID == userID)).map (fun m => m.Role))

/-- The statement `UPDATE workspace_members SET role = $1 WHERE workspace_id = $2 AND user_id = $3`,
run with `Exec`: no error when no row matches. -/
def WorkspaceRepository.UpdateMemberRole (s : Store) (workspaceID userID : Int) (role : String) :
    Except Err Unit × Store :=
  (.ok (), { s with workspace_members := s.workspace_members.map (fun m =>
    if m.WorkspaceID == workspaceID && m.UserID == userID then { m with Role := role } else m) })

/-- The statement `DELETE FROM workspace_members WHERE workspace_id = $1 AND user_id = $2`,
run with `Exec`: no error when no row matches. -/
def WorkspaceRepository.RemoveMember (s : Store) (workspaceID userID : Int) :
    Except Err Unit × Store :=
  (.ok (), { s with workspace_members := s.workspace_members.filter (fun m =>
    !(m.WorkspaceID == workspaceID && m.UserID == userID)) })

/-! ## Package `services`: workspaces -/

/-- Method `WorkspaceService.CreateWorkspace`. -/
def WorkspaceService.CreateWorkspace (s : Store) (creatorExternalID : String)
    (req : WorkspaceRequest) (uuid : String) : Except Err WorkspaceResponse × Store :=
  match UserRepository.GetUserByExternalID s creatorExternalID with
  | .error _ => (.error (.New "user not found"), s)
  | .ok user =>
    let workspace : Workspace :=
      { ID := 0, ExternalID := uuid, Name := req.Name, Description := req.Description,
        OwnerID := user.ID, OwnerExternalID := "", ActiveStatus := 0 }
    match WorkspaceRepository.CreateWorkspace s workspace with
    | (.error err, s1) => (.error err, s1)
    | (.ok workspace1, s1) =>
      (.ok { ExternalID := workspace1.ExternalID, Name := workspace1.Name,
             Description := workspace1.Description, OwnerExternalID := user.ExternalID }, s1)

/-- Method `WorkspaceService.GetWorkspace`. -/
def WorkspaceService.GetWorkspace (s : Store) (userExternalID workspaceExternalID : String) :
    Except Err WorkspaceResponse :=
  match UserRepository.GetUserByExternalID s userExternalID with
  | .error _ => .error (.New "user not found")
  | .ok user =>
    match WorkspaceRepository.GetWorkspaceByExternalID s workspaceExternalID with
    | .error _ => .error (.New "workspace not found")
    | .ok w =>
      match WorkspaceRepository.GetMemberRole s w.ID user.ID with
      | .error _ => .error (.New "unauthorized: not a member of this workspace")
      | .ok _ =>
        .ok { ExternalID := w.ExternalID, Name := w.Name, Description := w.Description,
              OwnerExternalID := w.OwnerExternalID }

/-- Method `WorkspaceService.UpdateWorkspace` (owner only). -/
def WorkspaceService.UpdateWorkspace (s : Store) (userExternalID workspaceExternalID : String)
    (req : WorkspaceRequest) : Except Err WorkspaceResponse × Store :=
  match UserRepository.GetUserByExternalID s userExternalID with
  | .error _ => (.error (.New "user not found"), s)
  | .ok user =>
    match WorkspaceRepository.GetWorkspaceByExternalID s workspaceExternalID with
    | .error _ => (.error (.New "workspace not found"), s)
    | .ok w =>
      if w.OwnerID != user.ID then
        (.error (.New "unauthorized: only owner can update workspace"), s)
      else
        let w1 : Workspace := { w with Name := req.Name, Description := req.Description }
        match WorkspaceRepository.UpdateWorkspace s w1 with
        | (.error err, s1) => (.error err, s1)
        | (.ok _, s1) =>
          (.ok { ExternalID := w1.ExternalID, Name := w1.Name, Description := w1.Description,
                 OwnerExternalID := w1.OwnerExternalID }, s1)

/-- Method `WorkspaceService.DeleteWorkspace` (owner only). -/
def WorkspaceService.DeleteWorkspace (s : Store) (userExternalID workspaceExternalID : String) :
    Except Err Unit × Store :=
  match UserRepository.GetUserByExternalID s userExternalID with
  | .error _ => (.error (.New "user not found"), s)
  | .ok user =>
    match WorkspaceRepository.GetWorkspaceByExternalID s workspaceExternalID with
    | .error _ => (.error (.New "workspace not found"), s)
    | .ok w =>
      if w.OwnerID != user.ID then
        (.error (.New "unauthorized: only owner can delete workspace"), s)
      else WorkspaceRepository.DeleteWorkspace s w.ID

/-- Method `WorkspaceService.GetMembers`. -/
def WorkspaceService.GetMembers (s : Store) (userExternalID workspaceExternalID : String) :
    Except Err (List WorkspaceMemberResponse) :=
  match UserRepository.GetUserByExternalID s userExternalID with
  | .error _ => .error (.New "user not found")
  | .ok user =>
    match WorkspaceRepository.GetWorkspaceByExternalID s workspaceExternalID with
    | .error _ => .error (.New "workspace not found")
    | .ok w =>
      match WorkspaceRepository.GetMemberRole s w.ID user.ID with
      | .error _ => .error (.New "unauthorized: not a member of this workspace")
      | .ok _ => WorkspaceRepository.GetMembers s w.ID

/-- Method `WorkspaceService.InviteMember` (owner or admin only). -/
def WorkspaceService.InviteMember (s : Store) (userExternalID workspaceExternalID : String)
    (req : InviteMemberRequest) : Except Err Unit × Store :=
  match UserRepository.GetUserByExternalID s userExternalID with
  | .error _ => (.error (.New "user not found"), s)
  | .ok currentUser =>
    match WorkspaceRepository.GetWorkspaceByExternalID s workspaceExternalID with
    | .error _ => (.error (.New "workspace not found"), s)
    | .ok w =>
      match WorkspaceRepository.GetMemberRole s w.ID currentUser.ID with
      | .error _ => (.error (.New "unauthorized: not a member"), s)
      | .ok role =>
        if role != "owner" && role != "admin" then
          (.error (.New "unauthorized: only owner or admin can invite members"), s)
        else
          match UserRepository.GetUserByExternalID s req.UserExternalID with
          | .error _ => (.error (.New "target user not found"), s)
          | .ok targetUser =>
            let wm : WorkspaceMember :=
              { ID := 0, WorkspaceID := w.ID, UserID := targetUser.ID, Role := req.Role }
            match WorkspaceRepository.AddMember s wm with
            | (.error _, s1) =>
              (.error (.New "could not add member (perhaps already a member?)"), s1)
            | (.ok _, s1) => (.ok (), s1)

/-- Method `WorkspaceService.UpdateMemberRole` (owner only). -/
def WorkspaceService.UpdateMemberRole (s : Store)
    (userExternalID workspaceExternalID targetUserExternalID : String)
    (req : UpdateMemberRoleRequest) : Except Err Unit × Store :=
  match UserRepository.GetUserByExternalID s userExternalID with
  | .error _ => (.error (.New "user not found"), s)
  | .ok currentUser =>
    match WorkspaceRepository.GetWorkspaceByExternalID s workspaceExternalID with
    | .error _ => (.error (.New "workspace not found"), s)
    | .ok w =>
      if w.OwnerID != currentUser.ID then
        (.error (.New "unauthorized: only owner can update member roles"), s)
      else
        match UserRepository.GetUserByExternalID s targetUserExternalID with
        | .error _ => (.error (.New "target user not found"), s)
        | .ok targetUser =>
          if targetUser.ID == w.OwnerID then (.error (.New "cannot change owner role"), s)
          else WorkspaceRepository.UpdateMemberRole s w.ID targetUser.ID req.Role

/-- Method `WorkspaceService.RemoveMember` (owner or admin only). -/
def WorkspaceService.RemoveMember (s : Store)
    (userExternalID workspaceExternalID targetUserExternalID : String) :
    Except Err Unit × Store :=
  match UserRepository.GetUserByExternalID s userExternalID with
  | .error _ => (.error (.New "user not found"), s)
  | .ok currentUser =>
    match WorkspaceRepository.GetWorkspaceByExternalID s workspaceExternalID with
    | .error _ => (.error (.New "workspace not found"), s)
    | .ok w =>
      let authorized : Bool :=
        match WorkspaceRepository.GetMemberRole s w.ID currentUser.ID with
        | .error _ => false
        | .ok role => !(role != "owner" && role != "admin")
      if !authorized then
        (.error (.New "unauthorized: only owner or admin can remove members"), s)
      else
        match UserRepository.GetUserByExternalID s targetUserExternalID with
        | .error _ => (.error (.New "target user not found"), s)
        | .ok targetUser =>
          if targetUser.ID == w.OwnerID then (.error (.New "cannot remove workspace owner"), s)
          else WorkspaceRepository.RemoveMember s w.ID targetUser.ID

/-! ## Package `repositories`: statuses, boards, tasks -/

/-- The statement `INSERT INTO statuses (external_id, name, color, position) VALUES (...)
RETURNING id, created_at`: the id comes from the sequence and the new row is
ACTIVE. Returns the status with its `ID` set. -/
def StatusRepository.CreateStatus (s : Store) (status : Status) : Except Err Status × Store :=
  let status1 : Status := { status with ID := s.statuses_seq }
  (.ok status1, { s with statuses := s.statuses ++ [{ status1 with ActiveStatus := 1 }],
                         statuses_seq := s.statuses_seq + 1 })

/-- The order of `ORDER BY position ASC` on statuses. -/
def StatusRepository.byPosition (a b : Status) : Prop := a.Position ≤ b.Position

instance : DecidableRel StatusRepository.byPosition :=
  fun a b => inferInstanceAs (Decidable (a.Position ≤ b.Position))

/-- The statement `SELECT ... FROM statuses WHERE active_status = 1 ORDER BY position ASC`;
rows with equal positions keep their table order. -/
def StatusRepository.GetAllStatuses (s : Store) : Except Err (List Status) :=
  .ok ((s.statuses.filter (fun st => st.ActiveStatus == 1)).insertionSort
    StatusRepository.byPosition)

/-- The statement `SELECT ... FROM statuses WHERE external_id = $1 AND active_status = 1`. -/
def StatusRepository.GetStatusByExternalID (s : Store) (externalID : String) :
    Except Err Status :=
  QueryRow (s.statuses.filter (fun st => st.ExternalID == externalID && st.ActiveStatus == 1))

/-- The statement `SELECT id, external_id, name FROM statuses WHERE name = $1 AND
active_status = 1`; only the three selected columns are scanned. -/
def StatusRepository.GetStatusByName (s : Store) (name : String) : Except Err Status :=
  QueryRow ((s.statuses.filter (fun st => st.Name == name && st.ActiveStatus == 1)).map
    (fun st => ({ ID := st.ID, ExternalID := st.ExternalID, Name := st.Name, Color := none,
                  Position := 0, ActiveStatus := 0 } : Status)))

/-- The statement `UPDATE statuses SET name = $1, color = $2, position = $3 WHERE id = $4
RETURNING modified_at`, scanned with `QueryRow`. -/
def StatusRepository.UpdateStatus (s : Store) (st : Status) : Except Err Unit × Store :=
  if s.statuses.any (fun r => r.ID == st.ID) then
    (.ok (), { s with statuses := s.statuses.map (fun r =>
      if r.ID == st.ID then { r with Name := st.Name, Color := st.Color, Position := st.Position }
      else r) })
  else (.error .ErrNoRows, s)

/-- The statement `SELECT COUNT(*) FROM tasks WHERE status_id = $1 AND active_status = 1`,
and the test `count > 0`. -/
def StatusRepository.CheckIfReferenced (s : Store) (statusID : Int) : Except Err Bool :=
  let count : Nat := (s.tasks.filter (fun t => t.StatusID == statusID && t.ActiveStatus == 1)).length
  .ok (decide (count > 0))

/-- The statement `DELETE FROM statuses WHERE id = $1`, run with `Exec`. The
schema is not part of the sources; no foreign-key action is attached to the
delete here. -/
def StatusRepository.DeleteStatus (s : Store) (id : Int) : Except Err Unit × Store :=
  (.ok (), { s with statuses := s.statuses.filter (fun st => !(st.ID == id)) })

/-- The statement `INSERT INTO boards (external_id, workspace_id, created_by_id, name,
description) VALUES (...) RETURNING id, created_at`. Returns the board with
its `ID` set. -/
def BoardRepository.CreateBoard (s : Store) (board : Board) : Except Err Board × Store :=
  let board1 : Board := { board with ID := s.boards_seq }
  let row : BoardRow :=
    { ID := board1.ID, ExternalID := board.ExternalID, WorkspaceID := board.WorkspaceID,
      CreatedByID := board.CreatedByID, Name := board.Name, Description := board.Description,
      ActiveStatus := 1 }
  (.ok board1, { s with boards := s.boards ++ [row], boards_seq := s.boards_seq + 1 })

/-- The join `FROM boards b JOIN workspaces w ON b.workspace_id = w.id` for one
board row. -/
def BoardRepository.joinWorkspace (s : Store) (b : BoardRow) : List Board :=
  (s.workspaces.filter (fun w => b.WorkspaceID == w.ID)).map (fun w =>
    ({ ID := b.ID, ExternalID := b.ExternalID, WorkspaceID := b.WorkspaceID,
       WorkspaceExternalID := w.ExternalID, CreatedByID := b.CreatedByID, Name := b.Name,
       Description := b.Description, ActiveStatus := b.ActiveStatus } : Board))

/-- The statement `SELECT ... FROM boards b JOIN workspaces w ON b.workspace_id = w.id
WHERE b.workspace_id = $1 AND b.active_status = 1`. -/
def BoardRepository.GetBoardsByWorkspaceID (s : Store) (workspaceID : Int) :
    Except Err (List Board) :=
  .ok ((s.boards.filter (fun b => b.WorkspaceID == workspaceID && b.ActiveStatus == 1)).flatMap
    (BoardRepository.joinWorkspace s))

/-- The statement `SELECT ... FROM boards b JOIN workspaces w ON b.workspace_id = w.id
WHERE b.external_id = $1 AND b.active_status = 1`. -/
def BoardRepository.GetBoardByExternalID (s : Store) (externalID : String) : Except Err Board :=
  QueryRow ((s.boards.filter (fun b => b.ExternalID == externalID && b.ActiveStatus == 1)).flatMap
    (BoardRepository.joinWorkspace s))

/-- The statement `UPDATE boards SET name = $1, description = $2 WHERE id = $3
RETURNING modified_at`, scanned with `QueryRow`. -/
def BoardRepository.UpdateBoard (s : Store) (b : Board) : Except Err Unit × Store :=
  if s.boards.any (fun r => r.ID == b.ID) then
    (.ok (), { s with boards := s.boards.map (fun r =>
      if r.ID == b.ID then { r with Name := b.Name, Description := b.Description } else r) })
  else (.error .ErrNoRows, s)

/-- The statement `DELETE FROM boards WHERE id = $1`; as the service notes, deleting a
board cascades to its tasks. -/
def BoardRepository.DeleteBoard (s : Store) (id : Int) : Except Err Unit × Store :=
  (.ok (), { s with boards := s.boards.filter (fun b => !(b.ID == id)),
                    tasks := s.tasks.filter (fun t => !(t.BoardID == id)) })

/-- The statement `INSERT INTO tasks (...) VALUES (...) RETURNING id, created_at`: the
id comes from the sequence and the new row is ACTIVE. Returns the task with
its `ID` set. -/
def TaskRepository.CreateTask (s : Store) (task : Task) : Except Err Task × Store :=
  let task1 : Task := { task with ID := s.tasks_seq }
  (.ok task1, { s with tasks := s.tasks ++ [{ task1 with ActiveStatus := 1 }],
                       tasks_seq := s.tasks_seq + 1 })

/-- The part `LEFT JOIN users u ON t.assigned_to = u.id` for one task: the
matching users, or a single NULL row when there is none. -/
def TaskRepository.leftJoinAssignee (s : Store) (t : Task) : List (Option User) :=
  match t.AssignedTo with
  | none => [none]
  | some uid =>
    match s.users.filter (fun u => uid == u.ID) with
    | [] => [none]
    | us => us.map some

/-- One row of the result set of `GetTasksByBoardID`, before sorting: the
position of the status (the first sort key) and the scanned `TaskResponse`. -/
def TaskRepository.scanRow (t : Task) (b : BoardRow) (st : Status) (u : Option User) :
    Int × TaskResponse :=
  (st.Position,
   { ExternalID := t.ExternalID, BoardExternalID := b.ExternalID,
     Status := { ExternalID := st.ExternalID, Name := st.Name, Color := st.Color },
     AssignedTo := u.map (fun a => { ExternalID := a.ExternalID, Name := a.Name }),
     Title := t.Title, Description := t.Description, Priority := t.Priority,
     DueDate := t.DueDate, Position := t.Position })

/-- The joins of `GetTasksByBoardID` for one task row. -/
def TaskRepository.joinTask (s : Store) (t : Task) : List (Int × TaskResponse) :=
  (s.boards.filter (fun b => t.BoardID == b.ID)).flatMap (fun b =>
    (s.statuses.filter (fun st => t.StatusID == st.ID)).flatMap (fun st =>
      (TaskRepository.leftJoinAssignee s t).map (fun u => TaskRepository.scanRow t b st u)))

/-- The order of `ORDER BY s.position ASC, t.position ASC`. -/
def TaskRepository.byStatusThenPosition (a b : Int × TaskResponse) : Prop :=
  a.1 < b.1 ∨ (a.1 = b.1 ∧ a.2.Position ≤ b.2.Position)

instance : DecidableRel TaskRepository.byStatusThenPosition :=
  fun a b => inferInstanceAs (Decidable (a.1 < b.1 ∨ (a.1 = b.1 ∧ a.2.Position ≤ b.2.Position)))

/-- Method `TaskRepository.GetTasksByBoardID`: the active tasks of the board joined
with their board, status and (left join) assignee, ordered by status position
and then task position; rows with equal keys keep their table order. -/
def TaskRepository.GetTasksByBoardID (s : Store) (boardID : Int) :
    Except Err (List TaskResponse) :=
  .ok ((((s.tasks.filter (fun t => t.BoardID == boardID && t.ActiveStatus == 1)).flatMap
    (TaskRepository.joinTask s)).insertionSort TaskRepository.byStatusThenPosition).map
      (fun r => r.2))

/-- The statement `SELECT ... FROM tasks WHERE external_id = $1 AND active_status = 1`. -/
def TaskRepository.GetTaskByExternalID (s : Store) (externalID : String) : Except Err Task :=
  QueryRow (s.tasks.filter (fun t => t.ExternalID == externalID && t.ActiveStatus == 1))

/-- What `UPDATE tasks SET ... WHERE id = $8` does to one row `r`: a row with the
id of `t` gets the seven written columns of `t`, any other row stays. -/
def TaskRepository.setColumns (t r : Task) : Task :=
  if r.ID == t.ID then
    { r with Title := t.Title, Description := t.Description, Priority := t.Priority,
             DueDate := t.DueDate, StatusID := t.StatusID, AssignedTo := t.AssignedTo,
             Position := t.Position }
  else r

/-- The statement `UPDATE tasks SET title = $1, description = $2, priority = $3,
due_date = $4, status_id = $5, assigned_to = $6, position = $7 WHERE id = $8
RETURNING modified_at`, scanned with `QueryRow`. -/
def TaskRepository.UpdateTask (s : Store) (t : Task) : Except Err Unit × Store :=
  if s.tasks.any (fun r => r.ID == t.ID) then
    (.ok (), { s with tasks := s.tasks.map (TaskRepository.setColumns t) })
  else (.error .ErrNoRows, s)

/-- The statement `DELETE FROM tasks WHERE id = $1`, run with `Exec`. -/
def TaskRepository.DeleteTask (s : Store) (id : Int) : Except Err Unit × Store :=
  (.ok (), { s with tasks := s.tasks.filter (fun t => !(t.ID == id)) })

/-! ## Package `services`: statuses -/

/-- Method `StatusService.mapToResponse`. -/
def StatusService.mapToResponse (st : Status) : StatusResponse :=
  { ExternalID := st.ExternalID, Name := st.Name, Color := st.Color, Position := st.Position }

/-- Method `StatusService.CreateStatus`. -/
def StatusService.CreateStatus (s : Store) (req : StatusRequest) (uuid : String) :
    Except Err StatusResponse × Store :=
  match StatusRepository.GetStatusByName s req.Name with
  | .ok _ => (.error (.New "a status with this name already exists"), s)
  | .error _ =>
    let pos : Int := req.Position.getD 0
    let status : Status :=
      { ID := 0, ExternalID := uuid, Name := req.Name, Color := req.Color, Position := pos,
        ActiveStatus := 0 }
    match StatusRepository.CreateStatus s status with
    | (.error err, s1) => (.error err, s1)
    | (.ok status1, s1) => (.ok (StatusService.mapToResponse status1), s1)

/-- Method `StatusService.GetAllStatuses`. -/
def StatusService.GetAllStatuses (s : Store) : Except Err (List StatusResponse) :=
  match StatusRepository.GetAllStatuses s with
  | .error err => .error err
  | .ok statuses => .ok (statuses.map StatusService.mapToResponse)

/-- Method `StatusService.GetStatus`. -/
def StatusService.GetStatus (s : Store) (externalID : String) : Except Err StatusResponse :=
  match StatusRepository.GetStatusByExternalID s externalID with
  | .error err => if err = .ErrNoRows then .error (.New "status not found") else .error err
  | .ok status => .ok (StatusService.mapToResponse status)

/-- Method `StatusService.UpdateStatus`. -/
def StatusService.UpdateStatus (s : Store) (externalID : String) (req : StatusRequest) :
    Except Err StatusResponse × Store :=
  match StatusRepository.GetStatusByExternalID s externalID with
  | .error _ => (.error (.New "status not found"), s)
  | .ok status =>
    if status.Name != req.Name && (StatusRepository.GetStatusByName s req.Name).isOk then
      (.error (.New "a status with this new name already exists"), s)
    else
      let status1 : Status :=
        { status with Name := req.Name, Color := req.Color,
                      Position := req.Position.getD status.Position }
      match StatusRepository.UpdateStatus s status1 with
      | (.error err, s1) => (.error err, s1)
      | (.ok _, s1) => (.ok (StatusService.mapToResponse status1), s1)

/-- Method `StatusService.DeleteStatus`: drops the status unless an active task
references it. -/
def StatusService.DeleteStatus (s : Store) (externalID : String) : Except Err Unit × Store :=
  match StatusRepository.GetStatusByExternalID s externalID with
  | .error _ => (.error (.New "status not found"), s)
  | .ok status =>
    match StatusRepository.CheckIfReferenced s status.ID with
    | .error _ => (.error (.New "could not verify status references"), s)
    | .ok referenced =>
      if referenced then
        (.error (.New "conflict: status is in use by one or more tasks and cannot be deleted"), s)
      else StatusRepository.DeleteStatus s status.ID

/-! ## Package `services`: boards -/

/-- Method `BoardService.CreateBoard`. -/
def BoardService.CreateBoard (s : Store) (userExternalID workspaceExternalID : String)
    (req : BoardRequest) (uuid : String) : Except Err BoardResponse × Store :=
  match UserRepository.GetUserByExternalID s userExternalID with
  | .error _ => (.error (.New "user not found"), s)
  | .ok user =>
    match WorkspaceRepository.GetWorkspaceByExternalID s workspaceExternalID with
    | .error _ => (.error (.New "workspace not found"), s)
    | .ok w =>
      match WorkspaceRepository.GetMemberRole s w.ID user.ID with
      | .error _ => (.error (.New "unauthorized: not a member of this workspace"), s)
      | .ok _ =>
        let board : Board :=
          { ID := 0, ExternalID := uuid, WorkspaceID := w.ID, WorkspaceExternalID := "",
            CreatedByID := some user.ID, Name := req.Name, Description := req.Description,
            ActiveStatus := 0 }
        match BoardRepository.CreateBoard s board with
        | (.error err, s1) => (.error err, s1)
        | (.ok board1, s1) =>
          (.ok { ExternalID := board1.ExternalID, WorkspaceExternalID := w.ExternalID,
                 Name := board1.Name, Description := board1.Description }, s1)

/-- Method `BoardService.GetWorkspaceBoards`. -/
def BoardService.GetWorkspaceBoards (s : Store) (userExternalID workspaceExternalID : String) :
    Except Err (List BoardResponse) :=
  match UserRepository.GetUserByExternalID s userExternalID with
  | .error _ => .error (.New "user not found")
  | .ok user =>
    match WorkspaceRepository.GetWorkspaceByExternalID s workspaceExternalID with
    | .error _ => .error (.New "workspace not found")
    | .ok w =>
      match WorkspaceRepository.GetMemberRole s w.ID user.ID with
      | .error _ => .error (.New "unauthorized: not a member of this workspace")
      | .ok _ =>
        match BoardRepository.GetBoardsByWorkspaceID s w.ID with
        | .error err => .error err
        | .ok boards =>
          .ok (boards.map (fun b =>
            ({ ExternalID := b.ExternalID, WorkspaceExternalID := w.ExternalID, Name := b.Name,
               Description := b.Description } : BoardResponse)))

/-- Method `BoardService.GetBoard`. -/
def BoardService.GetBoard (s : Store) (userExternalID boardExternalID : String) :
    Except Err BoardResponse :=
  match UserRepository.GetUserByExternalID s userExternalID with
  | .error _ => .error (.New "user not found")
  | .ok user =>
    match BoardRepository.GetBoardByExternalID s boardExternalID with
    | .error _ => .error (.New "board not found")
    | .ok b =>
      match WorkspaceRepository.GetMemberRole s b.WorkspaceID user.ID with
      | .error _ => .error (.New "unauthorized: not a member of the workspace for this board")
      | .ok _ =>
        .ok { ExternalID := b.ExternalID, WorkspaceExternalID := b.WorkspaceExternalID,
              Name := b.Name, Description := b.Description }

/-- Method `BoardService.UpdateBoard`. -/
def BoardService.UpdateBoard (s : Store) (userExternalID boardExternalID : String)
    (req : BoardRequest) : Except Err BoardResponse × Store :=
  match UserRepository.GetUserByExternalID s userExternalID with
  | .error _ => (.error (.New "user not found"), s)
  | .ok user =>
    match BoardRepository.GetBoardByExternalID s boardExternalID with
    | .error _ => (.error (.New "board not found"), s)
    | .ok b =>
      match WorkspaceRepository.GetMemberRole s b.WorkspaceID user.ID with
      | .error _ => (.error (.New "unauthorized: not a member of the workspace"), s)
      | .ok _ =>
        let b1 : Board := { b with Name := req.Name, Description := req.Description }
        match BoardRepository.UpdateBoard s b1 with
        | (.error err, s1) => (.error err, s1)
        | (.ok _, s1) =>
          (.ok { ExternalID := b1.ExternalID, WorkspaceExternalID := b1.WorkspaceExternalID,
                 Name := b1.Name, Description := b1.Description }, s1)

/-- Method `BoardService.DeleteBoard`. -/
def BoardService.DeleteBoard (s : Store) (userExternalID boardExternalID : String) :
    Except Err Unit × Store :=
  match UserRepository.GetUserByExternalID s userExternalID with
  | .error _ => (.error (.New "user not found"), s)
  | .ok user =>
    match BoardRepository.GetBoardByExternalID s boardExternalID with
    | .error _ => (.error (.New "board not found"), s)
    | .ok b =>
      match WorkspaceRepository.GetMemberRole s b.WorkspaceID user.ID with
      | .error _ => (.error (.New "unauthorized: not a member of the workspace"), s)
      | .ok _ => BoardRepository.DeleteBoard s b.ID

/-! ## Package `services`: tasks -/

/-- Method `TaskService.GetTask`: in the sources a stub that returns a response
holding only the external id. -/
def TaskService.GetTask (_s : Store) (_userExternalID taskExternalID : String) :
    Except Err TaskResponse :=
  .ok { ExternalID := taskExternalID, BoardExternalID := "",
        Status := { ExternalID := "", Name := "", Color := none }, AssignedTo := none,
        Title := "", Description := none, Priority := "", DueDate := none, Position := 0 }

/-- Method `TaskService.CreateTask`. -/
def TaskService.CreateTask (s : Store) (userExternalID boardExternalID : String)
    (req : TaskRequest) (uuid : String) : Except Err Task × Store :=
  match UserRepository.GetUserByExternalID s userExternalID with
  | .error _ => (.error (.New "user not found"), s)
  | .ok user =>
    match BoardRepository.GetBoardByExternalID s boardExternalID with
    | .error _ => (.error (.New "board not found"), s)
    | .ok board =>
      match WorkspaceRepository.GetMemberRole s board.WorkspaceID user.ID with
      | .error _ => (.error (.New "unauthorized: not a member of the workspace"), s)
      | .ok _ =>
        match StatusRepository.GetStatusByExternalID s req.StatusExternalID with
        | .error _ => (.error (.New "invalid status_external_id"), s)
        | .ok status =>
          let resolved : Except Err (Option Int) :=
            match req.AssignedToExternalID with
            | none => .ok none
            | some ext =>
              match UserRepository.GetUserByExternalID s ext with
              | .error _ => .error (.New "invalid assigned_to_external_id")
              | .ok assignee =>
                match WorkspaceRepository.GetMemberRole s board.WorkspaceID assignee.ID with
                | .error _ => .error (.New "cannot assign task to a non-member")
                | .ok _ => .ok (some assignee.ID)
          match resolved with
          | .error err => (.error err, s)
          | .ok assignedTo =>
            let priority : String := if req.Priority == "" then "low" else req.Priority
            let task : Task :=
              { ID := 0, ExternalID := uuid, BoardID := board.ID, StatusID := status.ID,
                AssignedTo := assignedTo, CreatedByID := user.ID, Title := req.Title,
                Description := req.Description, Priority := priority, DueDate := req.DueDate,
                Position := 0, ActiveStatus := 0 }
            TaskRepository.CreateTask s task

/-- Method `TaskService.GetBoardTasks`. -/
def TaskService.GetBoardTasks (s : Store) (userExternalID boardExternalID : String) :
    Except Err (List TaskResponse) :=
  match UserRepository.GetUserByExternalID s userExternalID with
  | .error _ => .error (.New "user not found")
  | .ok user =>
    match BoardRepository.GetBoardByExternalID s boardExternalID with
    | .error _ => .error (.New "board not found")
    | .ok board =>
      match WorkspaceRepository.GetMemberRole s board.WorkspaceID user.ID with
      | .error _ => .error (.New "unauthorized: not a member of the workspace")
      | .ok _ => TaskRepository.GetTasksByBoardID s board.ID

/-- Method `TaskService.UpdateTask`. -/
def TaskService.UpdateTask (s : Store) (userExternalID taskExternalID : String)
    (req : TaskRequest) : Except Err TaskResponse × Store :=
  match UserRepository.GetUserByExternalID s userExternalID with
  | .error _ => (.error (.New "user not found"), s)
  | .ok _ =>
    match TaskRepository.GetTaskByExternalID s taskExternalID with
    | .error _ => (.error (.New "task not found"), s)
    | .ok task =>
      match StatusRepository.GetStatusByExternalID s req.StatusExternalID with
      | .error _ => (.error (.New "invalid status_external_id"), s)
      | .ok status =>
        let resolved : Except Err (Option Int) :=
          match req.AssignedToExternalID with
          | none => .ok none
          | some ext =>
            match UserRepository.GetUserByExternalID s ext with
            | .error _ => .error (.New "invalid assigned_to_external_id")
            | .ok assignee => .ok (some assignee.ID)
        match resolved with
        | .error err => (.error err, s)
        | .ok assignedTo =>
          let priority : String := if req.Priority == "" then task.Priority else req.Priority
          let task1 : Task :=
            { task with Title := req.Title, Description := req.Description, Priority := priority,
                        DueDate := req.DueDate, StatusID := status.ID, AssignedTo := assignedTo }
          match TaskRepository.UpdateTask s task1 with
          | (.error err, s1) => (.error err, s1)
          | (.ok _, s1) => (TaskService.GetTask s1 userExternalID taskExternalID, s1)

/-- Method `TaskService.MoveTaskStatus`. -/
def TaskService.MoveTaskStatus (s : Store) (userExternalID taskExternalID : String)
    (req : MoveTaskStatusRequest) : Except Err TaskResponse × Store :=
  match UserRepository.GetUserByExternalID s userExternalID with
  | .error _ => (.error (.New "user not found"), s)
  | .ok _ =>
    match TaskRepository.GetTaskByExternalID s taskExternalID with
    | .error _ => (.error (.New "task not found"), s)
    | .ok task =>
      match StatusRepository.GetStatusByExternalID s req.StatusExternalID with
      | .error _ => (.error (.New "invalid status_external_id"), s)
      | .ok status =>
        let task1 : Task := { task with StatusID := status.ID }
        match TaskRepository.UpdateTask s task1 with
        | (.error err, s1) => (.error err, s1)
        | (.ok _, s1) => (TaskService.GetTask s1 userExternalID taskExternalID, s1)

/-- Method `TaskService.AssignTask`: assigns or (with no assignee in the request)
unassigns the task. -/
def TaskService.AssignTask (s : Store) (userExternalID taskExternalID : String)
    (req : AssignTaskRequest) : Except Err TaskResponse × Store :=
  match UserRepository.GetUserByExternalID s userExternalID with
  | .error _ => (.error (.New "user not found"), s)
  | .ok _ =>
    match TaskRepository.GetTaskByExternalID s taskExternalID with
    | .error _ => (.error (.New "task not found"), s)
    | .ok task =>
      let resolved : Except Err (Option Int) :=
        match req.AssignedToExternalID with
        | none => .ok none
        | some ext =>
          match UserRepository.GetUserByExternalID s ext with
          | .error _ => .error (.New "invalid assigned_to_external_id")
          | .ok assignee => .ok (some assignee.ID)
      match resolved with
      | .error err => (.error err, s)
      | .ok assignedTo =>
        let task1 : Task := { task with AssignedTo := assignedTo }
        match TaskRepository.UpdateTask s task1 with
        | (.error err, s1) => (.error err, s1)
        | (.ok _, s1) => (TaskService.GetTask s1 userExternalID taskExternalID, s1)

/-- Method `TaskService.DeleteTask`. -/
def TaskService.DeleteTask (s : Store) (userExternalID taskExternalID : String) :
    Except Err Unit × Store :=
  match UserRepository.GetUserByExternalID s userExternalID with
  | .error _ => (.error (.New "user not found"), s)
  | .ok _ =>
    match TaskRepository.GetTaskByExternalID s taskExternalID with
    | .error _ => (.error (.New "task not found"), s)
    | .ok task => TaskRepository.DeleteTask s task.ID

/-! ## Package `handlers` -/

/-- What a handler writes with `utils.SuccessResponse` or `utils.ErrorResponse`:
the HTTP status code and the message of the JSON body. -/
structure HTTPResponse where
  Code : Nat
  Message : String
deriving DecidableEq, Repr

/-- The call `strings.HasPrefix(str, pre)`. -/
def strings.HasPrefix (str pre : String) : Bool := pre.data.isPrefixOf str.data

/-- Method `StatusHandler.DeleteStatus`: a service error whose text starts with
`conflict` is answered with 409, any other error with 400. -/
def StatusHandler.DeleteStatus (s : Store) (extID : String) : HTTPResponse × Store :=
  match StatusService.DeleteStatus s extID with
  | (.error err, s1) =>
    if strings.HasPrefix err.Error "conflict" then ({ Code := 409, Message := err.Error }, s1)
    else ({ Code := 400, Message := err.Error }, s1)
  | (.ok _, s1) => ({ Code := 200, Message := "status deleted successfully" }, s1)

/-! ## Reachable states and the predicates of the specification -/

/-- The membership rows of user `userID` in workspace `workspaceID`. -/
def memberRows (s : Store) (workspaceID userID : Int) : List WorkspaceMember :=
  s.workspace_members.filter (fun m => m.WorkspaceID == workspaceID && m.UserID == userID)

/-- The membership rows of workspace `workspaceID` whose role is `owner`. -/
def ownerRows (s : Store) (workspaceID : Int) : List WorkspaceMember :=
  s.workspace_members.filter (fun m => m.WorkspaceID == workspaceID && m.Role == "owner")

/-- A store in which only users exist: no workspace, membership, board, status
or task yet, and every sequence at its first value. -/
def Store.initial (users : List User) (users_seq : Int) : Store :=
  { users := users, workspaces := [], workspace_members := [], boards := [], statuses := [],
    tasks := [], users_seq := users_seq, workspaces_seq := 1, workspace_members_seq := 1,
    boards_seq := 1, statuses_seq := 1, tasks_seq := 1 }

/-- The stores reached from an initial store by successful calls of
`CreateWorkspace`, `InviteMember`, `UpdateMemberRole` and `RemoveMember`, where
`InviteMember` and `UpdateMemberRole` carry a role satisfying `roleOK`. The
table `users` belongs to the auth service and may change between two calls. -/
inductive ReachableBy (roleOK : String → Prop) : Store → Prop where
  | initial (users : List User) (users_seq : Int) : ReachableBy roleOK (Store.initial users users_seq)
  | users_changed {s : Store} (users : List User) (users_seq : Int) :
      ReachableBy roleOK s → ReachableBy roleOK { s with users := users, users_seq := users_seq }
  | CreateWorkspace {s s1 : Store} {creator uuid : String} {req : WorkspaceRequest}
      {resp : WorkspaceResponse} :
      ReachableBy roleOK s → WorkspaceService.CreateWorkspace s creator req uuid = (.ok resp, s1) →
      ReachableBy roleOK s1
  | InviteMember {s s1 : Store} {actor workspace : String} {req : InviteMemberRequest} :
      ReachableBy roleOK s → roleOK req.Role →
      WorkspaceService.InviteMember s actor workspace req = (.ok (), s1) → ReachableBy roleOK s1
  | UpdateMemberRole {s s1 : Store} {actor workspace target : String}
      {req : UpdateMemberRoleRequest} :
      ReachableBy roleOK s → roleOK req.Role →
      WorkspaceService.UpdateMemberRole s actor workspace target req = (.ok (), s1) →
      ReachableBy roleOK s1
  | RemoveMember {s s1 : Store} {actor workspace target : String} :
      ReachableBy roleOK s →
      WorkspaceService.RemoveMember s actor workspace target = (.ok (), s1) → ReachableBy roleOK s1

/-- The stores reached from an initial store by any sequence of successful
`CreateWorkspace`, `InviteMember`, `UpdateMemberRole` and `RemoveMember` calls. -/
def Reachable (s : Store) : Prop := ReachableBy (fun _ => True) s

/-- What the store keeps true about workspaces and memberships: internal ids
lie below the sequence, rows with one workspace id agree on the owner, the
recorded owner has exactly one membership row and its role is `owner`, and no
(workspace, user) pair has two rows. -/
structure MembershipInv (s : Store) : Prop where
  workspaces_lt : ∀ w ∈ s.workspaces, w.ID < s.workspaces_seq
  members_lt : ∀ m ∈ s.workspace_members, m.WorkspaceID < s.workspaces_seq
  owner_of_id : ∀ w1 ∈ s.workspaces, ∀ w2 ∈ s.workspaces, w1.ID = w2.ID → w1.OwnerID = w2.OwnerID
  owner_row : ∀ w ∈ s.workspaces, (memberRows s w.ID w.OwnerID).map (fun m => m.Role) = ["owner"]
  key : ∀ workspaceID userID : Int, (memberRows s workspaceID userID).length ≤ 1

/-- Two users, `alice` (id 1) and `bob` (id 2), and nothing else. -/
def twoUsers : Store :=
  Store.initial
    [{ ID := 1, ExternalID := "alice", Name := "Alice", Email := "alice@example.org",
       Password := "hash-a", AvatarURL := none, ActiveStatus := 1 },
     { ID := 2, ExternalID := "bob", Name := "Bob", Email := "bob@example.org",
       Password := "hash-b", AvatarURL := none, ActiveStatus := 1 }] 3

/-- The request used in the examples: a workspace named `Team`. -/
def teamRequest : WorkspaceRequest := { Name := "Team", Description := none }

/-- The store after `alice` created the workspace `w-1` in `twoUsers`. -/
def oneWorkspace : Store :=
  (WorkspaceService.CreateWorkspace twoUsers "alice" teamRequest "w-1").2

/-- The store after `alice` then invited `bob` into `w-1` with role `owner`. -/
def twoOwners : Store :=
  (WorkspaceService.InviteMember oneWorkspace "alice" "w-1"
    { UserExternalID := "bob", Role := "owner" }).2

/-- The store after `alice` invited `bob` into `w-1` with role `member`. -/
def withMember : Store :=
  (WorkspaceService.InviteMember oneWorkspace "alice" "w-1"
    { UserExternalID := "bob", Role := "member" }).2

/-- Every membership row with role `owner` belongs to the recorded owner of
its workspace. -/
def OwnerRoleInv (s : Store) : Prop :=
  ∀ m ∈ s.workspace_members, m.Role = "owner" →
    ∀ w ∈ s.workspaces, w.ID = m.WorkspaceID → m.UserID = w.OwnerID

/-- A store for the examples. Users `alice` (1), `bob` (2) and `carol` (3);
workspace `w-1` owned by `alice` with member `bob`, workspace `w-2` owned by
`carol`; board `b-1` in `w-1`; statuses `s-1` (Todo) and `s-2` (Done); task
`t-1` on `b-1` in status `s-1`, unassigned. -/
def sampleStore : Store :=
  { users :=
      [{ ID := 1, ExternalID := "alice", Name := "Alice", Email := "alice@example.org",
         Password := "hash-a", AvatarURL := none, ActiveStatus := 1 },
       { ID := 2, ExternalID := "bob", Name := "Bob", Email := "bob@example.org",
         Password := "hash-b", AvatarURL := none, ActiveStatus := 1 },
       { ID := 3, ExternalID := "carol", Name := "Carol", Email := "carol@example.org",
         Password := "hash-c", AvatarURL := none, ActiveStatus := 1 }],
    workspaces :=
      [{ ID := 1, ExternalID := "w-1", Name := "Team", Description := none, OwnerID := 1,
         ActiveStatus := 1 },
       { ID := 2, ExternalID := "w-2", Name := "Other", Description := none, OwnerID := 3,
         ActiveStatus := 1 }],
    workspace_members :=
      [{ ID := 1, WorkspaceID := 1, UserID := 1, Role := "owner" },
       { ID := 2, WorkspaceID := 1, UserID := 2, Role := "member" },
       { ID := 3, WorkspaceID := 2, UserID := 3, Role := "owner" }],
    boards :=
      [{ ID := 1, ExternalID := "b-1", WorkspaceID := 1, CreatedByID := some 1, Name := "Board",
         Description := none, ActiveStatus := 1 }],
    statuses :=
      [{ ID := 1, ExternalID := "s-1", Name := "Todo", Color := none, Position := 0,
         ActiveStatus := 1 },
       { ID := 2, ExternalID := "s-2", Name := "Done", Color := some "green", Position := 1,
         ActiveStatus := 1 }],
    tasks :=
      [{ ID := 1, ExternalID := "t-1", BoardID := 1, StatusID := 1, AssignedTo := none,
         CreatedByID := 1, Title := "Write", Description := none, Priority := "low",
         DueDate := none, Position := 0, ActiveStatus := 1 }],
    users_seq := 4, workspaces_seq := 3, workspace_members_seq := 4, boards_seq := 2,
    statuses_seq := 3, tasks_seq := 2 }

/-- Some ACTIVE task references the status with internal id `statusID`. -/
def referencedByActiveTask (s : Store) (statusID : Int) : Prop :=
  ∃ t ∈ s.tasks, t.StatusID = statusID ∧ t.ActiveStatus = 1

/-- External ids identify statuses: rows with one external id have one
internal id (the identifier generator hands out each external id once). -/
def statusExternalIDsUnique (s : Store) : Prop :=
  ∀ a ∈ s.statuses, ∀ b ∈ s.statuses, a.ExternalID = b.ExternalID → a.ID = b.ID

/-- The names of the ACTIVE statuses, in table order. -/
def activeStatusNames (s : Store) : List String :=
  (s.statuses.filter (fun st => st.ActiveStatus == 1)).map (fun st => st.Name)

/-- What the store keeps true about statuses: internal ids are pairwise
distinct and lie below the sequence, and no two ACTIVE statuses share a name. -/
structure StatusInv (s : Store) : Prop where
  ids : (s.statuses.map (fun st => st.ID)).Nodup
  ids_lt : ∀ st ∈ s.statuses, st.ID < s.statuses_seq
  names : (activeStatusNames s).Nodup

/-- A task request that names `carol` as assignee. -/
def assignCarol : TaskRequest :=
  { Title := "Write", Description := none, Priority := "", DueDate := none,
    StatusExternalID := "s-1", AssignedToExternalID := some "carol" }

/-- The store after the two inserts of `CreateWorkspace`: a new ACTIVE workspace
row with the next id, and its owner's membership row. -/
def Store.withWorkspace (s : Store) (uuid : String) (req : WorkspaceRequest) (ownerID : Int) :
    Store :=
  { s with
    workspaces := s.workspaces ++
      [{ ID := s.workspaces_seq, ExternalID := uuid, Name := req.Name,
         Description := req.Description, OwnerID := ownerID, ActiveStatus := 1 }],
    workspaces_seq := s.workspaces_seq + 1,
    workspace_members := s.workspace_members ++
      [{ ID := s.workspace_members_seq, WorkspaceID := s.workspaces_seq, UserID := ownerID,
         Role := "owner" }],
    workspace_members_seq := s.workspace_members_seq + 1 }

/-- The store after the insert of one membership row. -/
def Store.withMember (s : Store) (workspaceID userID : Int) (role : String) : Store :=
  { s with
    workspace_members := s.workspace_members ++
      [{ ID := s.workspace_members_seq, WorkspaceID := workspaceID, UserID := userID,
         Role := role }],
    workspace_members_seq := s.workspace_members_seq + 1 }

/-- The assignee an `AssignTask` request asks for, as `GetBoardTasks` reports
assignees: nobody for an explicit null, otherwise the external id and name of
the active user with the supplied external id. -/
def requestedAssignee (s : Store) (req : AssignTaskRequest) : Option TaskAssigneeInfo :=
  match req.AssignedToExternalID with
  | none => none
  | some ext =>
    match UserRepository.GetUserByExternalID s ext with
    | .ok u => some { ExternalID := u.ExternalID, Name := u.Name }
    | .error _ => none

/-- The entry of task `taskExternalID` with its assignee replaced by `want`;
entries of other tasks stay. -/
def setAssignee (taskExternalID : String) (want : Option TaskAssigneeInfo) (r : TaskResponse) :
    TaskResponse :=
  if r.ExternalID == taskExternalID then { r with AssignedTo := want } else r

/-- Internal ids identify users and tasks (primary keys), and external ids
identify tasks (the identifier generator hands out each once). -/
structure TaskKeys (s : Store) : Prop where
  user_ids : (s.users.map (fun u => u.ID)).Nodup
  task_ids : (s.tasks.map (fun t => t.ID)).Nodup
  task_external_ids : ∀ t1 ∈ s.tasks, ∀ t2 ∈ s.tasks, t1.ExternalID = t2.ExternalID → t1.ID = t2.ID

/-- The binding tags of `models.InviteMemberRequest` as `c.ShouldBindJSON` checks
them on the decoded body: `user_external_id` is `required` (not empty), `role`
is `required` and `oneof=owner admin member`. -/
def InviteMemberRequest.bindingOK (req : InviteMemberRequest) : Bool :=
  req.UserExternalID != "" && req.Role != "" &&
    (req.Role == "owner" || req.Role == "admin" || req.Role == "member")

/-- Method `WorkspaceHandler.InviteMember`: a body that fails its binding is
answered with 400 before the service is called; a service error is answered
with 400 and its text; success with 201. -/
def WorkspaceHandler.InviteMember (s : Store) (userExtID workspaceExtID : String)
    (req : InviteMemberRequest) : HTTPResponse × Store :=
  if !req.bindingOK then ({ Code := 400, Message := "Invalid request body" }, s)
  else
    match WorkspaceService.InviteMember s userExtID workspaceExtID req with
    | (.error err, s1) => ({ Code := 400, Message := err.Error }, s1)
    | (.ok _, s1) => ({ Code := 201, Message := "member added successfully" }, s1)

/-- What a handler writes when success carries data: the HTTP status code, the
`error` text of an error body, or the data of a success body. -/
structure HTTPReply (α : Type) where
  Code : Nat
  Error : Option String
  Data : Option α
deriving DecidableEq, Repr

/-- Method `WorkspaceHandler.GetWorkspace`: every service error is answered with
404 and its text. -/
def WorkspaceHandler.GetWorkspace (s : Store) (userExtID workspaceExtID : String) :
    HTTPReply WorkspaceResponse :=
  match WorkspaceService.GetWorkspace s userExtID workspaceExtID with
  | .error err => { Code := 404, Error := some err.Error, Data := none }
  | .ok workspace => { Code := 200, Error := none, Data := some workspace }

/-- Method `WorkspaceHandler.DeleteWorkspace`: every service error is answered
with 400 and its text. -/
def WorkspaceHandler.DeleteWorkspace (s : Store) (userExtID workspaceExtID : String) :
    HTTPResponse × Store :=
  match WorkspaceService.DeleteWorkspace s userExtID workspaceExtID with
  | (.error err, s1) => ({ Code := 400, Message := err.Error }, s1)
  | (.ok _, s1) => ({ Code := 200, Message := "workspace deleted successfully" }, s1)

/-- A task request whose status external id resolves to nothing. -/
def unknownStatus : TaskRequest :=
  { Title := "Write", Description := none, Priority := "", DueDate := none,
    StatusExternalID := "nope", AssignedToExternalID := none }

/-- The result `r` of a call made on store `s` kept the store if it is an error:
the store it returns is `s` itself. -/
def keepsStoreOnError {α : Type} (r : Except Err α × Store) (s : Store) : Prop :=
  ∀ e, r.1 = .error e → r.2 = s

/-! ## A database that can fail -/

/-- The errors the database reports to the four steps of the transaction of
`WorkspaceRepository.CreateWorkspace`: `DB.Begin`, the insert of the workspace
row, the insert of the owner's membership row, and `tx.Commit`. `none` means
that the step is not disturbed. -/
structure CreateWorkspaceFaults where
  Begin : Option Err
  InsertWorkspace : Option Err
  InsertMember : Option Err
  Commit : Option Err
deriving DecidableEq, Repr

/-- No step is disturbed. -/
def CreateWorkspaceFaults.none : CreateWorkspaceFaults :=
  { Begin := Option.none, InsertWorkspace := Option.none, InsertMember := Option.none,
    Commit := Option.none }

/-- Method `WorkspaceRepository.CreateWorkspace` on a database that can fail. Each
step returns its error at once; the deferred `tx.Rollback()` then discards
what the transaction wrote.
Modelled from the spec: the persistence layer is transactional, so a
transaction that is rolled back, or whose commit fails, leaves no row. -/
def WorkspaceRepository.CreateWorkspaceTx (f : CreateWorkspaceFaults) (s : Store)
    (workspace : Workspace) : Except Err Workspace × Store :=
  match f.Begin with
  | some err => (.error err, s)
  | Option.none =>
    match f.InsertWorkspace with
    | some err => (.error err, s)
    | Option.none =>
      let workspace1 : Workspace := { workspace with ID := s.workspaces_seq }
      let row : WorkspaceRow :=
        { ID := workspace1.ID, ExternalID := workspace.ExternalID, Name := workspace.Name,
          Description := workspace.Description, OwnerID := workspace.OwnerID,
          ActiveStatus := 1 }
      let tx : Store := { s with workspaces := s.workspaces ++ [row],
                                 workspaces_seq := s.workspaces_seq + 1 }
      let inserted : Except Err WorkspaceMember × Store :=
        match f.InsertMember with
        | some err => (.error err, tx)
        | Option.none => insertWorkspaceMember tx workspace1.ID workspace1.OwnerID "owner"
      match inserted with
      | (.error err, _) => (.error err, s)
      | (.ok _, tx1) =>
        match f.Commit with
        | some err => (.error err, s)
        | Option.none => (.ok workspace1, tx1)

/-- Method `WorkspaceService.CreateWorkspace` on a database that can fail in the
transaction. -/
def WorkspaceService.CreateWorkspaceTx (f : CreateWorkspaceFaults) (s : Store)
    (creatorExternalID : String) (req : WorkspaceRequest) (uuid : String) :
    Except Err WorkspaceResponse × Store :=
  match UserRepository.GetUserByExternalID s creatorExternalID with
  | .error _ => (.error (.New "user not found"), s)
  | .ok user =>
    let workspace : Workspace :=
      { ID := 0, ExternalID := uuid, Name := req.Name, Description := req.Description,
        OwnerID := user.ID, OwnerExternalID := "", ActiveStatus := 0 }
    match WorkspaceRepository.CreateWorkspaceTx f s workspace with
    | (.error err, s1) => (.error err, s1)
    | (.ok workspace1, s1) =>
      (.ok { ExternalID := workspace1.ExternalID, Name := workspace1.Name,
             Description := workspace1.Description, OwnerExternalID := user.ExternalID }, s1)

/-- The database is unavailable when the owner's membership row is inserted. -/
def memberInsertFails : CreateWorkspaceFaults :=
  { Begin := Option.none, InsertWorkspace := Option.none,
    InsertMember := some (.Db "driver: bad connection"), Commit := Option.none }

/-- The database is unavailable when the workspace row is inserted. -/
def workspaceInsertFails : CreateWorkspaceFaults :=
  { Begin := Option.none, InsertWorkspace := some (.Db "driver: bad connection"),
    InsertMember := Option.none, Commit := Option.none }

/-- The repository methods that `WorkspaceService.GetWorkspace`,
`StatusService.GetStatus` and `StatusService.DeleteStatus` call, each as the
result it returns; on a database that is unavailable a method returns the
driver's error instead of rows. -/
structure Repositories where
  GetUserByExternalID : String → Except Err User
  GetWorkspaceByExternalID : String → Except Err Workspace
  GetMemberRole : Int → Int → Except Err String
  GetStatusByExternalID : String → Except Err Status
  CheckIfReferenced : Int → Except Err Bool
  DeleteStatus : Int → Except Err Unit

/-- The repositories over a sound database holding `s`. -/
def Repositories.ofStore (s : Store) : Repositories :=
  { GetUserByExternalID := UserRepository.GetUserByExternalID s,
    GetWorkspaceByExternalID := WorkspaceRepository.GetWorkspaceByExternalID s,
    GetMemberRole := WorkspaceRepository.GetMemberRole s,
    GetStatusByExternalID := StatusRepository.GetStatusByExternalID s,
    CheckIfReferenced := StatusRepository.CheckIfReferenced s,
    DeleteStatus := fun id => (StatusRepository.DeleteStatus s id).1 }

/-- Method `WorkspaceService.GetWorkspace`, over the repositories it is given. -/
def WorkspaceService.GetWorkspaceVia (r : Repositories)
    (userExternalID workspaceExternalID : String) : Except Err WorkspaceResponse :=
  match r.GetUserByExternalID userExternalID with
  | .error _ => .error (.New "user not found")
  | .ok user =>
    match r.GetWorkspaceByExternalID workspaceExternalID with
    | .error _ => .error (.New "workspace not found")
    | .ok w =>
      match r.GetMemberRole w.ID user.ID with
      | .error _ => .error (.New "unauthorized: not a member of this workspace")
      | .ok _ =>
        .ok { ExternalID := w.ExternalID, Name := w.Name, Description := w.Description,
              OwnerExternalID := w.OwnerExternalID }

/-- Method `StatusService.GetStatus`, over the repositories it is given. -/
def StatusService.GetStatusVia (r : Repositories) (externalID : String) :
    Except Err StatusResponse :=
  match r.GetStatusByExternalID externalID with
  | .error err => if err = .ErrNoRows then .error (.New "status not found") else .error err
  | .ok status => .ok (StatusService.mapToResponse status)

/-- Method `StatusService.DeleteStatus`, over the repositories it is given; the
error it returns. -/
def StatusService.DeleteStatusVia (r : Repositories) (externalID : String) : Except Err Unit :=
  match r.GetStatusByExternalID externalID with
  | .error _ => .error (.New "status not found")
  | .ok status =>
    match r.CheckIfReferenced status.ID with
    | .error _ => .error (.New "could not verify status references")
    | .ok referenced =>
      if referenced then
        .error (.New "conflict: status is in use by one or more tasks and cannot be deleted")
      else r.DeleteStatus status.ID

/-- The driver's error of a database that cannot be reached. -/
def unavailable : Err := .Db "driver: bad connection"

/-- The repositories over `sampleStore` when the database fails while the actor
is resolved. -/
def failsOnUser : Repositories :=
  { Repositories.ofStore sampleStore with GetUserByExternalID := fun _ => .error unavailable }

/-- The repositories over `sampleStore` when the database fails while the
workspace is resolved. -/
def failsOnWorkspace : Repositories :=
  { Repositories.ofStore sampleStore with
    GetWorkspaceByExternalID := fun _ => .error unavailable }

/-- The repositories over `sampleStore` when the database fails while the
membership is looked up. -/
def failsOnMembership : Repositories :=
  { Repositories.ofStore sampleStore with GetMemberRole := fun _ _ => .error unavailable }

/-- The repositories over `sampleStore` when the database fails while the status
is resolved. -/
def failsOnStatus : Repositories :=
  { Repositories.ofStore sampleStore with GetStatusByExternalID := fun _ => .error unavailable }

/-- The repositories over `sampleStore` when the database fails while the
referencing tasks are counted. -/
def failsOnCount : Repositories :=
  { Repositories.ofStore sampleStore with CheckIfReferenced := fun _ => .error unavailable }

/-! ## Profiles (package `services`, `auth_service.go`) -/

/-- Body of `PUT /profile` (`models.UpdateProfileRequest`). -/
structure UpdateProfileRequest where
  Name : String
  AvatarURL : Option String
deriving DecidableEq, Repr

/-- The statement `UPDATE users SET name = $1, avatar_url = $2, modified_at = NOW()
WHERE id = $3 RETURNING modified_at`, scanned with `QueryRow`: `sql.ErrNoRows`
when no row has the id. Only `name` and `avatar_url` are written. -/
def UserRepository.UpdateUserProfile (s : Store) (user : User) : Except Err Unit × Store :=
  if s.users.any (fun r => r.ID == user.ID) then
    (.ok (), { s with users := s.users.map (fun r =>
      if r.ID == user.ID then { r with Name := user.Name, AvatarURL := user.AvatarURL } else r) })
  else (.error .ErrNoRows, s)

/-- Method `AuthService.GetProfile`: the user of the token's external id, with
`Password` and `ID` blanked before it is returned. -/
def AuthService.GetProfile (s : Store) (externalID : String) : Except Err User :=
  match UserRepository.GetUserByExternalID s externalID with
  | .error err => if err = .ErrNoRows then .error (.New "user not found") else .error err
  | .ok user => .ok { user with Password := "", ID := 0 }

/-- Method `AuthService.UpdateProfile`: writes the request's name and avatar on
the resolved user, then blanks `Password` and `ID` on the record it returns. -/
def AuthService.UpdateProfile (s : Store) (externalID : String) (req : UpdateProfileRequest) :
    Except Err User × Store :=
  match UserRepository.GetUserByExternalID s externalID with
  | .error _ => (.error (.New "user not found"), s)
  | .ok user =>
    let user1 : User := { user with Name := req.Name, AvatarURL := req.AvatarURL }
    match UserRepository.UpdateUserProfile s user1 with
    | (.error err, s1) => (.error err, s1)
    | (.ok _, s1) => (.ok { user1 with Password := "", ID := 0 }, s1)

/-! ## Package `middleware` -/

/-- The call `strings.Split(str, sep)` for a separator of one character, as
`AuthRequired` uses it with the single space: the pieces of `str` between the
occurrences of `sep`, one more than there are occurrences; empty pieces are
kept, and the empty string gives one empty piece. -/
def strings.Split (str : String) (sep : Char) : List String :=
  (str.data.splitOn sep).map String.mk

/-- The fields of the token claims (`utils.Claims`) that the middleware reads. -/
structure Claims where
  ExternalID : String
  Email : String
deriving DecidableEq, Repr

/-- How the middleware leaves a request: aborted with an error response, or
handed on (`c.Next()`) with `user_external_id` and `user_email` set in the
context. -/
inductive AuthOutcome where
  | Abort (resp : HTTPResponse)
  | Next (user_external_id user_email : String)
deriving DecidableEq, Repr

/-- The handler returned by `middleware.AuthRequired`, for the value of the
`Authorization` header (empty when the header is absent). `ValidateToken` stands
for `utils.ValidateToken`. The second component lists the arguments of the
calls to `ValidateToken`, in order. -/
def AuthRequired (ValidateToken : String → Except Err Claims) (authHeader : String) :
    AuthOutcome × List String :=
  if authHeader == "" then (.Abort { Code := 401, Message := "Authorization header required" }, [])
  else
    let parts := strings.Split authHeader ' '
    if parts.length != 2 || parts.getD 0 "" != "Bearer" then
      (.Abort { Code := 401, Message := "Invalid authorization header format" }, [])
    else
      let tokenString := parts.getD 1 ""
      match ValidateToken tokenString with
      | .error _ => (.Abort { Code := 401, Message := "Invalid or expired token" }, [tokenString])
      | .ok claims => (.Next claims.ExternalID claims.Email, [tokenString])

/-! ## Two calls of `CreateStatus` at once

`StatusService.CreateStatus` talks to the database twice, each time through
`r.DB` directly and outside any transaction: `GetStatusByName` for the
uniqueness check, then the `INSERT` of `StatusRepository.CreateStatus`. Between
the two, another request may run its own calls. -/

/-- The first database call of `StatusService.CreateStatus` and the test on its
result: the call gives up when `GetStatusByName` finds the name. -/
def StatusService.CreateStatus.check (s : Store) (req : StatusRequest) : Except Err Unit :=
  match StatusRepository.GetStatusByName s req.Name with
  | .ok _ => .error (.New "a status with this name already exists")
  | .error _ => .ok ()

/-- The rest of `StatusService.CreateStatus`, after a check that passed: the
insert and the response. -/
def StatusService.CreateStatus.insert (s : Store) (req : StatusRequest) (uuid : String) :
    Except Err StatusResponse × Store :=
  let pos : Int := req.Position.getD 0
  let status : Status :=
    { ID := 0, ExternalID := uuid, Name := req.Name, Color := req.Color, Position := pos,
      ActiveStatus := 0 }
  match StatusRepository.CreateStatus s status with
  | (.error err, s1) => (.error err, s1)
  | (.ok status1, s1) => (.ok (StatusService.mapToResponse status1), s1)

/-- Where a call of `StatusService.CreateStatus` stands: not started, past its
check with the insert still to come, or returned. -/
inductive CreateStatusCall where
  | start
  | checked
  | returned (result : Except Err StatusResponse)

/-- The next database call of a call of `CreateStatus`, on the store as it is at
that moment. A call that has returned does nothing. -/
def CreateStatusCall.step (s : Store) (req : StatusRequest) (uuid : String) :
    CreateStatusCall → CreateStatusCall × Store
  | .start =>
    match StatusService.CreateStatus.check s req with
    | .error err => (.returned (.error err), s)
    | .ok _ => (.checked, s)
  | .checked =>
    match StatusService.CreateStatus.insert s req uuid with
    | (result, s1) => (.returned result, s1)
  | .returned result => (.returned result, s)

/-- Which of two concurrent requests moves next. -/
inductive Caller where
  | first
  | second
deriving DecidableEq, Repr

/-- Two calls of `CreateStatus` in flight over one store. -/
structure TwoCalls where
  store : Store
  first : CreateStatusCall
  second : CreateStatusCall

/-- Two calls that have not started. -/
def TwoCalls.start (s : Store) : TwoCalls := { store := s, first := .start, second := .start }

/-- The two calls run under a schedule: each entry lets the named request make
its next database call. -/
def TwoCalls.run (req1 : StatusRequest) (uuid1 : String) (req2 : StatusRequest) (uuid2 : String) :
    List Caller → TwoCalls → TwoCalls
  | [], c => c
  | .first :: rest, c =>
    TwoCalls.run req1 uuid1 req2 uuid2 rest
      { store := (CreateStatusCall.step c.store req1 uuid1 c.first).2,
        first := (CreateStatusCall.step c.store req1 uuid1 c.first).1, second := c.second }
  | .second :: rest, c =>
    TwoCalls.run req1 uuid1 req2 uuid2 rest
      { store := (CreateStatusCall.step c.store req2 uuid2 c.second).2,
        first := c.first, second := (CreateStatusCall.step c.store req2 uuid2 c.second).1 }

/-- The request of the scenario: a status named `Blocked`. -/
def blocked : StatusRequest := { Name := "Blocked", Color := none, Position := none }

/-! # Properties -/

/-! ## Lookups -/

theorem QueryRow_ok_mem {α : Type} {l : List α} {a : α} (h : QueryRow l = .ok a) : a ∈ l := by
  cases l with
  | nil => simp [QueryRow] at h
  | cons b t =>
    simp only [QueryRow, Except.ok.injEq] at h
    subst h
    exact List.mem_cons_self _ _

theorem QueryRow_error_iff {α : Type} {l : List α} :
    (∃ e, QueryRow l = .error e) ↔ l = [] := by
  cases l <;> simp [QueryRow]

/-- A workspace returned by `GetWorkspaceByExternalID` comes from an active row
of the table with the requested external id. -/
theorem GetWorkspaceByExternalID_ok {s : Store} {ext : String} {w : Workspace}
    (h : WorkspaceRepository.GetWorkspaceByExternalID s ext = .ok w) :
    ∃ r ∈ s.workspaces, r.ID = w.ID ∧ r.OwnerID = w.OwnerID ∧ r.ExternalID = ext ∧
      r.ActiveStatus = 1 ∧ w.ExternalID = ext := by
  have hm := QueryRow_ok_mem h
  simp only [List.mem_flatMap, List.mem_filter, List.mem_map, Bool.and_eq_true, beq_iff_eq] at hm
  obtain ⟨r, ⟨hr, he, ha⟩, o, _, rfl⟩ := hm
  exact ⟨r, hr, rfl, rfl, he, ha, he⟩

/-! ## Effects of the membership operations -/

theorem any_member_eq_false_iff (s : Store) (workspaceID userID : Int) :
    s.workspace_members.any (fun m => m.WorkspaceID == workspaceID && m.UserID == userID) = false ↔
      memberRows s workspaceID userID = [] := by
  simp only [memberRows, List.filter_eq_nil_iff, List.any_eq_false, Bool.not_eq_true]

theorem insertWorkspaceMember_ok {s s1 : Store} {workspaceID userID : Int} {role : String}
    {row : WorkspaceMember} (h : insertWorkspaceMember s workspaceID userID role = (.ok row, s1)) :
    memberRows s workspaceID userID = [] ∧
      s1 = { s with
        workspace_members := s.workspace_members ++
          [{ ID := s.workspace_members_seq, WorkspaceID := workspaceID, UserID := userID,
             Role := role }],
        workspace_members_seq := s.workspace_members_seq + 1 } := by
  unfold insertWorkspaceMember at h
  by_cases hc : s.workspace_members.any
      (fun m => m.WorkspaceID == workspaceID && m.UserID == userID) = true
  · simp [hc] at h
  · simp only [hc, Bool.false_eq_true, if_false, Prod.mk.injEq, Except.ok.injEq] at h
    refine ⟨(any_member_eq_false_iff s workspaceID userID).1 (by simpa using hc), h.2.symm⟩

theorem insertWorkspaceMember_error {s s1 : Store} {workspaceID userID : Int} {role : String}
    {e : Err} (h : insertWorkspaceMember s workspaceID userID role = (.error e, s1)) :
    memberRows s workspaceID userID ≠ [] ∧ s1 = s := by
  unfold insertWorkspaceMember at h
  by_cases hc : s.workspace_members.any
      (fun m => m.WorkspaceID == workspaceID && m.UserID == userID) = true
  · simp only [hc, if_true, Prod.mk.injEq] at h
    refine ⟨fun hn => ?_, h.2.symm⟩
    rw [← any_member_eq_false_iff] at hn
    rw [hn] at hc
    exact Bool.false_ne_true hc
  · simp [hc] at h

theorem InviteMember_ok {s s1 : Store} {actor workspace : String} {req : InviteMemberRequest}
    (h : WorkspaceService.InviteMember s actor workspace req = (.ok (), s1)) :
    ∃ w ∈ s.workspaces, ∃ userID : Int, memberRows s w.ID userID = [] ∧
      s1 = { s with
        workspace_members := s.workspace_members ++
          [{ ID := s.workspace_members_seq, WorkspaceID := w.ID, UserID := userID,
             Role := req.Role }],
        workspace_members_seq := s.workspace_members_seq + 1 } := by
  unfold WorkspaceService.InviteMember at h
  split at h
  · simp at h
  · split at h
    · simp at h
    · rename_i w hw
      obtain ⟨r, hr, hid, -⟩ := GetWorkspaceByExternalID_ok hw
      split at h
      · simp at h
      · split at h
        · simp at h
        · split at h
          · simp at h
          · rename_i target _
            simp only [WorkspaceRepository.AddMember] at h
            split at h
            · simp at h
            · rename_i row s2 hins
              simp only [Prod.mk.injEq, true_and] at h
              subst h
              obtain ⟨h1, h2⟩ := insertWorkspaceMember_ok hins
              exact ⟨r, hr, target.ID, by rw [hid]; exact h1, by rw [hid]; exact h2⟩

theorem CreateWorkspace_ok {s s1 : Store} {creator uuid : String} {req : WorkspaceRequest}
    {resp : WorkspaceResponse}
    (h : WorkspaceService.CreateWorkspace s creator req uuid = (.ok resp, s1)) :
    ∃ user : User, UserRepository.GetUserByExternalID s creator = .ok user ∧
      resp = { ExternalID := uuid, Name := req.Name, Description := req.Description,
               OwnerExternalID := user.ExternalID } ∧
      memberRows s s.workspaces_seq user.ID = [] ∧
      s1 = { s with
        workspaces := s.workspaces ++
          [{ ID := s.workspaces_seq, ExternalID := uuid, Name := req.Name,
             Description := req.Description, OwnerID := user.ID, ActiveStatus := 1 }],
        workspaces_seq := s.workspaces_seq + 1,
        workspace_members := s.workspace_members ++
          [{ ID := s.workspace_members_seq, WorkspaceID := s.workspaces_seq, UserID := user.ID,
             Role := "owner" }],
        workspace_members_seq := s.workspace_members_seq + 1 } := by
  unfold WorkspaceService.CreateWorkspace at h
  split at h
  · simp at h
  · rename_i user hu
    refine ⟨user, hu, ?_⟩
    simp only [WorkspaceRepository.CreateWorkspace] at h
    split at h
    · simp at h
    · rename_i w s2 hc
      split at hc
      · simp at hc
      · rename_i row s3 hins
        simp only [Prod.mk.injEq, Except.ok.injEq] at hc h
        obtain ⟨h1, h2⟩ := insertWorkspaceMember_ok hins
        obtain ⟨hw, hs⟩ := hc
        subst hw hs
        obtain ⟨hresp, hs1⟩ := h
        subst hs1
        refine ⟨hresp.symm, ?_, h2⟩
        simpa [memberRows] using h1

theorem UpdateMemberRole_ok {s s1 : Store} {actor workspace target : String}
    {req : UpdateMemberRoleRequest}
    (h : WorkspaceService.UpdateMemberRole s actor workspace target req = (.ok (), s1)) :
    ∃ w ∈ s.workspaces, ∃ userID : Int, userID ≠ w.OwnerID ∧
      s1 = { s with workspace_members := s.workspace_members.map (fun m =>
        if m.WorkspaceID == w.ID && m.UserID == userID then { m with Role := req.Role } else m) } := by
  unfold WorkspaceService.UpdateMemberRole at h
  split at h
  · simp at h
  · split at h
    · simp at h
    · rename_i w hw
      obtain ⟨r, hr, hid, hown, -⟩ := GetWorkspaceByExternalID_ok hw
      split at h
      · simp at h
      · split at h
        · simp at h
        · rename_i t _
          split at h
          · simp at h
          · rename_i hne
            simp only [WorkspaceRepository.UpdateMemberRole, Prod.mk.injEq, true_and] at h
            refine ⟨r, hr, t.ID, ?_, ?_⟩
            · rw [hown]; simpa using hne
            · rw [hid]; exact h.symm

theorem RemoveMember_ok {s s1 : Store} {actor workspace target : String}
    (h : WorkspaceService.RemoveMember s actor workspace target = (.ok (), s1)) :
    ∃ w ∈ s.workspaces, ∃ userID : Int, userID ≠ w.OwnerID ∧
      s1 = { s with workspace_members := s.workspace_members.filter (fun m =>
        !(m.WorkspaceID == w.ID && m.UserID == userID)) } := by
  unfold WorkspaceService.RemoveMember at h
  split at h
  · simp at h
  · split at h
    · simp at h
    · rename_i w hw
      obtain ⟨r, hr, hid, hown, -⟩ := GetWorkspaceByExternalID_ok hw
      simp only at h
      split at h
      · simp at h
      · split at h
        · simp at h
        · rename_i t _
          split at h
          · simp at h
          · rename_i hne
            simp only [WorkspaceRepository.RemoveMember, Prod.mk.injEq, true_and] at h
            refine ⟨r, hr, t.ID, ?_, ?_⟩
            · rw [hown]; simpa using hne
            · rw [hid]; exact h.symm

/-! ## The membership invariant -/

theorem memberRows_eq_nil_of_lt {s : Store} (hinv : MembershipInv s) (userID : Int) :
    memberRows s s.workspaces_seq userID = [] := by
  simp only [memberRows, List.filter_eq_nil_iff, Bool.and_eq_true, beq_iff_eq, not_and]
  intro m hm hw
  have := hinv.members_lt m hm
  omega

theorem MembershipInv_initial (users : List User) (users_seq : Int) :
    MembershipInv (Store.initial users users_seq) := by
  constructor <;> simp [Store.initial, memberRows]

theorem MembershipInv_users {s : Store} (hinv : MembershipInv s) (users : List User)
    (users_seq : Int) : MembershipInv { s with users := users, users_seq := users_seq } := by
  obtain ⟨h1, h2, h3, h4, h5⟩ := hinv
  exact ⟨h1, h2, h3, h4, h5⟩

theorem MembershipInv_create {s : Store} (hinv : MembershipInv s) (row : WorkspaceRow)
    (m : WorkspaceMember) (n : Int) (hrow : row.ID = s.workspaces_seq)
    (hm : m.WorkspaceID = s.workspaces_seq) (hu : m.UserID = row.OwnerID)
    (hr : m.Role = "owner") :
    MembershipInv { s with
      workspaces := s.workspaces ++ [row], workspaces_seq := s.workspaces_seq + 1,
      workspace_members := s.workspace_members ++ [m], workspace_members_seq := n } := by
  have hnil := memberRows_eq_nil_of_lt hinv
  constructor
  · intro w hw
    simp only [List.mem_append, List.mem_singleton] at hw
    rcases hw with hw | rfl
    · have := hinv.workspaces_lt w hw; simp only; omega
    · simp only; omega
  · intro x hx
    simp only [List.mem_append, List.mem_singleton] at hx
    rcases hx with hx | rfl
    · have := hinv.members_lt x hx; simp only; omega
    · simp only; omega
  · intro w1 h1 w2 h2 he
    simp only [List.mem_append, List.mem_singleton] at h1 h2
    rcases h1 with h1 | rfl <;> rcases h2 with h2 | rfl
    · exact hinv.owner_of_id w1 h1 w2 h2 he
    · have := hinv.workspaces_lt w1 h1; omega
    · have := hinv.workspaces_lt w2 h2; omega
    · rfl
  · intro w hw
    simp only [List.mem_append, List.mem_singleton] at hw
    rcases hw with hw | rfl
    · have hlt := hinv.workspaces_lt w hw
      have hne : ¬ (m.WorkspaceID = w.ID ∧ m.UserID = w.OwnerID) := by omega
      have := hinv.owner_row w hw
      simp only [memberRows, List.filter_append] at this ⊢
      simpa [List.filter_cons, hne] using this
    · have := hnil w.OwnerID
      simp only [memberRows] at this ⊢
      simp [List.filter_append, hrow, this, List.filter_cons, hm, hu, hr]
  · intro wid uid
    have hk := hinv.key wid uid
    simp only [memberRows, List.filter_append] at hk ⊢
    by_cases hc : m.WorkspaceID = wid ∧ m.UserID = uid
    · have := hnil uid
      simp only [memberRows] at this
      rw [← hm, hc.1] at this
      simp [this, List.filter_cons, hc]
    · simpa [List.filter_cons, hc] using hk

theorem MembershipInv_invite {s : Store} (hinv : MembershipInv s) (w : WorkspaceRow)
    (hw : w ∈ s.workspaces) (m : WorkspaceMember) (n : Int) (hm : m.WorkspaceID = w.ID)
    (hnil : memberRows s w.ID m.UserID = []) :
    MembershipInv { s with
      workspace_members := s.workspace_members ++ [m], workspace_members_seq := n } := by
  constructor
  · exact hinv.workspaces_lt
  · intro x hx
    simp only [List.mem_append, List.mem_singleton] at hx
    rcases hx with hx | rfl
    · exact hinv.members_lt x hx
    · have := hinv.workspaces_lt w hw; simp only; omega
  · exact hinv.owner_of_id
  · intro w1 hw1
    have h1 := hinv.owner_row w1 hw1
    have hne : ¬ (m.WorkspaceID = w1.ID ∧ m.UserID = w1.OwnerID) := by
      rintro ⟨ha, hb⟩
      rw [← hm, ha, hb] at hnil
      rw [hnil] at h1
      simp at h1
    simp only [memberRows, List.filter_append] at h1 ⊢
    simpa [List.filter_cons, hne] using h1
  · intro wid uid
    have hk := hinv.key wid uid
    simp only [memberRows, List.filter_append] at hk ⊢
    by_cases hc : m.WorkspaceID = wid ∧ m.UserID = uid
    · simp only [memberRows] at hnil
      rw [← hm, hc.1, hc.2] at hnil
      simp [hnil, List.filter_cons, hc]
    · simpa [List.filter_cons, hc] using hk

theorem memberRows_setRole (s : Store) (wid uid : Int) (role : String) (a b : Int) :
    List.filter (fun m => m.WorkspaceID == a && m.UserID == b)
      (s.workspace_members.map (fun m =>
        if m.WorkspaceID == wid && m.UserID == uid then { m with Role := role } else m)) =
    (memberRows s a b).map (fun m =>
        if m.WorkspaceID == wid && m.UserID == uid then { m with Role := role } else m) := by
  rw [memberRows, List.filter_map]
  congr 1
  apply List.filter_congr
  intro m _
  simp only [Function.comp]
  split <;> rfl

theorem MembershipInv_setRole {s : Store} (hinv : MembershipInv s) (w : WorkspaceRow)
    (hw : w ∈ s.workspaces) (uid : Int) (hne : uid ≠ w.OwnerID) (role : String) :
    MembershipInv { s with workspace_members := s.workspace_members.map (fun m =>
      if m.WorkspaceID == w.ID && m.UserID == uid then { m with Role := role } else m) } := by
  constructor
  · exact hinv.workspaces_lt
  · intro x hx
    simp only [List.mem_map] at hx
    obtain ⟨y, hy, rfl⟩ := hx
    have := hinv.members_lt y hy
    split <;> simpa using this
  · exact hinv.owner_of_id
  · intro w1 hw1
    have h1 := hinv.owner_row w1 hw1
    simp only [memberRows] at h1 ⊢
    rw [memberRows_setRole, memberRows, List.map_map, ← h1]
    apply List.map_congr_left
    intro m hm
    simp only [List.mem_filter, Bool.and_eq_true, beq_iff_eq] at hm
    have hno : ¬ (m.WorkspaceID = w.ID ∧ m.UserID = uid) := by
      rintro ⟨ha, hb⟩
      have := hinv.owner_of_id w1 hw1 w hw (by rw [← hm.2.1, ha])
      omega
    simp [hno]
  · intro a b
    have hk := hinv.key a b
    simp only [memberRows] at hk ⊢
    rw [memberRows_setRole, List.length_map]
    exact hk

theorem memberRows_remove (s : Store) (wid uid : Int) (a b : Int) :
    List.filter (fun m => m.WorkspaceID == a && m.UserID == b)
      (s.workspace_members.filter (fun m => !(m.WorkspaceID == wid && m.UserID == uid))) =
    (memberRows s a b).filter (fun m => !(m.WorkspaceID == wid && m.UserID == uid)) := by
  rw [memberRows, List.filter_filter, List.filter_filter]
  apply List.filter_congr
  intro m _
  exact Bool.and_comm _ _

theorem MembershipInv_remove {s : Store} (hinv : MembershipInv s) (w : WorkspaceRow)
    (hw : w ∈ s.workspaces) (uid : Int) (hne : uid ≠ w.OwnerID) :
    MembershipInv { s with workspace_members := s.workspace_members.filter (fun m =>
      !(m.WorkspaceID == w.ID && m.UserID == uid)) } := by
  constructor
  · exact hinv.workspaces_lt
  · intro x hx
    exact hinv.members_lt x (List.mem_of_mem_filter hx)
  · exact hinv.owner_of_id
  · intro w1 hw1
    have h1 := hinv.owner_row w1 hw1
    simp only [memberRows] at h1 ⊢
    rw [memberRows_remove, memberRows, ← h1]
    congr 1
    rw [List.filter_eq_self]
    intro m hm
    simp only [List.mem_filter, Bool.and_eq_true, beq_iff_eq] at hm
    have hno : ¬ (m.WorkspaceID = w.ID ∧ m.UserID = uid) := by
      rintro ⟨ha, hb⟩
      have := hinv.owner_of_id w1 hw1 w hw (by rw [← hm.2.1, ha])
      omega
    simp only [Bool.not_eq_true', Bool.and_eq_false_iff, beq_eq_false_iff_ne, ne_eq]
    exact not_and_or.1 hno
  · intro a b
    have hk := hinv.key a b
    simp only [memberRows] at hk ⊢
    rw [memberRows_remove]
    exact le_trans (List.length_filter_le _ _) hk

/-- Every store reached by the membership operations satisfies the membership
invariant, whatever roles the requests carry. -/
theorem MembershipInv_of_ReachableBy {roleOK : String → Prop} {s : Store}
    (h : ReachableBy roleOK s) : MembershipInv s := by
  induction h with
  | initial users users_seq => exact MembershipInv_initial users users_seq
  | users_changed users users_seq _ ih => exact MembershipInv_users ih users users_seq
  | CreateWorkspace _ hc ih =>
    obtain ⟨user, -, -, -, rfl⟩ := CreateWorkspace_ok hc
    exact MembershipInv_create ih _ _ _ rfl rfl rfl rfl
  | InviteMember _ _ hc ih =>
    obtain ⟨w, hw, uid, hnil, rfl⟩ := InviteMember_ok hc
    exact MembershipInv_invite ih w hw _ _ rfl hnil
  | UpdateMemberRole _ _ hc ih =>
    obtain ⟨w, hw, uid, hne, rfl⟩ := UpdateMemberRole_ok hc
    exact MembershipInv_setRole ih w hw uid hne _
  | RemoveMember _ hc ih =>
    obtain ⟨w, hw, uid, hne, rfl⟩ := RemoveMember_ok hc
    exact MembershipInv_remove ih w hw uid hne

theorem OwnerRoleInv_of_ReachableBy {roleOK : String → Prop}
    (hrole : ∀ r, roleOK r → r ≠ "owner") {s : Store} (h : ReachableBy roleOK s) :
    OwnerRoleInv s := by
  induction h with
  | initial users users_seq => intro m hm; simp [Store.initial] at hm
  | users_changed users users_seq _ ih => exact ih
  | CreateWorkspace hs hc ih =>
    have hinv := MembershipInv_of_ReachableBy hs
    obtain ⟨user, -, -, -, rfl⟩ := CreateWorkspace_ok hc
    intro m hm hr w hw he
    simp only [List.mem_append, List.mem_singleton] at hm hw
    rcases hm with hm | rfl <;> rcases hw with hw | rfl
    · exact ih m hm hr w hw he
    · have := hinv.members_lt m hm
      simp only at he
      omega
    · have := hinv.workspaces_lt w hw
      simp only at he
      omega
    · rfl
  | InviteMember _ hok hc ih =>
    obtain ⟨w, hw, uid, hnil, rfl⟩ := InviteMember_ok hc
    intro m hm hr w1 hw1 he
    simp only [List.mem_append, List.mem_singleton] at hm
    rcases hm with hm | rfl
    · exact ih m hm hr w1 hw1 he
    · exact absurd hr (hrole _ hok)
  | UpdateMemberRole _ hok hc ih =>
    obtain ⟨w, hw, uid, hne, rfl⟩ := UpdateMemberRole_ok hc
    intro m hm hr w1 hw1 he
    simp only [List.mem_map] at hm
    obtain ⟨y, hy, rfl⟩ := hm
    split at hr
    · exact absurd hr (hrole _ hok)
    · rename_i hno
      simp only [hno] at he ⊢
      exact ih y hy hr w1 hw1 he
  | RemoveMember _ hc ih =>
    obtain ⟨w, hw, uid, hne, rfl⟩ := RemoveMember_ok hc
    intro m hm hr w1 hw1 he
    exact ih m (List.mem_of_mem_filter hm) hr w1 hw1 he

theorem ownerRows_eq_memberRows {s : Store} (hinv : MembershipInv s) (hown : OwnerRoleInv s)
    (w : WorkspaceRow) (hw : w ∈ s.workspaces) :
    ownerRows s w.ID = memberRows s w.ID w.OwnerID := by
  have h1 := hinv.owner_row w hw
  simp only [ownerRows, memberRows] at h1 ⊢
  apply List.filter_congr
  intro m hm
  by_cases hid : m.WorkspaceID = w.ID
  · by_cases hu : m.UserID = w.OwnerID
    · have hmem : m ∈ List.filter (fun m => m.WorkspaceID == w.ID && m.UserID == w.OwnerID)
          s.workspace_members := by
        simp [List.mem_filter, hm, hid, hu]
      have : m.Role ∈ List.map (fun m => m.Role)
          (List.filter (fun m => m.WorkspaceID == w.ID && m.UserID == w.OwnerID)
            s.workspace_members) := List.mem_map_of_mem _ hmem
      rw [h1] at this
      simp only [List.mem_singleton] at this
      simp [hid, hu, this]
    · have : m.Role ≠ "owner" := fun hr => hu (hown m hm hr w hw hid.symm)
      simp [hid, hu, this]
  · have hf : (m.WorkspaceID == w.ID) = false := by simpa using hid
    simp [hf]

theorem reachable_oneWorkspace (roleOK : String → Prop) : ReachableBy roleOK oneWorkspace :=
  @ReachableBy.CreateWorkspace roleOK twoUsers oneWorkspace "alice" "w-1" teamRequest
    { ExternalID := "w-1", Name := "Team", Description := none, OwnerExternalID := "alice" }
    (ReachableBy.initial _ _) rfl

/-- C1, as stated, fails: after `alice` creates a workspace and invites `bob`
with role `owner` (a role both request types admit), the workspace owned by
user 1 has two membership rows with role `owner`, those of users 1 and 2. -/
theorem C1_two_owner_rows :
    Reachable twoOwners ∧
      ∃ w ∈ twoOwners.workspaces, w.OwnerID = 1 ∧
        (ownerRows twoOwners w.ID).map (fun m => m.UserID) = [1, 2] :=
  ⟨@ReachableBy.InviteMember _ oneWorkspace twoOwners "alice" "w-1"
      { UserExternalID := "bob", Role := "owner" } (reachable_oneWorkspace _) trivial rfl,
   { ID := 1, ExternalID := "w-1", Name := "Team", Description := none, OwnerID := 1,
     ActiveStatus := 1 }, by decide, rfl, by decide⟩

/-- C1, amended: in every store reached by successful `CreateWorkspace`,
`InviteMember`, `UpdateMemberRole` and `RemoveMember` calls, the recorded owner
of each workspace has exactly one membership row in it and that row has role
`owner`; and when no `InviteMember` or `UpdateMemberRole` request carries the
role `owner`, that row is the only row of the workspace with role `owner`. -/
theorem C1_owner_row_kept (roleOK : String → Prop) (s : Store) (h : ReachableBy roleOK s)
    (w : WorkspaceRow) (hw : w ∈ s.workspaces) :
    (memberRows s w.ID w.OwnerID).map (fun m => m.Role) = ["owner"] ∧
      ((∀ r, roleOK r → r ≠ "owner") →
        (ownerRows s w.ID).map (fun m => m.UserID) = [w.OwnerID]) := by
  have hinv := MembershipInv_of_ReachableBy h
  refine ⟨hinv.owner_row w hw, fun hrole => ?_⟩
  have hown := OwnerRoleInv_of_ReachableBy hrole h
  rw [ownerRows_eq_memberRows hinv hown w hw]
  have h1 := hinv.owner_row w hw
  have hall : ∀ m ∈ memberRows s w.ID w.OwnerID, m.UserID = w.OwnerID := by
    intro m hm
    simp only [memberRows, List.mem_filter, Bool.and_eq_true, beq_iff_eq] at hm
    exact hm.2.2
  cases hrows : memberRows s w.ID w.OwnerID with
  | nil => rw [hrows] at h1; simp at h1
  | cons a l =>
    rw [hrows] at h1 hall
    cases l with
    | nil => simp [hall a (List.mem_cons_self _ _)]
    | cons b l2 => simp at h1

/-- C1 (amended), at a concrete store: after `alice` created `w-1` and invited
`bob` as `member`, user 1 has one row, with role `owner`, and it is the only
owner row. -/
theorem C1_owner_row_kept_witness :
    ReachableBy (fun r => r ≠ "owner") withMember ∧
      (memberRows withMember 1 1).map (fun m => m.Role) = ["owner"] ∧
      (ownerRows withMember 1).map (fun m => m.UserID) = [1] :=
  have hr : ReachableBy (fun r => r ≠ "owner") withMember :=
    @ReachableBy.InviteMember _ oneWorkspace withMember "alice" "w-1"
      { UserExternalID := "bob", Role := "member" } (reachable_oneWorkspace _) (by decide) rfl
  have h := C1_owner_row_kept (fun r => r ≠ "owner") withMember hr
    { ID := 1, ExternalID := "w-1", Name := "Team", Description := none, OwnerID := 1,
      ActiveStatus := 1 } (by decide)
  ⟨hr, h.1, h.2 (fun _ hne => hne)⟩

theorem insertWorkspaceMember_dup {s : Store} {workspaceID userID : Int} (role : String)
    (h : memberRows s workspaceID userID ≠ []) :
    insertWorkspaceMember s workspaceID userID role =
      (.error (.Db "pq: duplicate key value violates unique constraint"), s) := by
  unfold insertWorkspaceMember
  have hany : s.workspace_members.any
      (fun m => m.WorkspaceID == workspaceID && m.UserID == userID) = true := by
    by_contra hc
    exact h ((any_member_eq_false_iff s workspaceID userID).1 (by simpa using hc))
  rw [if_pos hany]

/-- C2: in every reachable store no (workspace, user) pair has more than one
membership row; and `InviteMember` for a target user who already has a row in
the workspace fails and leaves the store, hence the membership table, as it
was. When the actor is an owner or admin of the workspace, so that the call
gets as far as the insert, the error is the service's duplicate-member error
`could not add member (perhaps already a member?)`. -/
theorem C2_one_row_per_pair (s : Store) (h : Reachable s) :
    (∀ workspaceID userID : Int, (memberRows s workspaceID userID).length ≤ 1) ∧
    (∀ (actor workspace : String) (req : InviteMemberRequest) (w : Workspace) (target : User),
      WorkspaceRepository.GetWorkspaceByExternalID s workspace = .ok w →
      UserRepository.GetUserByExternalID s req.UserExternalID = .ok target →
      memberRows s w.ID target.ID ≠ [] →
      (∃ e, WorkspaceService.InviteMember s actor workspace req = (.error e, s)) ∧
      (∀ (current : User) (role : String),
        UserRepository.GetUserByExternalID s actor = .ok current →
        WorkspaceRepository.GetMemberRole s w.ID current.ID = .ok role →
        role = "owner" ∨ role = "admin" →
        WorkspaceService.InviteMember s actor workspace req =
          (.error (.New "could not add member (perhaps already a member?)"), s))) := by
  refine ⟨(MembershipInv_of_ReachableBy h).key, ?_⟩
  intro actor workspace req w target hw ht hrow
  constructor
  · simp only [WorkspaceService.InviteMember, hw, ht, WorkspaceRepository.AddMember,
      insertWorkspaceMember_dup _ hrow]
    split
    · exact ⟨_, rfl⟩
    · split
      · exact ⟨_, rfl⟩
      · split
        · exact ⟨_, rfl⟩
        · exact ⟨_, rfl⟩
  · intro current role hc hrole hor
    have hif : (role != "owner" && role != "admin") = false := by
      rcases hor with rfl | rfl <;> decide
    simp only [WorkspaceService.InviteMember, hc, hw, hrole, hif, ht,
      WorkspaceRepository.AddMember, insertWorkspaceMember_dup _ hrow]
    rfl

/-- C2, at a concrete store: in `withMember`, where `bob` is already a member of
`w-1`, the owner `alice` inviting `bob` again gets the duplicate-member error
and the store is unchanged. -/
theorem C2_one_row_per_pair_witness :
    Reachable withMember ∧
      (memberRows withMember 1 2).length ≤ 1 ∧
      WorkspaceService.InviteMember withMember "alice" "w-1"
          { UserExternalID := "bob", Role := "admin" } =
        (.error (.New "could not add member (perhaps already a member?)"), withMember) :=
  have hr : Reachable withMember :=
    @ReachableBy.InviteMember _ oneWorkspace withMember "alice" "w-1"
      { UserExternalID := "bob", Role := "member" } (reachable_oneWorkspace _) trivial rfl
  have h := C2_one_row_per_pair withMember hr
  ⟨hr, h.1 1 2,
   (h.2 "alice" "w-1" { UserExternalID := "bob", Role := "admin" }
      { ID := 1, ExternalID := "w-1", Name := "Team", Description := none, OwnerID := 1,
        OwnerExternalID := "alice", ActiveStatus := 1 }
      { ID := 2, ExternalID := "bob", Name := "Bob", Email := "bob@example.org",
        Password := "hash-b", AvatarURL := none, ActiveStatus := 1 }
      rfl rfl (by decide)).2
      { ID := 1, ExternalID := "alice", Name := "Alice", Email := "alice@example.org",
        Password := "hash-a", AvatarURL := none, ActiveStatus := 1 } "owner" rfl rfl
      (Or.inl rfl)⟩

/-! ## Statuses: the referential guard -/

theorem filter_active_ne_nil_iff (s : Store) (statusID : Int) :
    s.tasks.filter (fun t => t.StatusID == statusID && t.ActiveStatus == 1) ≠ [] ↔
      referencedByActiveTask s statusID := by
  rw [ne_eq, List.filter_eq_nil_iff]
  simp [referencedByActiveTask]

theorem CheckIfReferenced_true {s : Store} {statusID : Int}
    (h : referencedByActiveTask s statusID) :
    StatusRepository.CheckIfReferenced s statusID = .ok true := by
  have := (filter_active_ne_nil_iff s statusID).2 h
  simp only [StatusRepository.CheckIfReferenced, Except.ok.injEq, gt_iff_lt, List.length_pos,
    decide_eq_true_eq]
  exact this

theorem CheckIfReferenced_false {s : Store} {statusID : Int}
    (h : ¬ referencedByActiveTask s statusID) :
    StatusRepository.CheckIfReferenced s statusID = .ok false := by
  have := (not_congr (filter_active_ne_nil_iff s statusID)).2 h
  simp only [StatusRepository.CheckIfReferenced, Except.ok.injEq, gt_iff_lt, List.length_pos,
    decide_eq_false_iff_not]
  exact this

theorem GetStatusByExternalID_ok {s : Store} {ext : String} {st : Status}
    (h : StatusRepository.GetStatusByExternalID s ext = .ok st) :
    st ∈ s.statuses ∧ st.ExternalID = ext ∧ st.ActiveStatus = 1 := by
  have hm := QueryRow_ok_mem h
  simpa [List.mem_filter] using hm

/-- C3: for a status that resolves (an ACTIVE status), `DeleteStatus` answers
with the conflict error, which the handler turns into HTTP 409, exactly when
an ACTIVE task references the status, and then the store (statuses and tasks)
is unchanged. When no ACTIVE task references it the call succeeds (HTTP 200),
the tasks are untouched and, external ids being unique, the status can no
longer be fetched. -/
theorem C3_delete_status_guard (s : Store) (ext : String) (st : Status)
    (hst : StatusRepository.GetStatusByExternalID s ext = .ok st) :
    (referencedByActiveTask s st.ID →
      StatusService.DeleteStatus s ext =
        (.error (.New "conflict: status is in use by one or more tasks and cannot be deleted"),
         s) ∧
      StatusHandler.DeleteStatus s ext =
        ({ Code := 409,
           Message := "conflict: status is in use by one or more tasks and cannot be deleted" },
         s)) ∧
    (¬ referencedByActiveTask s st.ID →
      (StatusService.DeleteStatus s ext).1 = .ok () ∧
      (StatusHandler.DeleteStatus s ext).1.Code = 200 ∧
      (StatusService.DeleteStatus s ext).2.tasks = s.tasks ∧
      (StatusService.DeleteStatus s ext).2.statuses =
        s.statuses.filter (fun r => !(r.ID == st.ID)) ∧
      (statusExternalIDsUnique s →
        StatusService.GetStatus (StatusService.DeleteStatus s ext).2 ext =
          .error (.New "status not found"))) ∧
    ((StatusHandler.DeleteStatus s ext).1.Code = 409 ↔ referencedByActiveTask s st.ID) := by
  have hyes : referencedByActiveTask s st.ID →
      StatusService.DeleteStatus s ext =
        (.error (.New "conflict: status is in use by one or more tasks and cannot be deleted"),
         s) := by
    intro href
    simp only [StatusService.DeleteStatus, hst, CheckIfReferenced_true href, if_true]
  have hno : ¬ referencedByActiveTask s st.ID →
      StatusService.DeleteStatus s ext =
        (.ok (), { s with statuses := s.statuses.filter (fun r => !(r.ID == st.ID)) }) := by
    intro href
    simp only [StatusService.DeleteStatus, hst, CheckIfReferenced_false href,
      Bool.false_eq_true, if_false, StatusRepository.DeleteStatus]
  have hcode : ¬ referencedByActiveTask s st.ID →
      (StatusHandler.DeleteStatus s ext).1.Code = 200 := by
    intro href
    simp only [StatusHandler.DeleteStatus, hno href]
  refine ⟨fun href => ⟨hyes href, ?_⟩, fun href => ⟨?_, hcode href, ?_, ?_, ?_⟩, ?_⟩
  · simp only [StatusHandler.DeleteStatus, hyes href]
    rfl
  · rw [hno href]
  · rw [hno href]
  · rw [hno href]
  · intro huniq
    rw [hno href]
    obtain ⟨hmem, hext, -⟩ := GetStatusByExternalID_ok hst
    have hnil : StatusRepository.GetStatusByExternalID
        { s with statuses := s.statuses.filter (fun r => !(r.ID == st.ID)) } ext =
        .error .ErrNoRows := by
      simp only [StatusRepository.GetStatusByExternalID]
      rw [List.filter_filter]
      have : List.filter (fun a => (a.ExternalID == ext && a.ActiveStatus == 1) && !(a.ID == st.ID))
          s.statuses = [] := by
        rw [List.filter_eq_nil_iff]
        intro a ha
        simp only [Bool.and_eq_true, beq_iff_eq, Bool.not_eq_true', beq_eq_false_iff_ne, ne_eq,
          not_and, not_not]
        intro ⟨he, _⟩
        exact huniq a ha st hmem (by rw [he, hext])
      rw [this]
      rfl
    simp only [StatusService.GetStatus, hnil, if_true]
  · constructor
    · intro h409
      by_contra href
      rw [hcode href] at h409
      exact absurd h409 (by decide)
    · intro href
      simp only [StatusHandler.DeleteStatus, hyes href]
      rfl

/-- C3, at a concrete store: in `sampleStore` the status `s-1` is used by the
active task `t-1`, so deleting it is answered with 409 and nothing changes;
`s-2` is unused, so deleting it succeeds and it cannot be fetched again. -/
theorem C3_delete_status_guard_witness :
    StatusHandler.DeleteStatus sampleStore "s-1" =
      ({ Code := 409,
         Message := "conflict: status is in use by one or more tasks and cannot be deleted" },
       sampleStore) ∧
    ((StatusService.DeleteStatus sampleStore "s-2").1 = .ok () ∧
      StatusService.GetStatus (StatusService.DeleteStatus sampleStore "s-2").2 "s-2" =
        .error (.New "status not found")) :=
  have h1 := C3_delete_status_guard sampleStore "s-1"
    { ID := 1, ExternalID := "s-1", Name := "Todo", Color := none, Position := 0,
      ActiveStatus := 1 } rfl
  have h2 := C3_delete_status_guard sampleStore "s-2"
    { ID := 2, ExternalID := "s-2", Name := "Done", Color := some "green", Position := 1,
      ActiveStatus := 1 } rfl
  have href : referencedByActiveTask sampleStore 1 :=
    ⟨{ ID := 1, ExternalID := "t-1", BoardID := 1, StatusID := 1, AssignedTo := none,
       CreatedByID := 1, Title := "Write", Description := none, Priority := "low",
       DueDate := none, Position := 0, ActiveStatus := 1 }, by decide, rfl, rfl⟩
  have hnot : ¬ referencedByActiveTask sampleStore 2 := by
    simp [referencedByActiveTask, sampleStore]
  have huniq : statusExternalIDsUnique sampleStore := by
    simp [statusExternalIDsUnique, sampleStore]
  ⟨(h1.1 href).2, (h2.2.1 hnot).1, (h2.2.1 hnot).2.2.2.2 huniq⟩

/-! ## Statuses: unique names -/

theorem GetStatusByName_ok_iff (s : Store) (name : String) :
    (∃ st, StatusRepository.GetStatusByName s name = .ok st) ↔ name ∈ activeStatusNames s := by
  simp only [StatusRepository.GetStatusByName, activeStatusNames, List.mem_map, List.mem_filter,
    beq_iff_eq]
  constructor
  · rintro ⟨st, h⟩
    have hm := QueryRow_ok_mem h
    simp only [List.mem_map, List.mem_filter, Bool.and_eq_true, beq_iff_eq] at hm
    obtain ⟨r, ⟨hr, hn, ha⟩, -⟩ := hm
    exact ⟨r, ⟨hr, ha⟩, hn⟩
  · rintro ⟨r, ⟨hr, ha⟩, hn⟩
    cases hq : List.map
        (fun st => ({ ID := st.ID, ExternalID := st.ExternalID, Name := st.Name, Color := none,
                      Position := 0, ActiveStatus := 0 } : Status))
        (List.filter (fun st => st.Name == name && st.ActiveStatus == 1) s.statuses) with
    | nil =>
      simp only [List.map_eq_nil_iff, List.filter_eq_nil_iff, Bool.and_eq_true, beq_iff_eq] at hq
      exact absurd ⟨hn, ha⟩ (hq r hr)
    | cons a l => exact ⟨a, rfl⟩

theorem GetStatusByName_error_of_not_mem {s : Store} {name : String}
    (h : name ∉ activeStatusNames s) :
    ∃ e, StatusRepository.GetStatusByName s name = .error e := by
  cases hq : StatusRepository.GetStatusByName s name with
  | error e => exact ⟨e, rfl⟩
  | ok st => exact absurd ((GetStatusByName_ok_iff s name).1 ⟨st, hq⟩) h

theorem names_nodup_rename (statusID : Int) (n : String) (c : Option String) (p : Int) :
    ∀ l : List Status, (l.map (fun st => st.ID)).Nodup → (l.map (fun st => st.Name)).Nodup →
      n ∉ l.map (fun st => st.Name) →
      ((l.map (fun r => if r.ID == statusID then
          { r with Name := n, Color := c, Position := p } else r)).map
        (fun st => st.Name)).Nodup := by
  intro l
  induction l with
  | nil => intro _ _ _; simp
  | cons a t ih =>
    intro hid hname hn
    have hnt : n ∉ t.map (fun st => st.Name) := fun h => hn (List.mem_cons_of_mem _ h)
    have hidt : (t.map (fun st => st.ID)).Nodup := (List.nodup_cons.1 hid).2
    have hnamet : (t.map (fun st => st.Name)).Nodup := (List.nodup_cons.1 hname).2
    simp only [List.map_cons, List.nodup_cons, List.mem_map, not_exists, not_and,
      List.mem_cons, not_or, forall_exists_index, and_imp, forall_apply_eq_imp_iff₂] at hid hname hn ⊢
    refine ⟨?_, ih hidt hnamet hnt⟩
    intro r hr
    by_cases ha : a.ID = statusID
    · have hrne : ¬ r.ID = statusID := fun h => hid.1 r hr (by rw [h, ha])
      simp only [ha, beq_self_eq_true, if_true, beq_iff_eq, hrne, if_false]
      exact hn.2 r hr
    · by_cases hrid : r.ID = statusID
      · simp only [beq_iff_eq, ha, if_false, hrid, if_true]
        exact fun h => hn.1 h
      · simp only [beq_iff_eq, ha, if_false, hrid]
        exact hname.1 r hr

theorem filter_active_setFields (l : List Status) (statusID : Int) (n : String)
    (c : Option String) (p : Int) :
    (l.map (fun r => if r.ID == statusID then
        { r with Name := n, Color := c, Position := p } else r)).filter
      (fun st => st.ActiveStatus == 1) =
    (l.filter (fun st => st.ActiveStatus == 1)).map (fun r => if r.ID == statusID then
        { r with Name := n, Color := c, Position := p } else r) := by
  rw [List.filter_map]
  congr 1
  apply List.filter_congr
  intro r _
  simp only [Function.comp]
  split <;> rfl

theorem StatusInv_create {s : Store} (hinv : StatusInv s) (st : Status)
    (hid : st.ID = s.statuses_seq) (hact : st.ActiveStatus = 1)
    (hnew : st.Name ∉ activeStatusNames s) :
    StatusInv { s with statuses := s.statuses ++ [st], statuses_seq := s.statuses_seq + 1 } := by
  constructor
  · simp only [List.map_append, List.map_cons, List.map_nil]
    rw [List.nodup_append]
    refine ⟨hinv.ids, List.nodup_singleton _, ?_⟩
    intro x hx hx1
    simp only [List.mem_singleton] at hx1
    simp only [List.mem_map] at hx
    obtain ⟨r, hr, rfl⟩ := hx
    have := hinv.ids_lt r hr
    omega
  · intro r hr
    simp only [List.mem_append, List.mem_singleton] at hr
    rcases hr with hr | rfl
    · have := hinv.ids_lt r hr; simp only; omega
    · simp only; omega
  · have hn := hinv.names
    simp only [activeStatusNames, List.filter_append, List.map_append] at hn hnew ⊢
    rw [List.nodup_append]
    refine ⟨hn, ?_, ?_⟩
    · simp [List.filter_cons, hact]
    · intro x hx hx1
      simp only [List.filter_cons, hact, beq_self_eq_true, if_true, List.filter_nil,
        List.map_cons, List.map_nil, List.mem_singleton] at hx1
      subst hx1
      exact hnew hx

theorem StatusInv_update {s : Store} (hinv : StatusInv s) (st : Status) (hst : st ∈ s.statuses)
    (n : String) (c : Option String) (p : Int)
    (hname : n = st.Name ∨ n ∉ activeStatusNames s) :
    StatusInv { s with statuses := s.statuses.map (fun r =>
      if r.ID == st.ID then { r with Name := n, Color := c, Position := p } else r) } := by
  constructor
  · have : (List.map (fun st => st.ID) (s.statuses.map (fun r =>
        if r.ID == st.ID then { r with Name := n, Color := c, Position := p } else r))) =
        s.statuses.map (fun st => st.ID) := by
      rw [List.map_map]
      apply List.map_congr_left
      intro r _
      simp only [Function.comp]
      split <;> rfl
    simp only [this]
    exact hinv.ids
  · intro r hr
    simp only [List.mem_map] at hr
    obtain ⟨y, hy, rfl⟩ := hr
    have := hinv.ids_lt y hy
    split <;> simpa using this
  · have hn := hinv.names
    simp only [activeStatusNames] at hn hname ⊢
    rw [filter_active_setFields]
    rcases hname with rfl | hnew
    · have : ((s.statuses.filter (fun st => st.ActiveStatus == 1)).map (fun r =>
          if r.ID == st.ID then { r with Name := st.Name, Color := c, Position := p } else r)).map
          (fun st => st.Name) =
          (s.statuses.filter (fun st => st.ActiveStatus == 1)).map (fun st => st.Name) := by
        rw [List.map_map]
        apply List.map_congr_left
        intro r hr
        simp only [Function.comp]
        split
        · rename_i he
          have := List.inj_on_of_nodup_map hinv.ids (List.mem_of_mem_filter hr) hst
            (by simpa using he)
          rw [this]
        · rfl
      rw [this]
      exact hn
    · exact names_nodup_rename st.ID n c p _
        ((hinv.ids.sublist (List.Sublist.map _ (List.filter_sublist _)))) hn hnew

/-- C4: in a store whose statuses have distinct internal ids and whose ACTIVE
statuses have pairwise distinct names, `CreateStatus` with a name held by an
ACTIVE status fails and leaves the store as it was; `UpdateStatus` that changes
the name to one held by an ACTIVE status fails and leaves the store as it
was; and after any successful `CreateStatus` or `UpdateStatus` the ids and the
ACTIVE names are again pairwise distinct. -/
theorem C4_status_names_unique (s : Store) (hinv : StatusInv s) :
    (∀ (req : StatusRequest) (uuid : String), req.Name ∈ activeStatusNames s →
      StatusService.CreateStatus s req uuid =
        (.error (.New "a status with this name already exists"), s)) ∧
    (∀ (ext : String) (req : StatusRequest) (st : Status),
      StatusRepository.GetStatusByExternalID s ext = .ok st → req.Name ≠ st.Name →
      req.Name ∈ activeStatusNames s →
      StatusService.UpdateStatus s ext req =
        (.error (.New "a status with this new name already exists"), s)) ∧
    (∀ (req : StatusRequest) (uuid : String) (resp : StatusResponse) (s1 : Store),
      StatusService.CreateStatus s req uuid = (.ok resp, s1) →
      StatusInv s1 ∧ req.Name ∈ activeStatusNames s1) ∧
    (∀ (ext : String) (req : StatusRequest) (resp : StatusResponse) (s1 : Store),
      StatusService.UpdateStatus s ext req = (.ok resp, s1) → StatusInv s1) := by
  refine ⟨?_, ?_, ?_, ?_⟩
  · intro req uuid hmem
    obtain ⟨st, hst⟩ := (GetStatusByName_ok_iff s req.Name).2 hmem
    simp only [StatusService.CreateStatus, hst]
  · intro ext req st hst hne hmem
    obtain ⟨st1, hst1⟩ := (GetStatusByName_ok_iff s req.Name).2 hmem
    have hne1 : (st.Name != req.Name) = true := by simpa using fun h => hne h.symm
    simp only [StatusService.UpdateStatus, hst, hne1, hst1, Except.isOk, Except.toBool,
      Bool.and_self, if_true]
  · intro req uuid resp s1 h
    unfold StatusService.CreateStatus at h
    split at h
    · simp at h
    · rename_i e he
      have hnew : req.Name ∉ activeStatusNames s := by
        intro hmem
        obtain ⟨st, hst⟩ := (GetStatusByName_ok_iff s req.Name).2 hmem
        rw [hst] at he
        exact absurd he (by simp)
      simp only [StatusRepository.CreateStatus, Prod.mk.injEq, Except.ok.injEq] at h
      obtain ⟨-, rfl⟩ := h
      refine ⟨StatusInv_create hinv _ rfl rfl hnew, ?_⟩
      simp [activeStatusNames, List.filter_append, List.filter_cons]
  · intro ext req resp s1 h
    unfold StatusService.UpdateStatus at h
    split at h
    · simp at h
    · rename_i st hst
      obtain ⟨hmem, -, -⟩ := GetStatusByExternalID_ok hst
      by_cases htaken : (st.Name != req.Name &&
          (StatusRepository.GetStatusByName s req.Name).isOk) = true
      · simp [htaken] at h
      · have hname : req.Name = st.Name ∨ req.Name ∉ activeStatusNames s := by
          by_cases hn : req.Name = st.Name
          · exact Or.inl hn
          · right
            intro hin
            obtain ⟨st1, hst1⟩ := (GetStatusByName_ok_iff s req.Name).2 hin
            have hne1 : (st.Name != req.Name) = true := by simpa using fun h => hn h.symm
            simp [hne1, hst1, Except.isOk, Except.toBool] at htaken
        simp only [htaken, Bool.false_eq_true, if_false, StatusRepository.UpdateStatus] at h
        by_cases hany : (s.statuses.any fun r => r.ID == st.ID) = true
        · simp only [hany, if_true, Prod.mk.injEq] at h
          obtain ⟨-, rfl⟩ := h
          exact StatusInv_update hinv st hmem _ _ _ hname
        · simp [hany] at h

theorem StatusInv_sampleStore : StatusInv sampleStore := by
  constructor
  · decide
  · intro st hst
    simp only [sampleStore, List.mem_cons, List.mem_singleton, List.not_mem_nil, or_false] at hst
    rcases hst with rfl | rfl <;> decide
  · decide

/-- C4, at a concrete store: in `sampleStore` (statuses `Todo` and `Done`)
creating a second `Todo` fails, renaming `s-2` to `Todo` fails, and creating
`Blocked` succeeds and keeps the names distinct. -/
theorem C4_status_names_unique_witness :
    StatusService.CreateStatus sampleStore { Name := "Todo", Color := none, Position := none }
        "s-3" = (.error (.New "a status with this name already exists"), sampleStore) ∧
    StatusService.UpdateStatus sampleStore "s-2"
        { Name := "Todo", Color := none, Position := none } =
      (.error (.New "a status with this new name already exists"), sampleStore) ∧
    activeStatusNames (StatusService.CreateStatus sampleStore
        { Name := "Blocked", Color := none, Position := some 2 } "s-3").2 =
      ["Todo", "Done", "Blocked"] ∧
    StatusInv (StatusService.CreateStatus sampleStore
        { Name := "Blocked", Color := none, Position := some 2 } "s-3").2 :=
  have h := C4_status_names_unique sampleStore StatusInv_sampleStore
  ⟨h.1 _ "s-3" (by decide),
   h.2.1 "s-2" _ { ID := 2, ExternalID := "s-2", Name := "Done", Color := some "green",
                   Position := 1, ActiveStatus := 1 } rfl (by decide) (by decide),
   by decide,
   (h.2.2.1 { Name := "Blocked", Color := none, Position := some 2 } "s-3"
      { ExternalID := "s-3", Name := "Blocked", Color := none, Position := 2 } _ rfl).1⟩

/-! ## Tasks: the assignee must be a member -/

/-- C5, evaluated at `sampleStore`: `carol` has no membership row in workspace 1,
which governs task `t-1` and board `b-1`. `CreateTask` refuses her as assignee
and changes nothing, but `AssignTask` and `UpdateTask` succeed and store her
(internal id 3) as the assignee of `t-1`. -/
theorem C5_non_member_assignee :
    WorkspaceRepository.GetMemberRole sampleStore 1 3 = .error .ErrNoRows ∧
    TaskService.CreateTask sampleStore "alice" "b-1" assignCarol "t-2" =
      (.error (.New "cannot assign task to a non-member"), sampleStore) ∧
    ((TaskService.AssignTask sampleStore "alice" "t-1"
        { AssignedToExternalID := some "carol" }).1.isOk = true ∧
      (TaskService.AssignTask sampleStore "alice" "t-1"
        { AssignedToExternalID := some "carol" }).2.tasks.map (fun t => t.AssignedTo) =
        [some 3]) ∧
    ((TaskService.UpdateTask sampleStore "alice" "t-1" assignCarol).1.isOk = true ∧
      (TaskService.UpdateTask sampleStore "alice" "t-1" assignCarol).2.tasks.map
        (fun t => t.AssignedTo) = [some 3]) :=
  ⟨rfl, rfl, ⟨rfl, rfl⟩, ⟨rfl, rfl⟩⟩

/-! ## Workspaces: owner-only operations and reads -/

theorem any_workspace_of_ok {s : Store} {ext : String} {w : Workspace}
    (h : WorkspaceRepository.GetWorkspaceByExternalID s ext = .ok w) :
    s.workspaces.any (fun r => r.ID == w.ID) = true := by
  obtain ⟨r, hr, hid, -⟩ := GetWorkspaceByExternalID_ok h
  simp only [List.any_eq_true, beq_iff_eq]
  exact ⟨r, hr, hid⟩

/-- C8: with the actor and the workspace resolved, `UpdateWorkspace`,
`DeleteWorkspace` and `UpdateMemberRole` are refused with their unauthorized
error, the store unchanged, exactly when the actor's internal id differs from
the workspace's `OwnerID`; the membership table plays no part. The recorded
owner's `UpdateWorkspace` and `DeleteWorkspace` succeed, and their
`UpdateMemberRole` goes on to resolve the target. -/
theorem C8_owner_only (s : Store) (actor workspace : String) (user : User) (w : Workspace)
    (hu : UserRepository.GetUserByExternalID s actor = .ok user)
    (hw : WorkspaceRepository.GetWorkspaceByExternalID s workspace = .ok w) :
    (user.ID ≠ w.OwnerID →
      (∀ req, WorkspaceService.UpdateWorkspace s actor workspace req =
        (.error (.New "unauthorized: only owner can update workspace"), s)) ∧
      WorkspaceService.DeleteWorkspace s actor workspace =
        (.error (.New "unauthorized: only owner can delete workspace"), s) ∧
      (∀ target req, WorkspaceService.UpdateMemberRole s actor workspace target req =
        (.error (.New "unauthorized: only owner can update member roles"), s))) ∧
    (user.ID = w.OwnerID →
      (∀ req, (WorkspaceService.UpdateWorkspace s actor workspace req).1 =
        .ok { ExternalID := w.ExternalID, Name := req.Name, Description := req.Description,
              OwnerExternalID := w.OwnerExternalID }) ∧
      WorkspaceService.DeleteWorkspace s actor workspace =
        WorkspaceRepository.DeleteWorkspace s w.ID ∧
      (WorkspaceService.DeleteWorkspace s actor workspace).1 = .ok () ∧
      (∀ target req, WorkspaceService.UpdateMemberRole s actor workspace target req =
        match UserRepository.GetUserByExternalID s target with
        | .error _ => (.error (.New "target user not found"), s)
        | .ok targetUser =>
          if targetUser.ID == w.OwnerID then (.error (.New "cannot change owner role"), s)
          else WorkspaceRepository.UpdateMemberRole s w.ID targetUser.ID req.Role)) := by
  constructor
  · intro hne
    have hb : (w.OwnerID != user.ID) = true := by simpa using fun h => hne h.symm
    refine ⟨fun req => ?_, ?_, fun target req => ?_⟩
    · simp only [WorkspaceService.UpdateWorkspace, hu, hw, hb, if_true]
    · simp only [WorkspaceService.DeleteWorkspace, hu, hw, hb, if_true]
    · simp only [WorkspaceService.UpdateMemberRole, hu, hw, hb, if_true]
  · intro heq
    have hb : (w.OwnerID != user.ID) = false := by simp [heq]
    refine ⟨fun req => ?_, ?_, ?_, fun target req => ?_⟩
    · simp only [WorkspaceService.UpdateWorkspace, hu, hw, hb, Bool.false_eq_true, if_false,
        WorkspaceRepository.UpdateWorkspace, any_workspace_of_ok hw, if_true]
    · simp only [WorkspaceService.DeleteWorkspace, hu, hw, hb, Bool.false_eq_true, if_false]
    · simp only [WorkspaceService.DeleteWorkspace, hu, hw, hb, Bool.false_eq_true, if_false,
        WorkspaceRepository.DeleteWorkspace]
    · simp only [WorkspaceService.UpdateMemberRole, hu, hw, hb, Bool.false_eq_true, if_false]

/-- C8, at a concrete store: in `twoOwners`, `bob` holds a membership row with
role `owner` in `w-1` but is not its recorded owner, and is refused; `alice`,
the recorded owner, may delete the workspace. -/
theorem C8_owner_only_witness :
    WorkspaceRepository.GetMemberRole twoOwners 1 2 = .ok "owner" ∧
    WorkspaceService.UpdateWorkspace twoOwners "bob" "w-1" teamRequest =
      (.error (.New "unauthorized: only owner can update workspace"), twoOwners) ∧
    WorkspaceService.DeleteWorkspace twoOwners "bob" "w-1" =
      (.error (.New "unauthorized: only owner can delete workspace"), twoOwners) ∧
    (WorkspaceService.DeleteWorkspace twoOwners "alice" "w-1").1 = .ok () :=
  have hb := C8_owner_only twoOwners "bob" "w-1"
    { ID := 2, ExternalID := "bob", Name := "Bob", Email := "bob@example.org",
      Password := "hash-b", AvatarURL := none, ActiveStatus := 1 }
    { ID := 1, ExternalID := "w-1", Name := "Team", Description := none, OwnerID := 1,
      OwnerExternalID := "alice", ActiveStatus := 1 } rfl rfl
  have ha := C8_owner_only twoOwners "alice" "w-1"
    { ID := 1, ExternalID := "alice", Name := "Alice", Email := "alice@example.org",
      Password := "hash-a", AvatarURL := none, ActiveStatus := 1 }
    { ID := 1, ExternalID := "w-1", Name := "Team", Description := none, OwnerID := 1,
      OwnerExternalID := "alice", ActiveStatus := 1 } rfl rfl
  ⟨rfl, (hb.1 (by decide)).1 teamRequest, (hb.1 (by decide)).2.1, (ha.2 rfl).2.2.1⟩

theorem GetMemberRole_error_iff (s : Store) (workspaceID userID : Int) :
    (∃ e, WorkspaceRepository.GetMemberRole s workspaceID userID = .error e) ↔
      memberRows s workspaceID userID = [] := by
  rw [WorkspaceRepository.GetMemberRole, QueryRow_error_iff, List.map_eq_nil_iff, memberRows]

theorem GetMemberRole_of_nil {s : Store} {workspaceID userID : Int}
    (h : memberRows s workspaceID userID = []) :
    WorkspaceRepository.GetMemberRole s workspaceID userID = .error .ErrNoRows := by
  rw [memberRows] at h
  rw [WorkspaceRepository.GetMemberRole, h]
  rfl

theorem GetMemberRole_of_ne_nil {s : Store} {workspaceID userID : Int}
    (h : memberRows s workspaceID userID ≠ []) :
    ∃ role, WorkspaceRepository.GetMemberRole s workspaceID userID = .ok role := by
  cases hq : WorkspaceRepository.GetMemberRole s workspaceID userID with
  | ok role => exact ⟨role, rfl⟩
  | error e => exact absurd ((GetMemberRole_error_iff s workspaceID userID).1 ⟨e, hq⟩) h

/-- C9: with the user and the workspace resolved, `GetWorkspace` and
`GetMembers` succeed exactly when the user has a membership row in the
workspace, whatever its role; without a row both return the unauthorized
error and no data. -/
theorem C9_read_needs_membership (s : Store) (actor workspace : String) (user : User)
    (w : Workspace)
    (hu : UserRepository.GetUserByExternalID s actor = .ok user)
    (hw : WorkspaceRepository.GetWorkspaceByExternalID s workspace = .ok w) :
    (memberRows s w.ID user.ID ≠ [] →
      WorkspaceService.GetWorkspace s actor workspace =
        .ok { ExternalID := w.ExternalID, Name := w.Name, Description := w.Description,
              OwnerExternalID := w.OwnerExternalID } ∧
      WorkspaceService.GetMembers s actor workspace = WorkspaceRepository.GetMembers s w.ID ∧
      ∃ members, WorkspaceService.GetMembers s actor workspace = .ok members) ∧
    (memberRows s w.ID user.ID = [] →
      WorkspaceService.GetWorkspace s actor workspace =
        .error (.New "unauthorized: not a member of this workspace") ∧
      WorkspaceService.GetMembers s actor workspace =
        .error (.New "unauthorized: not a member of this workspace")) ∧
    ((∃ resp, WorkspaceService.GetWorkspace s actor workspace = .ok resp) ↔
      memberRows s w.ID user.ID ≠ []) ∧
    ((∃ members, WorkspaceService.GetMembers s actor workspace = .ok members) ↔
      memberRows s w.ID user.ID ≠ []) := by
  have hyes : memberRows s w.ID user.ID ≠ [] →
      WorkspaceService.GetWorkspace s actor workspace =
        .ok { ExternalID := w.ExternalID, Name := w.Name, Description := w.Description,
              OwnerExternalID := w.OwnerExternalID } ∧
      WorkspaceService.GetMembers s actor workspace = WorkspaceRepository.GetMembers s w.ID ∧
      ∃ members, WorkspaceService.GetMembers s actor workspace = .ok members := by
    intro hne
    obtain ⟨role, hrole⟩ := GetMemberRole_of_ne_nil hne
    have hg : WorkspaceService.GetMembers s actor workspace =
        WorkspaceRepository.GetMembers s w.ID := by
      simp only [WorkspaceService.GetMembers, hu, hw, hrole]
    refine ⟨?_, hg, ?_⟩
    · simp only [WorkspaceService.GetWorkspace, hu, hw, hrole]
    · rw [hg]
      exact ⟨_, rfl⟩
  have hno : memberRows s w.ID user.ID = [] →
      WorkspaceService.GetWorkspace s actor workspace =
        .error (.New "unauthorized: not a member of this workspace") ∧
      WorkspaceService.GetMembers s actor workspace =
        .error (.New "unauthorized: not a member of this workspace") := by
    intro hnil
    have hrole := GetMemberRole_of_nil hnil
    constructor
    · simp only [WorkspaceService.GetWorkspace, hu, hw, hrole]
    · simp only [WorkspaceService.GetMembers, hu, hw, hrole]
  refine ⟨hyes, hno, ⟨?_, fun hne => ⟨_, (hyes hne).1⟩⟩, ⟨?_, fun hne => (hyes hne).2.2⟩⟩
  · rintro ⟨resp, hresp⟩ hnil
    rw [(hno hnil).1] at hresp
    exact absurd hresp (by simp)
  · rintro ⟨members, hmem⟩ hnil
    rw [(hno hnil).2] at hmem
    exact absurd hmem (by simp)

/-- C9, at a concrete store: in `sampleStore`, `bob` (role `member` in `w-1`)
reads the workspace and its members; `carol`, who has no row in `w-1`, is
refused. -/
theorem C9_read_needs_membership_witness :
    WorkspaceService.GetWorkspace sampleStore "bob" "w-1" =
      .ok { ExternalID := "w-1", Name := "Team", Description := none,
            OwnerExternalID := "alice" } ∧
    (∃ members, WorkspaceService.GetMembers sampleStore "bob" "w-1" = .ok members) ∧
    WorkspaceService.GetWorkspace sampleStore "carol" "w-1" =
      .error (.New "unauthorized: not a member of this workspace") ∧
    WorkspaceService.GetMembers sampleStore "carol" "w-1" =
      .error (.New "unauthorized: not a member of this workspace") :=
  have hb := C9_read_needs_membership sampleStore "bob" "w-1"
    { ID := 2, ExternalID := "bob", Name := "Bob", Email := "bob@example.org",
      Password := "hash-b", AvatarURL := none, ActiveStatus := 1 }
    { ID := 1, ExternalID := "w-1", Name := "Team", Description := none, OwnerID := 1,
      OwnerExternalID := "alice", ActiveStatus := 1 } rfl rfl
  have hc := C9_read_needs_membership sampleStore "carol" "w-1"
    { ID := 3, ExternalID := "carol", Name := "Carol", Email := "carol@example.org",
      Password := "hash-c", AvatarURL := none, ActiveStatus := 1 }
    { ID := 1, ExternalID := "w-1", Name := "Team", Description := none, OwnerID := 1,
      OwnerExternalID := "alice", ActiveStatus := 1 } rfl rfl
  ⟨(hb.1 (by decide)).1, (hb.1 (by decide)).2.2, (hc.2.1 (by decide)).1, (hc.2.1 (by decide)).2⟩

/-! ## Boards: membership in the governing workspace -/

theorem GetBoardByExternalID_ok {s : Store} {ext : String} {b : Board}
    (h : BoardRepository.GetBoardByExternalID s ext = .ok b) :
    ∃ r ∈ s.boards, r.ID = b.ID ∧ r.WorkspaceID = b.WorkspaceID ∧ r.ExternalID = ext ∧
      r.ActiveStatus = 1 ∧ b.ExternalID = ext := by
  have hm := QueryRow_ok_mem h
  simp only [List.mem_flatMap, List.mem_filter, BoardRepository.joinWorkspace, List.mem_map,
    Bool.and_eq_true, beq_iff_eq] at hm
  obtain ⟨r, ⟨hr, he, ha⟩, w, _, rfl⟩ := hm
  exact ⟨r, hr, rfl, rfl, he, ha, he⟩

theorem any_board_of_ok {s : Store} {ext : String} {b : Board}
    (h : BoardRepository.GetBoardByExternalID s ext = .ok b) :
    s.boards.any (fun r => r.ID == b.ID) = true := by
  obtain ⟨r, hr, hid, -⟩ := GetBoardByExternalID_ok h
  simp only [List.any_eq_true, beq_iff_eq]
  exact ⟨r, hr, hid⟩

/-- C10: every board operation is decided by the actor's membership in the
governing workspace: the workspace named in the request for `CreateBoard` and
`GetWorkspaceBoards`, the board's own `WorkspaceID` for `GetBoard`,
`UpdateBoard` and `DeleteBoard`. Without a membership row there the call is
refused with an unauthorized error and the store is unchanged, whatever rows
the actor has in other workspaces; with a row the call goes through. -/
theorem C10_board_needs_membership (s : Store) (actor : String) (user : User)
    (hu : UserRepository.GetUserByExternalID s actor = .ok user) :
    (∀ (workspace : String) (w : Workspace),
      WorkspaceRepository.GetWorkspaceByExternalID s workspace = .ok w →
      (memberRows s w.ID user.ID = [] →
        (∀ req uuid, BoardService.CreateBoard s actor workspace req uuid =
          (.error (.New "unauthorized: not a member of this workspace"), s)) ∧
        BoardService.GetWorkspaceBoards s actor workspace =
          .error (.New "unauthorized: not a member of this workspace")) ∧
      (memberRows s w.ID user.ID ≠ [] →
        (∀ req uuid, (BoardService.CreateBoard s actor workspace req uuid).1 =
          .ok { ExternalID := uuid, WorkspaceExternalID := w.ExternalID, Name := req.Name,
                Description := req.Description }) ∧
        ∃ boards, BoardService.GetWorkspaceBoards s actor workspace = .ok boards)) ∧
    (∀ (board : String) (b : Board),
      BoardRepository.GetBoardByExternalID s board = .ok b →
      (memberRows s b.WorkspaceID user.ID = [] →
        BoardService.GetBoard s actor board =
          .error (.New "unauthorized: not a member of the workspace for this board") ∧
        (∀ req, BoardService.UpdateBoard s actor board req =
          (.error (.New "unauthorized: not a member of the workspace"), s)) ∧
        BoardService.DeleteBoard s actor board =
          (.error (.New "unauthorized: not a member of the workspace"), s)) ∧
      (memberRows s b.WorkspaceID user.ID ≠ [] →
        BoardService.GetBoard s actor board =
          .ok { ExternalID := b.ExternalID, WorkspaceExternalID := b.WorkspaceExternalID,
                Name := b.Name, Description := b.Description } ∧
        (∀ req, (BoardService.UpdateBoard s actor board req).1 =
          .ok { ExternalID := b.ExternalID, WorkspaceExternalID := b.WorkspaceExternalID,
                Name := req.Name, Description := req.Description }) ∧
        BoardService.DeleteBoard s actor board = BoardRepository.DeleteBoard s b.ID)) := by
  constructor
  · intro workspace w hw
    constructor
    · intro hnil
      have hrole := GetMemberRole_of_nil hnil
      refine ⟨fun req uuid => ?_, ?_⟩
      · simp only [BoardService.CreateBoard, hu, hw, hrole]
      · simp only [BoardService.GetWorkspaceBoards, hu, hw, hrole]
    · intro hne
      obtain ⟨role, hrole⟩ := GetMemberRole_of_ne_nil hne
      refine ⟨fun req uuid => ?_, ?_⟩
      · simp only [BoardService.CreateBoard, hu, hw, hrole, BoardRepository.CreateBoard]
      · simp only [BoardService.GetWorkspaceBoards, hu, hw, hrole,
          BoardRepository.GetBoardsByWorkspaceID]
        exact ⟨_, rfl⟩
  · intro board b hb
    constructor
    · intro hnil
      have hrole := GetMemberRole_of_nil hnil
      refine ⟨?_, fun req => ?_, ?_⟩
      · simp only [BoardService.GetBoard, hu, hb, hrole]
      · simp only [BoardService.UpdateBoard, hu, hb, hrole]
      · simp only [BoardService.DeleteBoard, hu, hb, hrole]
    · intro hne
      obtain ⟨role, hrole⟩ := GetMemberRole_of_ne_nil hne
      refine ⟨?_, fun req => ?_, ?_⟩
      · simp only [BoardService.GetBoard, hu, hb, hrole]
      · simp only [BoardService.UpdateBoard, hu, hb, hrole, BoardRepository.UpdateBoard,
          any_board_of_ok hb, if_true]
      · simp only [BoardService.DeleteBoard, hu, hb, hrole]

/-- C10, at a concrete store: in `sampleStore`, `carol` owns workspace `w-2` but
has no row in `w-1`, which governs board `b-1`; she can neither create a board
in `w-1` nor read, update or delete `b-1`, and nothing changes. `bob`, a
member of `w-1`, reads `b-1`. -/
theorem C10_board_needs_membership_witness :
    WorkspaceRepository.GetMemberRole sampleStore 2 3 = .ok "owner" ∧
    BoardService.CreateBoard sampleStore "carol" "w-1" { Name := "Mine", Description := none }
        "b-2" = (.error (.New "unauthorized: not a member of this workspace"), sampleStore) ∧
    BoardService.GetBoard sampleStore "carol" "b-1" =
      .error (.New "unauthorized: not a member of the workspace for this board") ∧
    BoardService.UpdateBoard sampleStore "carol" "b-1" { Name := "Mine", Description := none } =
      (.error (.New "unauthorized: not a member of the workspace"), sampleStore) ∧
    BoardService.DeleteBoard sampleStore "carol" "b-1" =
      (.error (.New "unauthorized: not a member of the workspace"), sampleStore) ∧
    BoardService.GetBoard sampleStore "bob" "b-1" =
      .ok { ExternalID := "b-1", WorkspaceExternalID := "w-1", Name := "Board",
            Description := none } :=
  have hc := C10_board_needs_membership sampleStore "carol"
    { ID := 3, ExternalID := "carol", Name := "Carol", Email := "carol@example.org",
      Password := "hash-c", AvatarURL := none, ActiveStatus := 1 } rfl
  have hb := C10_board_needs_membership sampleStore "bob"
    { ID := 2, ExternalID := "bob", Name := "Bob", Email := "bob@example.org",
      Password := "hash-b", AvatarURL := none, ActiveStatus := 1 } rfl
  have hw := hc.1 "w-1"
    { ID := 1, ExternalID := "w-1", Name := "Team", Description := none, OwnerID := 1,
      OwnerExternalID := "alice", ActiveStatus := 1 } rfl
  have hbd := hc.2 "b-1"
    { ID := 1, ExternalID := "b-1", WorkspaceID := 1, WorkspaceExternalID := "w-1",
      CreatedByID := some 1, Name := "Board", Description := none, ActiveStatus := 1 } rfl
  have hbb := hb.2 "b-1"
    { ID := 1, ExternalID := "b-1", WorkspaceID := 1, WorkspaceExternalID := "w-1",
      CreatedByID := some 1, Name := "Board", Description := none, ActiveStatus := 1 } rfl
  ⟨rfl, (hw.1 (by decide)).1 _ _, (hbd.1 (by decide)).1, (hbd.1 (by decide)).2.1 _,
   (hbd.1 (by decide)).2.2, (hbb.2 (by decide)).1⟩

/-! ## Scenario: only the owner deletes a workspace -/

theorem GetWorkspaceByExternalID_last {s : Store} {uuid : String} {ws : List WorkspaceRow}
    {row : WorkspaceRow} {o : User} (hws : s.workspaces = ws ++ [row])
    (hfresh : ∀ w ∈ ws, w.ExternalID ≠ uuid) (hrow : row.ExternalID = uuid)
    (hact : row.ActiveStatus = 1) (ho : o ∈ s.users) (hoid : o.ID = row.OwnerID) :
    ∃ oext, WorkspaceRepository.GetWorkspaceByExternalID s uuid =
      .ok { ID := row.ID, ExternalID := row.ExternalID, Name := row.Name,
            Description := row.Description, OwnerID := row.OwnerID, OwnerExternalID := oext,
            ActiveStatus := row.ActiveStatus } := by
  have h1 : ws.filter (fun w => w.ExternalID == uuid && w.ActiveStatus == 1) = [] := by
    rw [List.filter_eq_nil_iff]
    intro w hw
    simp only [Bool.and_eq_true, beq_iff_eq, not_and]
    exact fun he => absurd he (hfresh w hw)
  simp only [WorkspaceRepository.GetWorkspaceByExternalID, hws, List.filter_append, h1,
    List.nil_append, List.filter_cons, hrow, hact, beq_self_eq_true, Bool.and_self, if_true,
    List.filter_nil, List.flatMap_cons, List.flatMap_nil, List.append_nil]
  cases hf : s.users.filter (fun u => u.ID == row.OwnerID) with
  | nil =>
    rw [List.filter_eq_nil_iff] at hf
    exact absurd (by simpa using hoid) (hf o ho)
  | cons u us => exact ⟨u.ExternalID, rfl⟩

theorem GetUserByExternalID_mem {s : Store} {ext : String} {u : User}
    (h : UserRepository.GetUserByExternalID s ext = .ok u) : u ∈ s.users :=
  List.mem_of_mem_filter (QueryRow_ok_mem h)

theorem insertWorkspaceMember_fresh {s : Store} {workspaceID userID : Int} (role : String)
    (h : memberRows s workspaceID userID = []) :
    insertWorkspaceMember s workspaceID userID role =
      (.ok { ID := s.workspace_members_seq, WorkspaceID := workspaceID, UserID := userID,
             Role := role }, s.withMember workspaceID userID role) := by
  have hany := (any_member_eq_false_iff s workspaceID userID).2 h
  simp only [insertWorkspaceMember, hany, Bool.false_eq_true, if_false, Store.withMember]

theorem CreateWorkspace_fresh {s : Store} {creator uuid : String} {user : User}
    (req : WorkspaceRequest)
    (hu : UserRepository.GetUserByExternalID s creator = .ok user)
    (hseq : ∀ m ∈ s.workspace_members, m.WorkspaceID ≠ s.workspaces_seq) :
    WorkspaceService.CreateWorkspace s creator req uuid =
      (.ok { ExternalID := uuid, Name := req.Name, Description := req.Description,
             OwnerExternalID := user.ExternalID }, s.withWorkspace uuid req user.ID) := by
  have hany : s.workspace_members.any
      (fun m => m.WorkspaceID == s.workspaces_seq && m.UserID == user.ID) = false := by
    rw [List.any_eq_false]
    intro m hm
    simp only [Bool.and_eq_true, beq_iff_eq, not_and]
    exact fun he => absurd he (hseq m hm)
  simp only [WorkspaceService.CreateWorkspace, hu, WorkspaceRepository.CreateWorkspace,
    insertWorkspaceMember, hany, Bool.false_eq_true, if_false, Store.withWorkspace]

theorem InviteMember_fresh {s : Store} {actor workspace : String} {req : InviteMemberRequest}
    {current target : User} {w : Workspace} {role : String}
    (hc : UserRepository.GetUserByExternalID s actor = .ok current)
    (hw : WorkspaceRepository.GetWorkspaceByExternalID s workspace = .ok w)
    (hrole : WorkspaceRepository.GetMemberRole s w.ID current.ID = .ok role)
    (hor : role = "owner" ∨ role = "admin")
    (ht : UserRepository.GetUserByExternalID s req.UserExternalID = .ok target)
    (hnil : memberRows s w.ID target.ID = []) :
    WorkspaceService.InviteMember s actor workspace req =
      (.ok (), s.withMember w.ID target.ID req.Role) := by
  have hif : (role != "owner" && role != "admin") = false := by
    rcases hor with rfl | rfl <;> decide
  simp only [WorkspaceService.InviteMember, hc, hw, hrole, hif, ht, Bool.false_eq_true, if_false,
    WorkspaceRepository.AddMember, insertWorkspaceMember_fresh _ hnil]

/-- C7: the scenario as a trace. Let `a` and `b` resolve to users with different
internal ids, let `uuid` be an external id no workspace uses yet, and let no
membership row refer to the id the sequence hands out next. Then
`CreateWorkspace` by `a` succeeds and returns `uuid`; `InviteMember` of `b` with
role `member` by `a` succeeds; `DeleteWorkspace` by `b` fails with the unauthorized
error and leaves the store, with the workspace and both membership rows, as it
was; and `DeleteWorkspace` by `a` then succeeds, after which the workspace no
longer resolves. -/
theorem C7_only_owner_deletes (s : Store) (a b uuid : String) (req : WorkspaceRequest)
    (A B : User)
    (hA : UserRepository.GetUserByExternalID s a = .ok A)
    (hB : UserRepository.GetUserByExternalID s b = .ok B)
    (hne : A.ID ≠ B.ID)
    (hfresh : ∀ w ∈ s.workspaces, w.ExternalID ≠ uuid)
    (hseq : ∀ m ∈ s.workspace_members, m.WorkspaceID ≠ s.workspaces_seq) :
    ∃ s1 s2 s3 : Store,
      WorkspaceService.CreateWorkspace s a req uuid =
        (.ok { ExternalID := uuid, Name := req.Name, Description := req.Description,
               OwnerExternalID := A.ExternalID }, s1) ∧
      WorkspaceService.InviteMember s1 a uuid { UserExternalID := b, Role := "member" } =
        (.ok (), s2) ∧
      WorkspaceService.DeleteWorkspace s2 b uuid =
        (.error (.New "unauthorized: only owner can delete workspace"), s2) ∧
      (∃ w, WorkspaceRepository.GetWorkspaceByExternalID s2 uuid = .ok w ∧
        w.OwnerID = A.ID ∧
        WorkspaceRepository.GetMemberRole s2 w.ID A.ID = .ok "owner" ∧
        WorkspaceRepository.GetMemberRole s2 w.ID B.ID = .ok "member") ∧
      WorkspaceService.DeleteWorkspace s2 a uuid = (.ok (), s3) ∧
      WorkspaceRepository.GetWorkspaceByExternalID s3 uuid = .error .ErrNoRows ∧
      WorkspaceService.GetWorkspace s3 a uuid = .error (.New "workspace not found") := by
  have hnil : ∀ u : Int, s.workspace_members.filter
      (fun m => m.WorkspaceID == s.workspaces_seq && m.UserID == u) = [] := by
    intro u
    rw [List.filter_eq_nil_iff]
    intro m hm
    simp only [Bool.and_eq_true, beq_iff_eq, not_and]
    exact fun he => absurd he (hseq m hm)
  have hBA : (A.ID == B.ID) = false := by simpa using hne
  obtain ⟨oext, hw⟩ := @GetWorkspaceByExternalID_last (s.withWorkspace uuid req A.ID)
    uuid s.workspaces _ A rfl hfresh rfl rfl (GetUserByExternalID_mem hA) rfl
  have hw2 : WorkspaceRepository.GetWorkspaceByExternalID
      ((s.withWorkspace uuid req A.ID).withMember s.workspaces_seq B.ID "member") uuid = _ := hw
  have hA1 : UserRepository.GetUserByExternalID (s.withWorkspace uuid req A.ID) a = .ok A := hA
  have hB1 : UserRepository.GetUserByExternalID (s.withWorkspace uuid req A.ID) b = .ok B := hB
  have hA2 : UserRepository.GetUserByExternalID
      ((s.withWorkspace uuid req A.ID).withMember s.workspaces_seq B.ID "member") a = .ok A := hA
  have hB2 : UserRepository.GetUserByExternalID
      ((s.withWorkspace uuid req A.ID).withMember s.workspaces_seq B.ID "member") b = .ok B := hB
  have hroleA : WorkspaceRepository.GetMemberRole (s.withWorkspace uuid req A.ID)
      s.workspaces_seq A.ID = .ok "owner" := by
    simp [WorkspaceRepository.GetMemberRole, Store.withWorkspace, List.filter_append, hnil,
      List.filter_cons, QueryRow]
  have hnilB : memberRows (s.withWorkspace uuid req A.ID) s.workspaces_seq B.ID = [] := by
    simp [memberRows, Store.withWorkspace, List.filter_append, hnil, List.filter_cons, hBA]
  have hroleA2 : WorkspaceRepository.GetMemberRole
      ((s.withWorkspace uuid req A.ID).withMember s.workspaces_seq B.ID "member")
      s.workspaces_seq A.ID = .ok "owner" := by
    simp [WorkspaceRepository.GetMemberRole, Store.withWorkspace, Store.withMember,
      List.filter_append, hnil, List.filter_cons, QueryRow]
  have hroleB2 : WorkspaceRepository.GetMemberRole
      ((s.withWorkspace uuid req A.ID).withMember s.workspaces_seq B.ID "member")
      s.workspaces_seq B.ID = .ok "member" := by
    simp [WorkspaceRepository.GetMemberRole, Store.withWorkspace, Store.withMember,
      List.filter_append, hnil, List.filter_cons, QueryRow, hBA]
  have hown : (A.ID != B.ID) = true := by simpa using hne
  have hown2 : (A.ID != A.ID) = false := by simp
  have hA3 : UserRepository.GetUserByExternalID (WorkspaceRepository.DeleteWorkspace
      ((s.withWorkspace uuid req A.ID).withMember s.workspaces_seq B.ID "member")
      s.workspaces_seq).2 a = .ok A := hA
  have hgone : WorkspaceRepository.GetWorkspaceByExternalID (WorkspaceRepository.DeleteWorkspace
      ((s.withWorkspace uuid req A.ID).withMember s.workspaces_seq B.ID "member")
      s.workspaces_seq).2 uuid = .error .ErrNoRows := by
    have hnone : List.filter (fun w => w.ExternalID == uuid && w.ActiveStatus == 1)
        (List.filter (fun w => !(w.ID == s.workspaces_seq))
          (s.workspaces ++
            [({ ID := s.workspaces_seq, ExternalID := uuid, Name := req.Name,
                Description := req.Description, OwnerID := A.ID,
                ActiveStatus := 1 } : WorkspaceRow)])) = [] := by
      rw [List.filter_eq_nil_iff]
      intro w hw
      simp only [List.mem_filter, List.mem_append, List.mem_singleton, Bool.not_eq_true',
        beq_eq_false_iff_ne, ne_eq] at hw
      simp only [Bool.and_eq_true, beq_iff_eq, not_and]
      intro he
      rcases hw.1 with hold | rfl
      · exact absurd he (hfresh w hold)
      · exact absurd rfl hw.2
    simp only [WorkspaceRepository.GetWorkspaceByExternalID, WorkspaceRepository.DeleteWorkspace,
      Store.withMember, Store.withWorkspace, hnone, List.flatMap_nil, QueryRow]
  refine ⟨s.withWorkspace uuid req A.ID,
    (s.withWorkspace uuid req A.ID).withMember s.workspaces_seq B.ID "member",
    (WorkspaceRepository.DeleteWorkspace
      ((s.withWorkspace uuid req A.ID).withMember s.workspaces_seq B.ID "member")
      s.workspaces_seq).2, ?_, ?_, ?_, ?_, ?_, ?_, ?_⟩
  · exact CreateWorkspace_fresh req hA hseq
  · exact InviteMember_fresh hA1 hw hroleA (Or.inl rfl) hB1 hnilB
  · simp only [WorkspaceService.DeleteWorkspace, hB2, hw2, hown, if_true]
  · exact ⟨_, hw2, rfl, hroleA2, hroleB2⟩
  · simp only [WorkspaceService.DeleteWorkspace, hA2, hw2, hown2, Bool.false_eq_true, if_false,
      WorkspaceRepository.DeleteWorkspace]
  · exact hgone
  · simp only [WorkspaceService.GetWorkspace, hA3, hgone]

/-- C7, at a concrete store: the scenario run from `twoUsers` with `alice` as A
and `bob` as B. -/
theorem C7_only_owner_deletes_witness :
    ∃ s1 s2 s3 : Store,
      WorkspaceService.CreateWorkspace twoUsers "alice" teamRequest "w-1" =
        (.ok { ExternalID := "w-1", Name := "Team", Description := none,
               OwnerExternalID := "alice" }, s1) ∧
      WorkspaceService.InviteMember s1 "alice" "w-1" { UserExternalID := "bob", Role := "member" } =
        (.ok (), s2) ∧
      WorkspaceService.DeleteWorkspace s2 "bob" "w-1" =
        (.error (.New "unauthorized: only owner can delete workspace"), s2) ∧
      (∃ w, WorkspaceRepository.GetWorkspaceByExternalID s2 "w-1" = .ok w ∧
        w.OwnerID = 1 ∧
        WorkspaceRepository.GetMemberRole s2 w.ID 1 = .ok "owner" ∧
        WorkspaceRepository.GetMemberRole s2 w.ID 2 = .ok "member") ∧
      WorkspaceService.DeleteWorkspace s2 "alice" "w-1" = (.ok (), s3) ∧
      WorkspaceRepository.GetWorkspaceByExternalID s3 "w-1" = .error .ErrNoRows ∧
      WorkspaceService.GetWorkspace s3 "alice" "w-1" = .error (.New "workspace not found") :=
  C7_only_owner_deletes twoUsers "alice" "bob" "w-1" teamRequest
    { ID := 1, ExternalID := "alice", Name := "Alice", Email := "alice@example.org",
      Password := "hash-a", AvatarURL := none, ActiveStatus := 1 }
    { ID := 2, ExternalID := "bob", Name := "Bob", Email := "bob@example.org",
      Password := "hash-b", AvatarURL := none, ActiveStatus := 1 }
    rfl rfl (by decide)
    (by intro w hw; simp [twoUsers, Store.initial] at hw)
    (by intro m hm; simp [twoUsers, Store.initial] at hm)

/-! ## Tasks: assignment is visible on the board -/

theorem GetTaskByExternalID_ok {s : Store} {ext : String} {t : Task}
    (h : TaskRepository.GetTaskByExternalID s ext = .ok t) :
    t ∈ s.tasks ∧ t.ExternalID = ext ∧ t.ActiveStatus = 1 := by
  have hm := QueryRow_ok_mem h
  simpa [List.mem_filter] using hm

theorem GetUserByExternalID_ok {s : Store} {ext : String} {u : User}
    (h : UserRepository.GetUserByExternalID s ext = .ok u) :
    u ∈ s.users ∧ u.ExternalID = ext ∧ u.ActiveStatus = 1 := by
  have hm := QueryRow_ok_mem h
  simpa [List.mem_filter] using hm

theorem UpdateTask_of_mem {s : Store} {t : Task} (h : ∃ r ∈ s.tasks, r.ID = t.ID) :
    TaskRepository.UpdateTask s t =
      (.ok (), { s with tasks := s.tasks.map (TaskRepository.setColumns t) }) := by
  have hany : s.tasks.any (fun r => r.ID == t.ID) = true := by
    simpa [List.any_eq_true] using h
  simp only [TaskRepository.UpdateTask, hany, if_true]

/-- A successful `AssignTask` rewrites the rows with the task's id, changing
only `assigned_to`, to the id of the resolved user or to NULL. -/
theorem AssignTask_ok {s s1 : Store} {actor taskExt : String} {req : AssignTaskRequest}
    {resp : TaskResponse} (h : TaskService.AssignTask s actor taskExt req = (.ok resp, s1)) :
    ∃ (task : Task) (assignee : Option User),
      TaskRepository.GetTaskByExternalID s taskExt = .ok task ∧
      (∀ u, assignee = some u →
        ∃ ext, req.AssignedToExternalID = some ext ∧
          UserRepository.GetUserByExternalID s ext = .ok u) ∧
      (assignee = none → req.AssignedToExternalID = none) ∧
      s1 = { s with tasks := s.tasks.map (TaskRepository.setColumns
        { task with AssignedTo := assignee.map (fun u => u.ID) }) } := by
  unfold TaskService.AssignTask at h
  split at h
  · simp at h
  · split at h
    · simp at h
    · rename_i task htask
      have hmem := (GetTaskByExternalID_ok htask).1
      have hup : ∀ a : Option Int, TaskRepository.UpdateTask s { task with AssignedTo := a } =
          (.ok (), { s with tasks := s.tasks.map (TaskRepository.setColumns
            { task with AssignedTo := a }) }) :=
        fun a => UpdateTask_of_mem ⟨task, hmem, rfl⟩
      cases hreq : req.AssignedToExternalID with
      | none =>
        simp only [hreq, hup, TaskService.GetTask, Prod.mk.injEq] at h
        exact ⟨task, none, htask, fun u hu => by simp at hu, fun _ => rfl, h.2.symm⟩
      | some ext =>
        cases hu : UserRepository.GetUserByExternalID s ext with
        | error e => simp [hreq, hu] at h
        | ok u =>
          simp only [hreq, hu, hup, TaskService.GetTask, Prod.mk.injEq] at h
          refine ⟨task, some u, htask, ?_, fun hn => by simp at hn, h.2.symm⟩
          intro u1 hu1
          simp only [Option.some.injEq] at hu1
          subst hu1
          exact ⟨ext, rfl, hu⟩

theorem filter_key_eq_singleton {α : Type} (f : α → Int) :
    ∀ {l : List α} {a : α}, (l.map f).Nodup → a ∈ l → l.filter (fun x => f a == f x) = [a] := by
  intro l
  induction l with
  | nil => intro a _ h; simp at h
  | cons b t ih =>
    intro a hnd ha
    simp only [List.map_cons, List.nodup_cons, List.mem_map, not_exists, not_and] at hnd
    simp only [List.mem_cons] at ha
    rcases ha with rfl | ha
    · have ht : t.filter (fun x => f a == f x) = [] := by
        rw [List.filter_eq_nil_iff]
        intro x hx
        simp only [beq_iff_eq]
        exact fun he => hnd.1 x hx he.symm
      simp [List.filter_cons, ht]
    · have hb : (f a == f b) = false := by
        simp only [beq_eq_false_iff_ne, ne_eq]
        exact hnd.1 a ha
      simp only [List.filter_cons, hb, Bool.false_eq_true, if_false]
      exact ih hnd.2 ha

theorem leftJoinAssignee_of_user {s : Store} (hids : (s.users.map (fun u => u.ID)).Nodup)
    (t : Task) (assignee : Option User) (hmem : ∀ u, assignee = some u → u ∈ s.users) :
    TaskRepository.leftJoinAssignee s { t with AssignedTo := assignee.map (fun u => u.ID) } =
      [assignee] := by
  cases assignee with
  | none => rfl
  | some u =>
    have := filter_key_eq_singleton (fun u : User => u.ID) hids (hmem u rfl)
    simp only [TaskRepository.leftJoinAssignee, Option.map_some', this, List.map_cons,
      List.map_nil]

theorem leftJoinAssignee_singleton {s : Store} (hids : (s.users.map (fun u => u.ID)).Nodup)
    (t : Task) : ∃ x, TaskRepository.leftJoinAssignee s t = [x] := by
  cases ha : t.AssignedTo with
  | none => exact ⟨none, by simp only [TaskRepository.leftJoinAssignee, ha]⟩
  | some uid =>
    cases hf : s.users.filter (fun u => uid == u.ID) with
    | nil => exact ⟨none, by simp only [TaskRepository.leftJoinAssignee, ha, hf]⟩
    | cons a l =>
      have hmem : a ∈ s.users.filter (fun u => uid == u.ID) := by
        rw [hf]; exact List.mem_cons_self _ _
      simp only [List.mem_filter, beq_iff_eq] at hmem
      have h1 := filter_key_eq_singleton (fun u : User => u.ID) hids hmem.1
      simp only [← hmem.2] at h1
      refine ⟨some a, ?_⟩
      simp only [TaskRepository.leftJoinAssignee, ha, h1, List.map_cons, List.map_nil]

theorem joinTask_externalID {s : Store} {t : Task} {p : Int × TaskResponse}
    (h : p ∈ TaskRepository.joinTask s t) : p.2.ExternalID = t.ExternalID := by
  simp only [TaskRepository.joinTask, List.mem_flatMap, List.mem_map] at h
  obtain ⟨b, _, st, _, u, _, rfl⟩ := h
  rfl

/-- The rows the joins produce for the task after `assigned_to` was rewritten
are those produced before, with the reported assignee replaced. -/
theorem joinTask_setAssignee {s : Store} (hids : (s.users.map (fun u => u.ID)).Nodup)
    (t : Task) (assignee : Option User) (hmem : ∀ u, assignee = some u → u ∈ s.users) :
    TaskRepository.joinTask s { t with AssignedTo := assignee.map (fun u => u.ID) } =
      (TaskRepository.joinTask s t).map (fun p =>
        (p.1, setAssignee t.ExternalID
          (assignee.map (fun a => { ExternalID := a.ExternalID, Name := a.Name })) p.2)) := by
  obtain ⟨x, hx⟩ := leftJoinAssignee_singleton hids t
  simp only [TaskRepository.joinTask, leftJoinAssignee_of_user hids t assignee hmem, hx,
    List.map_cons, List.map_nil, List.map_flatMap, TaskRepository.scanRow, setAssignee,
    beq_self_eq_true, if_true]

theorem setColumns_assign_self (task : Task) (a : Option Int) :
    TaskRepository.setColumns { task with AssignedTo := a } task = { task with AssignedTo := a } := by
  simp only [TaskRepository.setColumns, beq_self_eq_true, if_true]

theorem setColumns_other {t r : Task} (h : r.ID ≠ t.ID) : TaskRepository.setColumns t r = r := by
  have hb : (r.ID == t.ID) = false := by simpa using h
  simp only [TaskRepository.setColumns, hb, Bool.false_eq_true, if_false]

theorem setColumns_assign_keeps (task : Task) (a : Option Int) (r : Task)
    (hr : r.ID = task.ID → r = task) :
    (TaskRepository.setColumns { task with AssignedTo := a } r).BoardID = r.BoardID ∧
    (TaskRepository.setColumns { task with AssignedTo := a } r).ActiveStatus = r.ActiveStatus := by
  by_cases h : r.ID = task.ID
  · rw [hr h, setColumns_assign_self]
    exact ⟨rfl, rfl⟩
  · rw [setColumns_other (by simpa using h)]
    exact ⟨rfl, rfl⟩

theorem joinTask_setColumns {s : Store} (hk : TaskKeys s) {task : Task} (htask : task ∈ s.tasks)
    (assignee : Option User) (hmem : ∀ u, assignee = some u → u ∈ s.users)
    {r : Task} (hr : r ∈ s.tasks) :
    TaskRepository.joinTask s
        (TaskRepository.setColumns { task with AssignedTo := assignee.map (fun u => u.ID) } r) =
      (TaskRepository.joinTask s r).map (fun p =>
        (p.1, setAssignee task.ExternalID
          (assignee.map (fun a => { ExternalID := a.ExternalID, Name := a.Name })) p.2)) := by
  by_cases h : r.ID = task.ID
  · have hrt : r = task := List.inj_on_of_nodup_map hk.task_ids hr htask h
    rw [hrt, setColumns_assign_self]
    exact joinTask_setAssignee hk.user_ids task assignee hmem
  · rw [setColumns_other (by simpa using h)]
    symm
    conv_rhs => rw [← List.map_id (TaskRepository.joinTask s r)]
    apply List.map_congr_left
    intro p hp
    have hext : p.2.ExternalID ≠ task.ExternalID := by
      rw [joinTask_externalID hp]
      exact fun he => h (hk.task_external_ids r hr task htask he)
    have hb : (p.2.ExternalID == task.ExternalID) = false := by simpa using hext
    simp only [setAssignee, hb, Bool.false_eq_true, if_false, id]

theorem flatMap_joinTask_setColumns {s : Store} (hk : TaskKeys s) {task : Task}
    (htask : task ∈ s.tasks) (assignee : Option User)
    (hmem : ∀ u, assignee = some u → u ∈ s.users) :
    ∀ l : List Task, (∀ r ∈ l, r ∈ s.tasks) →
      (l.map (TaskRepository.setColumns
          { task with AssignedTo := assignee.map (fun u => u.ID) })).flatMap
        (TaskRepository.joinTask s) =
      (l.flatMap (TaskRepository.joinTask s)).map (fun p =>
        (p.1, setAssignee task.ExternalID
          (assignee.map (fun a => { ExternalID := a.ExternalID, Name := a.Name })) p.2)) := by
  intro l
  induction l with
  | nil => intro _; rfl
  | cons r t ih =>
    intro hl
    simp only [List.map_cons, List.flatMap_cons, List.map_append]
    rw [joinTask_setColumns hk htask assignee hmem (hl r (List.mem_cons_self _ _)),
      ih (fun x hx => hl x (List.mem_cons_of_mem _ hx))]

theorem joinTask_tasks (s : Store) (tasks : List Task) (t : Task) :
    TaskRepository.joinTask { s with tasks := tasks } t = TaskRepository.joinTask s t := rfl

/-- The list `GetTasksByBoardID` returns after the rows of `task` had their
`assigned_to` rewritten is the list returned before with the assignee of the
task's entry replaced. -/
theorem GetTasksByBoardID_setColumns {s : Store} (hk : TaskKeys s) {task : Task}
    (htask : task ∈ s.tasks) (assignee : Option User)
    (hmem : ∀ u, assignee = some u → u ∈ s.users) (boardID : Int) :
    TaskRepository.GetTasksByBoardID
        { s with tasks := s.tasks.map (TaskRepository.setColumns
          { task with AssignedTo := assignee.map (fun u => u.ID) }) } boardID =
      (TaskRepository.GetTasksByBoardID s boardID).map (List.map (setAssignee task.ExternalID
        (assignee.map (fun a => { ExternalID := a.ExternalID, Name := a.Name })))) := by
  have hfilter : (s.tasks.map (TaskRepository.setColumns
        { task with AssignedTo := assignee.map (fun u => u.ID) })).filter
        (fun t => t.BoardID == boardID && t.ActiveStatus == 1) =
      (s.tasks.filter (fun t => t.BoardID == boardID && t.ActiveStatus == 1)).map
        (TaskRepository.setColumns { task with AssignedTo := assignee.map (fun u => u.ID) }) := by
    rw [List.filter_map]
    congr 1
    apply List.filter_congr
    intro r hr
    have hkeep := setColumns_assign_keeps task (assignee.map (fun u => u.ID)) r
      (fun h => List.inj_on_of_nodup_map hk.task_ids hr htask h)
    simp only [Function.comp, hkeep.1, hkeep.2]
  have hjoin : (fun t => TaskRepository.joinTask
      { s with tasks := s.tasks.map (TaskRepository.setColumns
        { task with AssignedTo := assignee.map (fun u => u.ID) }) } t) =
      TaskRepository.joinTask s := rfl
  simp only [TaskRepository.GetTasksByBoardID, hfilter, Except.map]
  rw [show (TaskRepository.joinTask
      { s with tasks := s.tasks.map (TaskRepository.setColumns
        { task with AssignedTo := assignee.map (fun u => u.ID) }) }) =
      TaskRepository.joinTask s from hjoin]
  rw [flatMap_joinTask_setColumns hk htask assignee hmem _
    (fun r hr => List.mem_of_mem_filter hr)]
  rw [← List.map_insertionSort (r := TaskRepository.byStatusThenPosition)
    (s := TaskRepository.byStatusThenPosition)]
  · simp only [List.map_map, Except.ok.injEq]
    apply List.map_congr_left
    intro p _
    rfl
  · intro a _ b _
    have hpos : ∀ p : Int × TaskResponse, (setAssignee task.ExternalID
        (assignee.map (fun a => ({ ExternalID := a.ExternalID, Name := a.Name } :
          TaskAssigneeInfo))) p.2).Position = p.2.Position := by
      intro p
      simp only [setAssignee]
      split <;> rfl
    simp only [TaskRepository.byStatusThenPosition, hpos]

theorem leftJoinAssignee_ne_nil (s : Store) (t : Task) :
    ∃ x, x ∈ TaskRepository.leftJoinAssignee s t := by
  cases ha : t.AssignedTo with
  | none => exact ⟨none, by simp [TaskRepository.leftJoinAssignee, ha]⟩
  | some uid =>
    cases hf : s.users.filter (fun u => uid == u.ID) with
    | nil => exact ⟨none, by simp [TaskRepository.leftJoinAssignee, ha, hf]⟩
    | cons a l => exact ⟨some a, by simp [TaskRepository.leftJoinAssignee, ha, hf]⟩

/-- An active task whose board and status rows exist has an entry in the list
`GetTasksByBoardID` returns for its board. -/
theorem GetTasksByBoardID_shows {s : Store} {t : Task} (ht : t ∈ s.tasks)
    (hact : t.ActiveStatus = 1) (hb : ∃ b ∈ s.boards, b.ID = t.BoardID)
    (hst : ∃ st ∈ s.statuses, st.ID = t.StatusID) {entries : List TaskResponse}
    (h : TaskRepository.GetTasksByBoardID s t.BoardID = .ok entries) :
    ∃ r ∈ entries, r.ExternalID = t.ExternalID := by
  obtain ⟨b, hbm, hbid⟩ := hb
  obtain ⟨st, hstm, hstid⟩ := hst
  obtain ⟨x, hx⟩ := leftJoinAssignee_ne_nil s t
  simp only [TaskRepository.GetTasksByBoardID, Except.ok.injEq] at h
  subst h
  refine ⟨(TaskRepository.scanRow t b st x).2, ?_, rfl⟩
  simp only [List.mem_map, List.mem_insertionSort, List.mem_flatMap, List.mem_filter,
    Bool.and_eq_true, beq_iff_eq]
  refine ⟨TaskRepository.scanRow t b st x, ⟨t, ⟨ht, rfl, hact⟩, ?_⟩, rfl⟩
  simp only [TaskRepository.joinTask, List.mem_flatMap, List.mem_filter, beq_iff_eq,
    List.mem_map]
  exact ⟨b, ⟨hbm, hbid.symm⟩, st, ⟨hstm, hstid.symm⟩, x, hx, rfl⟩

theorem GetBoardTasks_ok {s : Store} {viewer board : String} {entries : List TaskResponse}
    (h : TaskService.GetBoardTasks s viewer board = .ok entries) :
    ∃ b, BoardRepository.GetBoardByExternalID s board = .ok b ∧
      TaskRepository.GetTasksByBoardID s b.ID = .ok entries := by
  unfold TaskService.GetBoardTasks at h
  split at h
  · simp at h
  · split at h
    · simp at h
    · rename_i b hb
      split at h
      · simp at h
      · exact ⟨b, hb, h⟩

theorem GetBoardTasks_setColumns {s : Store} (hk : TaskKeys s) {task : Task}
    (htask : task ∈ s.tasks) (assignee : Option User)
    (hmem : ∀ u, assignee = some u → u ∈ s.users) (viewer board : String) :
    TaskService.GetBoardTasks
        { s with tasks := s.tasks.map (TaskRepository.setColumns
          { task with AssignedTo := assignee.map (fun u => u.ID) }) } viewer board =
      (TaskService.GetBoardTasks s viewer board).map (List.map (setAssignee task.ExternalID
        (assignee.map (fun a => { ExternalID := a.ExternalID, Name := a.Name })))) := by
  have hu : UserRepository.GetUserByExternalID
      { s with tasks := s.tasks.map (TaskRepository.setColumns
        { task with AssignedTo := assignee.map (fun u => u.ID) }) } viewer =
      UserRepository.GetUserByExternalID s viewer := rfl
  have hb : BoardRepository.GetBoardByExternalID
      { s with tasks := s.tasks.map (TaskRepository.setColumns
        { task with AssignedTo := assignee.map (fun u => u.ID) }) } board =
      BoardRepository.GetBoardByExternalID s board := rfl
  have hr : ∀ w u, WorkspaceRepository.GetMemberRole
      { s with tasks := s.tasks.map (TaskRepository.setColumns
        { task with AssignedTo := assignee.map (fun u => u.ID) }) } w u =
      WorkspaceRepository.GetMemberRole s w u := fun _ _ => rfl
  simp only [TaskService.GetBoardTasks, hu, hb, hr]
  cases UserRepository.GetUserByExternalID s viewer with
  | error e => rfl
  | ok user =>
    dsimp only
    cases BoardRepository.GetBoardByExternalID s board with
    | error e => rfl
    | ok b =>
      dsimp only
      cases WorkspaceRepository.GetMemberRole s b.WorkspaceID user.ID with
      | error e => rfl
      | ok role => exact GetTasksByBoardID_setColumns hk htask assignee hmem b.ID

theorem Except_map_eq_ok {ε α β : Type} {f : α → β} {x : Except ε α} {b : β}
    (h : x.map f = .ok b) : ∃ a, x = .ok a ∧ b = f a := by
  cases x with
  | error e => simp [Except.map] at h
  | ok a =>
    simp only [Except.map, Except.ok.injEq] at h
    exact ⟨a, rfl, h.symm⟩

/-- C6: in a store where internal ids identify users and tasks and external ids
identify tasks, an `AssignTask` with an explicit null succeeds whenever the
actor and the task resolve; and after any successful `AssignTask` every
`GetBoardTasks` returns what it returned before with the assignee of the
task's entry replaced by the requested one (the external id and name of the
supplied user, or nobody for a null), all other entries unchanged. On the
task's own board, when the task's status row exists, the task's entry is
there and carries the requested assignee. -/
theorem C6_assignment_visible (s : Store) (actor taskExt : String) (req : AssignTaskRequest)
    (hk : TaskKeys s) :
    (∀ user task, UserRepository.GetUserByExternalID s actor = .ok user →
      TaskRepository.GetTaskByExternalID s taskExt = .ok task →
      req.AssignedToExternalID = none →
      ∃ resp s1, TaskService.AssignTask s actor taskExt req = (.ok resp, s1)) ∧
    (∀ resp s1, TaskService.AssignTask s actor taskExt req = (.ok resp, s1) →
      (∀ ext, req.AssignedToExternalID = some ext →
        ∃ u, UserRepository.GetUserByExternalID s ext = .ok u ∧
          requestedAssignee s req = some { ExternalID := ext, Name := u.Name }) ∧
      (req.AssignedToExternalID = none → requestedAssignee s req = none) ∧
      (∀ viewer board, TaskService.GetBoardTasks s1 viewer board =
        (TaskService.GetBoardTasks s viewer board).map
          (List.map (setAssignee taskExt (requestedAssignee s req)))) ∧
      (∀ viewer board entries, TaskService.GetBoardTasks s1 viewer board = .ok entries →
        (∀ r ∈ entries, r.ExternalID = taskExt → r.AssignedTo = requestedAssignee s req) ∧
        (∀ b task, BoardRepository.GetBoardByExternalID s board = .ok b →
          TaskRepository.GetTaskByExternalID s taskExt = .ok task → b.ID = task.BoardID →
          (∃ st ∈ s.statuses, st.ID = task.StatusID) →
          ∃ r ∈ entries, r.ExternalID = taskExt ∧ r.AssignedTo = requestedAssignee s req))) := by
  constructor
  · intro user task hu ht hnone
    have hup := @UpdateTask_of_mem s { task with AssignedTo := none }
      ⟨task, (GetTaskByExternalID_ok ht).1, rfl⟩
    simp only [TaskService.AssignTask, hu, ht, hnone, hup, TaskService.GetTask]
    exact ⟨_, _, rfl⟩
  · intro resp s1 h
    obtain ⟨task, assignee, htask, hsome, hnone, rfl⟩ := AssignTask_ok h
    obtain ⟨htmem, htext, htact⟩ := GetTaskByExternalID_ok htask
    have hmem : ∀ u, assignee = some u → u ∈ s.users := by
      intro u hu
      obtain ⟨ext, -, hres⟩ := hsome u hu
      exact (GetUserByExternalID_ok hres).1
    have hwant : requestedAssignee s req =
        assignee.map (fun a => { ExternalID := a.ExternalID, Name := a.Name }) := by
      cases assignee with
      | none => simp only [requestedAssignee, hnone rfl, Option.map_none']
      | some u =>
        obtain ⟨ext, hreq, hres⟩ := hsome u rfl
        simp only [requestedAssignee, hreq, hres, Option.map_some']
    have hmap : ∀ viewer board, TaskService.GetBoardTasks
        { s with tasks := s.tasks.map (TaskRepository.setColumns
          { task with AssignedTo := assignee.map (fun u => u.ID) }) } viewer board =
        (TaskService.GetBoardTasks s viewer board).map
          (List.map (setAssignee taskExt (requestedAssignee s req))) := by
      intro viewer board
      rw [hwant, ← htext]
      exact GetBoardTasks_setColumns hk htmem assignee hmem viewer board
    refine ⟨?_, ?_, hmap, ?_⟩
    · intro ext hreq
      cases assignee with
      | none => rw [hnone rfl] at hreq; simp at hreq
      | some u =>
        obtain ⟨ext1, hreq1, hres⟩ := hsome u rfl
        rw [hreq] at hreq1
        simp only [Option.some.injEq] at hreq1
        subst hreq1
        refine ⟨u, hres, ?_⟩
        rw [hwant, Option.map_some', (GetUserByExternalID_ok hres).2.1]
    · intro hreq
      simp only [requestedAssignee, hreq]
    · intro viewer board entries hent
      rw [hmap] at hent
      obtain ⟨before, hbefore, rfl⟩ := Except_map_eq_ok hent
      have hall : ∀ r ∈ before.map (setAssignee taskExt (requestedAssignee s req)),
          r.ExternalID = taskExt → r.AssignedTo = requestedAssignee s req := by
        intro r hr hext
        simp only [List.mem_map] at hr
        obtain ⟨r0, -, rfl⟩ := hr
        simp only [setAssignee] at hext ⊢
        split
        · rfl
        · rename_i hne
          simp only [hne, Bool.false_eq_true, if_false] at hext
          simp [hext] at hne
      refine ⟨hall, ?_⟩
      intro b task1 hb htask1 hbid hst
      rw [htask] at htask1
      simp only [Except.ok.injEq] at htask1
      subst htask1
      obtain ⟨b1, hb1, hlist⟩ := GetBoardTasks_ok hbefore
      rw [hb] at hb1
      simp only [Except.ok.injEq] at hb1
      subst hb1
      obtain ⟨row, hrow, hrid, -⟩ := GetBoardByExternalID_ok hb
      rw [hbid] at hlist
      obtain ⟨r0, hr0, hr0ext⟩ := GetTasksByBoardID_shows htmem htact
        ⟨row, hrow, by rw [hrid, hbid]⟩ hst hlist
      have hin : setAssignee taskExt (requestedAssignee s req) r0 ∈
          before.map (setAssignee taskExt (requestedAssignee s req)) :=
        List.mem_map_of_mem _ hr0
      have hkeep : (setAssignee taskExt (requestedAssignee s req) r0).ExternalID = taskExt := by
        simp only [setAssignee]
        split <;> simp [hr0ext, htext]
      exact ⟨_, hin, hkeep, hall _ hin hkeep⟩

theorem TaskKeys_sampleStore : TaskKeys sampleStore := by
  constructor
  · decide
  · decide
  · intro t1 h1 t2 h2 _
    simp only [sampleStore, List.mem_singleton] at h1 h2
    rw [h1, h2]

/-- C6, at a concrete store: in `sampleStore`, after `alice` assigns `t-1` to the
member `bob`, the board `b-1` shows `t-1` with assignee `bob` / `Bob`; and an
`AssignTask` with a null assignee succeeds. -/
theorem C6_assignment_visible_witness :
    TaskService.GetBoardTasks
        (TaskService.AssignTask sampleStore "alice" "t-1"
          { AssignedToExternalID := some "bob" }).2 "bob" "b-1" =
      (TaskService.GetBoardTasks sampleStore "bob" "b-1").map
        (List.map (setAssignee "t-1" (some { ExternalID := "bob", Name := "Bob" }))) ∧
    (∃ r ∈ [({ ExternalID := "t-1", BoardExternalID := "b-1",
               Status := { ExternalID := "s-1", Name := "Todo", Color := none },
               AssignedTo := some { ExternalID := "bob", Name := "Bob" }, Title := "Write",
               Description := none, Priority := "low", DueDate := none,
               Position := 0 } : TaskResponse)],
      r.ExternalID = "t-1" ∧ r.AssignedTo = some { ExternalID := "bob", Name := "Bob" }) ∧
    (∃ resp s1, TaskService.AssignTask sampleStore "alice" "t-1"
      { AssignedToExternalID := none } = (.ok resp, s1)) :=
  have hb := (C6_assignment_visible sampleStore "alice" "t-1"
    { AssignedToExternalID := some "bob" } TaskKeys_sampleStore).2 _ _ rfl
  have hn := (C6_assignment_visible sampleStore "alice" "t-1"
    { AssignedToExternalID := none } TaskKeys_sampleStore).1
    { ID := 1, ExternalID := "alice", Name := "Alice", Email := "alice@example.org",
      Password := "hash-a", AvatarURL := none, ActiveStatus := 1 }
    { ID := 1, ExternalID := "t-1", BoardID := 1, StatusID := 1, AssignedTo := none,
      CreatedByID := 1, Title := "Write", Description := none, Priority := "low",
      DueDate := none, Position := 0, ActiveStatus := 1 } rfl rfl rfl
  ⟨hb.2.2.1 "bob" "b-1",
   (hb.2.2.2 "bob" "b-1" _ rfl).2
     { ID := 1, ExternalID := "b-1", WorkspaceID := 1, WorkspaceExternalID := "w-1",
       CreatedByID := some 1, Name := "Board", Description := none, ActiveStatus := 1 }
     { ID := 1, ExternalID := "t-1", BoardID := 1, StatusID := 1, AssignedTo := none,
       CreatedByID := 1, Title := "Write", Description := none, Priority := "low",
       DueDate := none, Position := 0, ActiveStatus := 1 } rfl rfl rfl
     ⟨{ ID := 1, ExternalID := "s-1", Name := "Todo", Color := none, Position := 0,
        ActiveStatus := 1 }, by decide, rfl⟩,
   hn⟩

/-! ## Tasks: who may create, list, change and delete -/

/-- C11: with the actor and the board resolved, `CreateTask` and
`GetBoardTasks` are refused with the unauthorized error when the actor has no
membership row in the board's workspace (`board.WorkspaceID`): `CreateTask`
leaves the store, hence the task table, as it was and `GetBoardTasks` returns
the error and no list. -/
theorem C11_task_needs_membership (s : Store) (actor board : String) (user : User) (b : Board)
    (hu : UserRepository.GetUserByExternalID s actor = .ok user)
    (hb : BoardRepository.GetBoardByExternalID s board = .ok b)
    (hnil : memberRows s b.WorkspaceID user.ID = []) :
    (∀ req uuid, TaskService.CreateTask s actor board req uuid =
      (.error (.New "unauthorized: not a member of the workspace"), s)) ∧
    TaskService.GetBoardTasks s actor board =
      .error (.New "unauthorized: not a member of the workspace") := by
  have hrole := GetMemberRole_of_nil hnil
  refine ⟨fun req uuid => ?_, ?_⟩
  · simp only [TaskService.CreateTask, hu, hb, hrole]
  · simp only [TaskService.GetBoardTasks, hu, hb, hrole]

/-- C11, at a concrete store: in `sampleStore`, `carol` has no row in workspace 1,
which owns board `b-1`; her `CreateTask` and `GetBoardTasks` on `b-1` are
refused and no task is inserted. -/
theorem C11_task_needs_membership_witness :
    TaskService.CreateTask sampleStore "carol" "b-1" assignCarol "t-2" =
      (.error (.New "unauthorized: not a member of the workspace"), sampleStore) ∧
    TaskService.GetBoardTasks sampleStore "carol" "b-1" =
      .error (.New "unauthorized: not a member of the workspace") :=
  have h := C11_task_needs_membership sampleStore "carol" "b-1"
    { ID := 3, ExternalID := "carol", Name := "Carol", Email := "carol@example.org",
      Password := "hash-c", AvatarURL := none, ActiveStatus := 1 }
    { ID := 1, ExternalID := "b-1", WorkspaceID := 1, WorkspaceExternalID := "w-1",
      CreatedByID := some 1, Name := "Board", Description := none, ActiveStatus := 1 }
    rfl rfl (by decide)
  ⟨h.1 assignCarol "t-2", h.2⟩

/-- C12: `DeleteTask`, `MoveTaskStatus` and `UpdateTask` check nothing beyond
resolution. Whenever the actor and the task resolve, `DeleteTask` succeeds and
no row with the task's id remains; `MoveTaskStatus` succeeds when its status
resolves; `UpdateTask` succeeds when its status and, if one is supplied, its
assignee resolve. The membership table is not consulted, so this holds with
or without a membership row of the actor in the task's workspace. -/
theorem C12_task_change_unchecked (s : Store) (actor taskExt : String) (user : User)
    (task : Task)
    (hu : UserRepository.GetUserByExternalID s actor = .ok user)
    (ht : TaskRepository.GetTaskByExternalID s taskExt = .ok task) :
    (TaskService.DeleteTask s actor taskExt =
        (.ok (), { s with tasks := s.tasks.filter (fun t => !(t.ID == task.ID)) }) ∧
      ∀ r ∈ (TaskService.DeleteTask s actor taskExt).2.tasks, r.ID ≠ task.ID) ∧
    (∀ (req : MoveTaskStatusRequest) (status : Status),
      StatusRepository.GetStatusByExternalID s req.StatusExternalID = .ok status →
      TaskService.MoveTaskStatus s actor taskExt req =
        (TaskService.GetTask s actor taskExt,
         { s with tasks := s.tasks.map (TaskRepository.setColumns
            { task with StatusID := status.ID }) })) ∧
    (∀ (req : TaskRequest) (status : Status),
      StatusRepository.GetStatusByExternalID s req.StatusExternalID = .ok status →
      (req.AssignedToExternalID = none ∨
        ∃ ext assignee, req.AssignedToExternalID = some ext ∧
          UserRepository.GetUserByExternalID s ext = .ok assignee) →
      (TaskService.UpdateTask s actor taskExt req).1 = TaskService.GetTask s actor taskExt) := by
  have hmem := (GetTaskByExternalID_ok ht).1
  have hup : ∀ t1 : Task, t1.ID = task.ID → TaskRepository.UpdateTask s t1 =
      (.ok (), { s with tasks := s.tasks.map (TaskRepository.setColumns t1) }) :=
    fun t1 h1 => UpdateTask_of_mem ⟨task, hmem, h1.symm⟩
  refine ⟨⟨?_, ?_⟩, ?_, ?_⟩
  · simp only [TaskService.DeleteTask, hu, ht, TaskRepository.DeleteTask]
  · simp only [TaskService.DeleteTask, hu, ht, TaskRepository.DeleteTask]
    intro r hr
    simp only [List.mem_filter, Bool.not_eq_true', beq_eq_false_iff_ne, ne_eq] at hr
    exact hr.2
  · intro req status hst
    simp only [TaskService.MoveTaskStatus, hu, ht, hst, hup, TaskService.GetTask]
  · intro req status hst hassignee
    rcases hassignee with hnone | ⟨ext, assignee, hsome, hres⟩
    · simp only [TaskService.UpdateTask, hu, ht, hst, hnone, hup, TaskService.GetTask]
    · simp only [TaskService.UpdateTask, hu, ht, hst, hsome, hres, hup,
        TaskService.GetTask]

/-- C12, at a concrete store: in `sampleStore`, `carol` has no membership row in
workspace 1, which governs task `t-1`; she moves it to `s-2` and she deletes
it. -/
theorem C12_task_change_unchecked_witness :
    WorkspaceRepository.GetMemberRole sampleStore 1 3 = .error .ErrNoRows ∧
    ((TaskService.DeleteTask sampleStore "carol" "t-1").1 = .ok () ∧
      (TaskService.DeleteTask sampleStore "carol" "t-1").2.tasks = []) ∧
    (TaskService.MoveTaskStatus sampleStore "carol" "t-1" { StatusExternalID := "s-2" }).2.tasks.map
      (fun t => t.StatusID) = [2] :=
  have h := C12_task_change_unchecked sampleStore "carol" "t-1"
    { ID := 3, ExternalID := "carol", Name := "Carol", Email := "carol@example.org",
      Password := "hash-c", AvatarURL := none, ActiveStatus := 1 }
    { ID := 1, ExternalID := "t-1", BoardID := 1, StatusID := 1, AssignedTo := none,
      CreatedByID := 1, Title := "Write", Description := none, Priority := "low",
      DueDate := none, Position := 0, ActiveStatus := 1 } rfl rfl
  have hm := h.2.1 { StatusExternalID := "s-2" }
    { ID := 2, ExternalID := "s-2", Name := "Done", Color := some "green", Position := 1,
      ActiveStatus := 1 } rfl
  ⟨rfl, ⟨congrArg Prod.fst h.1.1,
         congrArg (fun p : Except Err Unit × Store => p.2.tasks) h.1.1⟩,
   (congrArg (fun p : Except Err TaskResponse × Store =>
      p.2.tasks.map (fun t => t.StatusID)) hm).trans rfl⟩

/-! ## Memberships: who may invite and remove, and the owner's row -/

/-- C13: with the actor and the workspace resolved, `InviteMember` and
`RemoveMember` go on to the target only when the actor's membership role is
`owner` or `admin`. An actor without a membership row, or with any other role
such as `member`, gets the unauthorized error and the store, hence the
membership table, is unchanged. -/
theorem C13_owner_or_admin (s : Store) (actor workspace : String) (user : User) (w : Workspace)
    (hu : UserRepository.GetUserByExternalID s actor = .ok user)
    (hw : WorkspaceRepository.GetWorkspaceByExternalID s workspace = .ok w) :
    (memberRows s w.ID user.ID = [] →
      (∀ req, WorkspaceService.InviteMember s actor workspace req =
        (.error (.New "unauthorized: not a member"), s)) ∧
      (∀ target, WorkspaceService.RemoveMember s actor workspace target =
        (.error (.New "unauthorized: only owner or admin can remove members"), s))) ∧
    (∀ role, WorkspaceRepository.GetMemberRole s w.ID user.ID = .ok role →
      role ≠ "owner" → role ≠ "admin" →
      (∀ req, WorkspaceService.InviteMember s actor workspace req =
        (.error (.New "unauthorized: only owner or admin can invite members"), s)) ∧
      (∀ target, WorkspaceService.RemoveMember s actor workspace target =
        (.error (.New "unauthorized: only owner or admin can remove members"), s))) ∧
    (∀ role, WorkspaceRepository.GetMemberRole s w.ID user.ID = .ok role →
      role = "owner" ∨ role = "admin" →
      (∀ req, WorkspaceService.InviteMember s actor workspace req =
        match UserRepository.GetUserByExternalID s req.UserExternalID with
        | .error _ => (.error (.New "target user not found"), s)
        | .ok targetUser =>
          match WorkspaceRepository.AddMember s
            { ID := 0, WorkspaceID := w.ID, UserID := targetUser.ID, Role := req.Role } with
          | (.error _, s1) =>
            (.error (.New "could not add member (perhaps already a member?)"), s1)
          | (.ok _, s1) => (.ok (), s1)) ∧
      (∀ target, WorkspaceService.RemoveMember s actor workspace target =
        match UserRepository.GetUserByExternalID s target with
        | .error _ => (.error (.New "target user not found"), s)
        | .ok targetUser =>
          if targetUser.ID == w.OwnerID then (.error (.New "cannot remove workspace owner"), s)
          else WorkspaceRepository.RemoveMember s w.ID targetUser.ID)) := by
  refine ⟨?_, ?_, ?_⟩
  · intro hnil
    have hrole := GetMemberRole_of_nil hnil
    refine ⟨fun req => ?_, fun target => ?_⟩
    · simp only [WorkspaceService.InviteMember, hu, hw, hrole]
    · simp only [WorkspaceService.RemoveMember, hu, hw, hrole, Bool.not_false, if_true]
  · intro role hrole h1 h2
    have hif : (role != "owner" && role != "admin") = true := by
      simp only [Bool.and_eq_true, bne_iff_ne, ne_eq]
      exact ⟨h1, h2⟩
    refine ⟨fun req => ?_, fun target => ?_⟩
    · simp only [WorkspaceService.InviteMember, hu, hw, hrole, hif, if_true]
    · simp only [WorkspaceService.RemoveMember, hu, hw, hrole, hif, Bool.not_true,
        Bool.not_false, if_true]
  · intro role hrole hor
    have hif : (role != "owner" && role != "admin") = false := by
      rcases hor with rfl | rfl <;> decide
    refine ⟨fun req => ?_, fun target => ?_⟩
    · simp only [WorkspaceService.InviteMember, hu, hw, hrole, hif, Bool.false_eq_true, if_false]
    · simp only [WorkspaceService.RemoveMember, hu, hw, hrole, hif, Bool.not_false,
        Bool.not_true, Bool.false_eq_true, if_false]

/-- C13, at a concrete store: in `sampleStore`, `bob` has role `member` in `w-1`
and `carol` has no row there; neither may invite or remove, and nothing
changes. The owner `alice` may invite `carol`. -/
theorem C13_owner_or_admin_witness :
    WorkspaceService.InviteMember sampleStore "bob" "w-1"
        { UserExternalID := "carol", Role := "member" } =
      (.error (.New "unauthorized: only owner or admin can invite members"), sampleStore) ∧
    WorkspaceService.RemoveMember sampleStore "bob" "w-1" "bob" =
      (.error (.New "unauthorized: only owner or admin can remove members"), sampleStore) ∧
    WorkspaceService.InviteMember sampleStore "carol" "w-1"
        { UserExternalID := "carol", Role := "member" } =
      (.error (.New "unauthorized: not a member"), sampleStore) ∧
    (WorkspaceService.InviteMember sampleStore "alice" "w-1"
        { UserExternalID := "carol", Role := "member" }).1 = .ok () :=
  have hb := C13_owner_or_admin sampleStore "bob" "w-1"
    { ID := 2, ExternalID := "bob", Name := "Bob", Email := "bob@example.org",
      Password := "hash-b", AvatarURL := none, ActiveStatus := 1 }
    { ID := 1, ExternalID := "w-1", Name := "Team", Description := none, OwnerID := 1,
      OwnerExternalID := "alice", ActiveStatus := 1 } rfl rfl
  have hc := C13_owner_or_admin sampleStore "carol" "w-1"
    { ID := 3, ExternalID := "carol", Name := "Carol", Email := "carol@example.org",
      Password := "hash-c", AvatarURL := none, ActiveStatus := 1 }
    { ID := 1, ExternalID := "w-1", Name := "Team", Description := none, OwnerID := 1,
      OwnerExternalID := "alice", ActiveStatus := 1 } rfl rfl
  have ha := C13_owner_or_admin sampleStore "alice" "w-1"
    { ID := 1, ExternalID := "alice", Name := "Alice", Email := "alice@example.org",
      Password := "hash-a", AvatarURL := none, ActiveStatus := 1 }
    { ID := 1, ExternalID := "w-1", Name := "Team", Description := none, OwnerID := 1,
      OwnerExternalID := "alice", ActiveStatus := 1 } rfl rfl
  ⟨(hb.2.1 "member" rfl (by decide) (by decide)).1 _,
   (hb.2.1 "member" rfl (by decide) (by decide)).2 _,
   (hc.1 (by decide)).1 _,
   (congrArg Prod.fst ((ha.2.2 "owner" rfl (Or.inl rfl)).1
      { UserExternalID := "carol", Role := "member" })).trans rfl⟩

/-- C14: with the actor, the workspace and the target resolved and the target
being the workspace's recorded owner, `UpdateMemberRole` and `RemoveMember`
always fail and leave the store as it was, so the owner's membership row and
the rest of the table are untouched. For an authorized actor (the owner for
`UpdateMemberRole`; an owner or admin for `RemoveMember`) the error is
`cannot change owner role`, respectively `cannot remove workspace owner`. -/
theorem C14_owner_row_immutable (s : Store) (actor workspace target : String) (user t : User)
    (w : Workspace)
    (hu : UserRepository.GetUserByExternalID s actor = .ok user)
    (hw : WorkspaceRepository.GetWorkspaceByExternalID s workspace = .ok w)
    (ht : UserRepository.GetUserByExternalID s target = .ok t)
    (hown : t.ID = w.OwnerID) :
    (user.ID = w.OwnerID → ∀ req, WorkspaceService.UpdateMemberRole s actor workspace target req =
      (.error (.New "cannot change owner role"), s)) ∧
    (∀ role, WorkspaceRepository.GetMemberRole s w.ID user.ID = .ok role →
      role = "owner" ∨ role = "admin" →
      WorkspaceService.RemoveMember s actor workspace target =
        (.error (.New "cannot remove workspace owner"), s)) ∧
    (∀ req, ∃ e, WorkspaceService.UpdateMemberRole s actor workspace target req = (.error e, s)) ∧
    (∃ e, WorkspaceService.RemoveMember s actor workspace target = (.error e, s)) := by
  have htb : (t.ID == w.OwnerID) = true := by simpa using hown
  refine ⟨?_, ?_, ?_, ?_⟩
  · intro heq req
    have hb : (w.OwnerID != user.ID) = false := by simp [heq]
    simp only [WorkspaceService.UpdateMemberRole, hu, hw, hb, Bool.false_eq_true, if_false, ht,
      htb, if_true]
  · intro role hrole hor
    have hif : (role != "owner" && role != "admin") = false := by
      rcases hor with rfl | rfl <;> decide
    simp only [WorkspaceService.RemoveMember, hu, hw, hrole, hif, Bool.not_false, Bool.not_true,
      Bool.false_eq_true, if_false, ht, htb, if_true]
  · intro req
    simp only [WorkspaceService.UpdateMemberRole, hu, hw, ht, htb, if_true]
    split
    · exact ⟨_, rfl⟩
    · exact ⟨_, rfl⟩
  · simp only [WorkspaceService.RemoveMember, hu, hw, ht, htb, if_true]
    split
    · exact ⟨_, rfl⟩
    · exact ⟨_, rfl⟩

/-- C14, at a concrete store: in `sampleStore`, the owner `alice` can neither
remove herself from `w-1` nor change her own role, and the store stays as it
was. -/
theorem C14_owner_row_immutable_witness :
    WorkspaceService.UpdateMemberRole sampleStore "alice" "w-1" "alice" { Role := "member" } =
      (.error (.New "cannot change owner role"), sampleStore) ∧
    WorkspaceService.RemoveMember sampleStore "alice" "w-1" "alice" =
      (.error (.New "cannot remove workspace owner"), sampleStore) :=
  have h := C14_owner_row_immutable sampleStore "alice" "w-1" "alice"
    { ID := 1, ExternalID := "alice", Name := "Alice", Email := "alice@example.org",
      Password := "hash-a", AvatarURL := none, ActiveStatus := 1 }
    { ID := 1, ExternalID := "alice", Name := "Alice", Email := "alice@example.org",
      Password := "hash-a", AvatarURL := none, ActiveStatus := 1 }
    { ID := 1, ExternalID := "w-1", Name := "Team", Description := none, OwnerID := 1,
      OwnerExternalID := "alice", ActiveStatus := 1 } rfl rfl rfl rfl
  ⟨h.1 rfl _, h.2.1 "owner" rfl (Or.inl rfl)⟩

/-! ## Roles are validated by the request binding -/

/-- C15: for every role string other than `owner`, `admin` and `member`, the
`InviteMember` request is refused with HTTP 400 (`Invalid request body`) by the
binding of `InviteMemberRequest`, before the service and `AddMember` run; the
store is unchanged, so no membership row is inserted. -/
theorem C15_role_enumerated (s : Store) (userExtID workspaceExtID : String)
    (req : InviteMemberRequest)
    (hrole : req.Role ≠ "owner" ∧ req.Role ≠ "admin" ∧ req.Role ≠ "member") :
    WorkspaceHandler.InviteMember s userExtID workspaceExtID req =
      ({ Code := 400, Message := "Invalid request body" }, s) ∧
    (WorkspaceHandler.InviteMember s userExtID workspaceExtID req).2.workspace_members =
      s.workspace_members := by
  have hbad : req.bindingOK = false := by
    have h1 : (req.Role == "owner") = false := by simpa using hrole.1
    have h2 : (req.Role == "admin") = false := by simpa using hrole.2.1
    have h3 : (req.Role == "member") = false := by simpa using hrole.2.2
    simp only [InviteMemberRequest.bindingOK, h1, h2, h3, Bool.or_self, Bool.and_false]
  simp only [WorkspaceHandler.InviteMember, hbad, Bool.not_false, if_true, and_self]

/-- C15, at a concrete store: in `sampleStore` the owner `alice` invites `carol`
with role `guest`; the request is answered with 400 and no row is added. -/
theorem C15_role_enumerated_witness :
    WorkspaceHandler.InviteMember sampleStore "alice" "w-1"
        { UserExternalID := "carol", Role := "guest" } =
      ({ Code := 400, Message := "Invalid request body" }, sampleStore) :=
  (C15_role_enumerated sampleStore "alice" "w-1" { UserExternalID := "carol", Role := "guest" }
    (by decide)).1

/-! ## Not found and unauthorized at the workspace endpoints -/

/-- C17, as stated, fails: in `sampleStore`, for `carol`, `GET` on the workspace
id `nope` (which does not resolve) and on `w-1` (which resolves, but she is
not a member) are both answered with 404; for `bob`, `DELETE` on `nope` and on
`w-1` (he is not the owner) are both answered with 400. -/
theorem C17_same_status_code :
    (WorkspaceHandler.GetWorkspace sampleStore "carol" "nope").Code = 404 ∧
    (WorkspaceHandler.GetWorkspace sampleStore "carol" "w-1").Code = 404 ∧
    (WorkspaceHandler.DeleteWorkspace sampleStore "bob" "nope").1.Code = 400 ∧
    (WorkspaceHandler.DeleteWorkspace sampleStore "bob" "w-1").1.Code = 400 :=
  ⟨rfl, rfl, rfl, rfl⟩

/-- C17, amended: at the workspace endpoints not-found and unauthorized differ in
the error text only. For a resolved actor, `GET` answers 404 and `DELETE`
answers 400 in both cases; the text is `workspace not found` when the external
id does not resolve, and `unauthorized: not a member of this workspace`
(`GET`, no membership row) or `unauthorized: only owner can delete workspace`
(`DELETE`, actor is not the recorded owner) when it resolves. In every case
the store is unchanged. -/
theorem C17_distinguished_by_text (s : Store) (actor workspace : String) (user : User)
    (hu : UserRepository.GetUserByExternalID s actor = .ok user) :
    (∀ e, WorkspaceRepository.GetWorkspaceByExternalID s workspace = .error e →
      WorkspaceHandler.GetWorkspace s actor workspace =
        { Code := 404, Error := some "workspace not found", Data := none } ∧
      WorkspaceHandler.DeleteWorkspace s actor workspace =
        ({ Code := 400, Message := "workspace not found" }, s)) ∧
    (∀ w, WorkspaceRepository.GetWorkspaceByExternalID s workspace = .ok w →
      (memberRows s w.ID user.ID = [] →
        WorkspaceHandler.GetWorkspace s actor workspace =
          { Code := 404, Error := some "unauthorized: not a member of this workspace",
            Data := none }) ∧
      (user.ID ≠ w.OwnerID →
        WorkspaceHandler.DeleteWorkspace s actor workspace =
          ({ Code := 400, Message := "unauthorized: only owner can delete workspace" }, s))) := by
  constructor
  · intro e he
    constructor
    · simp only [WorkspaceHandler.GetWorkspace, WorkspaceService.GetWorkspace, hu, he, Err.Error]
    · simp only [WorkspaceHandler.DeleteWorkspace, WorkspaceService.DeleteWorkspace, hu, he,
        Err.Error]
  · intro w hw
    constructor
    · intro hnil
      simp only [WorkspaceHandler.GetWorkspace, WorkspaceService.GetWorkspace, hu, hw,
        GetMemberRole_of_nil hnil, Err.Error]
    · intro hne
      have hb : (w.OwnerID != user.ID) = true := by simpa using fun h => hne h.symm
      simp only [WorkspaceHandler.DeleteWorkspace, WorkspaceService.DeleteWorkspace, hu, hw, hb,
        if_true, Err.Error]

/-- C17 (amended), at a concrete store: the four answers of the counterexample,
with their texts. -/
theorem C17_distinguished_by_text_witness :
    WorkspaceHandler.GetWorkspace sampleStore "carol" "nope" =
      { Code := 404, Error := some "workspace not found", Data := none } ∧
    WorkspaceHandler.GetWorkspace sampleStore "carol" "w-1" =
      { Code := 404, Error := some "unauthorized: not a member of this workspace",
        Data := none } ∧
    WorkspaceHandler.DeleteWorkspace sampleStore "bob" "nope" =
      ({ Code := 400, Message := "workspace not found" }, sampleStore) ∧
    WorkspaceHandler.DeleteWorkspace sampleStore "bob" "w-1" =
      ({ Code := 400, Message := "unauthorized: only owner can delete workspace" },
       sampleStore) :=
  have hc := C17_distinguished_by_text sampleStore "carol"
  have hb := C17_distinguished_by_text sampleStore "bob"
  have w1 : WorkspaceRepository.GetWorkspaceByExternalID sampleStore "w-1" =
      .ok { ID := 1, ExternalID := "w-1", Name := "Team", Description := none, OwnerID := 1,
            OwnerExternalID := "alice", ActiveStatus := 1 } := rfl
  ⟨((hc "nope" _ rfl).1 .ErrNoRows rfl).1,
   ((hc "w-1" _ rfl).2 _ w1).1 (by decide),
   ((hb "nope" _ rfl).1 .ErrNoRows rfl).2,
   ((hb "w-1" _ rfl).2 _ w1).2 (by decide)⟩

/-! ## Order of resolution and authorization -/

/-- C18, as stated, fails: in `sampleStore`, `carol` is not a member of `w-1`.
Her `InviteMember` naming the non-existent user `ghost`, and her `CreateTask`
on board `b-1` naming the non-existent status `nope`, are both answered with
the unauthorized error, not with not-found. -/
theorem C18_unauthorized_before_lookup :
    UserRepository.GetUserByExternalID sampleStore "ghost" = .error .ErrNoRows ∧
    StatusRepository.GetStatusByExternalID sampleStore "nope" = .error .ErrNoRows ∧
    WorkspaceService.InviteMember sampleStore "carol" "w-1"
        { UserExternalID := "ghost", Role := "member" } =
      (.error (.New "unauthorized: not a member"), sampleStore) ∧
    TaskService.CreateTask sampleStore "carol" "b-1" unknownStatus "t-2" =
      (.error (.New "unauthorized: not a member of the workspace"), sampleStore) :=
  ⟨rfl, rfl, rfl, rfl⟩

/-- C18, amended: the actor and the resource named in the path are resolved
before authorization, so a miss there is reported as not found whatever the
actor's role. The ids carried in the request body are resolved only after
authorization has passed: for an actor who is authorized, `InviteMember` with
a target that does not resolve returns `target user not found`, and
`CreateTask` with a status or an assignee that does not resolve returns
`invalid status_external_id`, respectively `invalid assigned_to_external_id`.
An actor who is not authorized gets the unauthorized error for every request
body, whether or not the ids in it resolve: `InviteMember` answers
`unauthorized: not a member` to an actor without a membership row and
`unauthorized: only owner or admin can invite members` to a member with
another role, and `CreateTask` answers
`unauthorized: not a member of the workspace` to an actor without a membership
row in the board's workspace. In every case the store is unchanged. -/
theorem C18_lookup_after_authorization (s : Store) (actor : String) :
    ((∀ e, UserRepository.GetUserByExternalID s actor = .error e →
      (∀ workspace req, WorkspaceService.InviteMember s actor workspace req =
        (.error (.New "user not found"), s)) ∧
      (∀ board req uuid, TaskService.CreateTask s actor board req uuid =
        (.error (.New "user not found"), s)))) ∧
    (∀ user, UserRepository.GetUserByExternalID s actor = .ok user →
      (∀ workspace req e, WorkspaceRepository.GetWorkspaceByExternalID s workspace = .error e →
        WorkspaceService.InviteMember s actor workspace req =
          (.error (.New "workspace not found"), s)) ∧
      (∀ board req uuid e, BoardRepository.GetBoardByExternalID s board = .error e →
        TaskService.CreateTask s actor board req uuid = (.error (.New "board not found"), s)) ∧
      (∀ workspace req w role e,
        WorkspaceRepository.GetWorkspaceByExternalID s workspace = .ok w →
        WorkspaceRepository.GetMemberRole s w.ID user.ID = .ok role →
        role = "owner" ∨ role = "admin" →
        UserRepository.GetUserByExternalID s req.UserExternalID = .error e →
        WorkspaceService.InviteMember s actor workspace req =
          (.error (.New "target user not found"), s)) ∧
      (∀ board req uuid b role,
        BoardRepository.GetBoardByExternalID s board = .ok b →
        WorkspaceRepository.GetMemberRole s b.WorkspaceID user.ID = .ok role →
        (∀ e, StatusRepository.GetStatusByExternalID s req.StatusExternalID = .error e →
          TaskService.CreateTask s actor board req uuid =
            (.error (.New "invalid status_external_id"), s)) ∧
        (∀ status ext e,
          StatusRepository.GetStatusByExternalID s req.StatusExternalID = .ok status →
          req.AssignedToExternalID = some ext →
          UserRepository.GetUserByExternalID s ext = .error e →
          TaskService.CreateTask s actor board req uuid =
            (.error (.New "invalid assigned_to_external_id"), s))) ∧
      (∀ workspace req w e,
        WorkspaceRepository.GetWorkspaceByExternalID s workspace = .ok w →
        WorkspaceRepository.GetMemberRole s w.ID user.ID = .error e →
        WorkspaceService.InviteMember s actor workspace req =
          (.error (.New "unauthorized: not a member"), s)) ∧
      (∀ workspace req w role,
        WorkspaceRepository.GetWorkspaceByExternalID s workspace = .ok w →
        WorkspaceRepository.GetMemberRole s w.ID user.ID = .ok role →
        role ≠ "owner" → role ≠ "admin" →
        WorkspaceService.InviteMember s actor workspace req =
          (.error (.New "unauthorized: only owner or admin can invite members"), s)) ∧
      (∀ board req uuid b e,
        BoardRepository.GetBoardByExternalID s board = .ok b →
        WorkspaceRepository.GetMemberRole s b.WorkspaceID user.ID = .error e →
        TaskService.CreateTask s actor board req uuid =
          (.error (.New "unauthorized: not a member of the workspace"), s))) := by
  constructor
  · intro e he
    constructor
    · intro workspace req
      simp only [WorkspaceService.InviteMember, he]
    · intro board req uuid
      simp only [TaskService.CreateTask, he]
  · intro user hu
    refine ⟨?_, ?_, ?_, ?_, ?_, ?_, ?_⟩
    rotate_left 4
    · intro workspace req w e hw hrole
      simp only [WorkspaceService.InviteMember, hu, hw, hrole]
    · intro workspace req w role hw hrole h1 h2
      have hif : (role != "owner" && role != "admin") = true := by
        simp [h1, h2]
      simp only [WorkspaceService.InviteMember, hu, hw, hrole, hif, if_true]
    · intro board req uuid b e hb hrole
      simp only [TaskService.CreateTask, hu, hb, hrole]
    · intro workspace req e he
      simp only [WorkspaceService.InviteMember, hu, he]
    · intro board req uuid e he
      simp only [TaskService.CreateTask, hu, he]
    · intro workspace req w role e hw hrole hor he
      have hif : (role != "owner" && role != "admin") = false := by
        rcases hor with rfl | rfl <;> decide
      simp only [WorkspaceService.InviteMember, hu, hw, hrole, hif, Bool.false_eq_true, if_false,
        he]
    · intro board req uuid b role hb hrole
      constructor
      · intro e he
        simp only [TaskService.CreateTask, hu, hb, hrole, he]
      · intro status ext e hst hsome he
        simp only [TaskService.CreateTask, hu, hb, hrole, hst, hsome, he]

/-- C18 (amended), at a concrete store: in `sampleStore` the owner `alice`
inviting the non-existent `ghost` gets `target user not found`, and her
`CreateTask` with the non-existent status `nope` gets
`invalid status_external_id`; `carol`, who has no row in `w-1`, gets the
unauthorized error for the same two requests and for an invitation of the
existing user `bob`; `bob`, a plain member, gets the role error for `ghost`. -/
theorem C18_lookup_after_authorization_witness :
    WorkspaceService.InviteMember sampleStore "alice" "w-1"
        { UserExternalID := "ghost", Role := "member" } =
      (.error (.New "target user not found"), sampleStore) ∧
    TaskService.CreateTask sampleStore "alice" "b-1" unknownStatus "t-2" =
      (.error (.New "invalid status_external_id"), sampleStore) ∧
    WorkspaceService.InviteMember sampleStore "carol" "w-1"
        { UserExternalID := "ghost", Role := "member" } =
      (.error (.New "unauthorized: not a member"), sampleStore) ∧
    WorkspaceService.InviteMember sampleStore "carol" "w-1"
        { UserExternalID := "bob", Role := "member" } =
      (.error (.New "unauthorized: not a member"), sampleStore) ∧
    TaskService.CreateTask sampleStore "carol" "b-1" unknownStatus "t-2" =
      (.error (.New "unauthorized: not a member of the workspace"), sampleStore) ∧
    WorkspaceService.InviteMember sampleStore "bob" "w-1"
        { UserExternalID := "ghost", Role := "member" } =
      (.error (.New "unauthorized: only owner or admin can invite members"), sampleStore) :=
  have h := (C18_lookup_after_authorization sampleStore "alice").2
    { ID := 1, ExternalID := "alice", Name := "Alice", Email := "alice@example.org",
      Password := "hash-a", AvatarURL := none, ActiveStatus := 1 } rfl
  have hc := (C18_lookup_after_authorization sampleStore "carol").2
    { ID := 3, ExternalID := "carol", Name := "Carol", Email := "carol@example.org",
      Password := "hash-c", AvatarURL := none, ActiveStatus := 1 } rfl
  have hb := (C18_lookup_after_authorization sampleStore "bob").2
    { ID := 2, ExternalID := "bob", Name := "Bob", Email := "bob@example.org",
      Password := "hash-b", AvatarURL := none, ActiveStatus := 1 } rfl
  ⟨h.2.2.1 "w-1" { UserExternalID := "ghost", Role := "member" }
      { ID := 1, ExternalID := "w-1", Name := "Team", Description := none, OwnerID := 1,
        OwnerExternalID := "alice", ActiveStatus := 1 } "owner" .ErrNoRows rfl rfl (Or.inl rfl) rfl,
   (h.2.2.2.1 "b-1" unknownStatus "t-2"
      { ID := 1, ExternalID := "b-1", WorkspaceID := 1, WorkspaceExternalID := "w-1",
        CreatedByID := some 1, Name := "Board", Description := none, ActiveStatus := 1 }
      "owner" rfl rfl).1 .ErrNoRows rfl,
   hc.2.2.2.2.1 "w-1" { UserExternalID := "ghost", Role := "member" }
      { ID := 1, ExternalID := "w-1", Name := "Team", Description := none, OwnerID := 1,
        OwnerExternalID := "alice", ActiveStatus := 1 } .ErrNoRows rfl rfl,
   hc.2.2.2.2.1 "w-1" { UserExternalID := "bob", Role := "member" }
      { ID := 1, ExternalID := "w-1", Name := "Team", Description := none, OwnerID := 1,
        OwnerExternalID := "alice", ActiveStatus := 1 } .ErrNoRows rfl rfl,
   hc.2.2.2.2.2.2 "b-1" unknownStatus "t-2"
      { ID := 1, ExternalID := "b-1", WorkspaceID := 1, WorkspaceExternalID := "w-1",
        CreatedByID := some 1, Name := "Board", Description := none, ActiveStatus := 1 }
      .ErrNoRows rfl rfl,
   hb.2.2.2.2.2.1 "w-1" { UserExternalID := "ghost", Role := "member" }
      { ID := 1, ExternalID := "w-1", Name := "Team", Description := none, OwnerID := 1,
        OwnerExternalID := "alice", ActiveStatus := 1 } "member" rfl rfl (by decide) (by decide)⟩

/-! ## A failed call leaves the store alone -/

theorem keeps_error {α : Type} (e : Err) (s : Store) :
    keepsStoreOnError ((.error e, s) : Except Err α × Store) s := fun _ _ => rfl

theorem keeps_ok {α : Type} (a : α) (s1 s : Store) :
    keepsStoreOnError ((.ok a, s1) : Except Err α × Store) s :=
  fun e h => absurd h (by simp)

theorem keeps_of_eq {α β : Type} {r : Except Err α × Store} {s s1 : Store} {e e1 : Err}
    (hf : keepsStoreOnError r s) (h : r = (.error e, s1)) :
    keepsStoreOnError ((.error e1, s1) : Except Err β × Store) s := by
  intro _ _
  have := hf e (by rw [h])
  rw [h] at this
  exact this

theorem keeps_insertWorkspaceMember (s : Store) (workspaceID userID : Int) (role : String) :
    keepsStoreOnError (insertWorkspaceMember s workspaceID userID role) s := by
  unfold insertWorkspaceMember
  split
  · exact keeps_error _ _
  · exact keeps_ok _ _ _

theorem keeps_AddMember (s : Store) (wm : WorkspaceMember) :
    keepsStoreOnError (WorkspaceRepository.AddMember s wm) s :=
  keeps_insertWorkspaceMember s _ _ _

theorem keeps_repo_CreateWorkspace (s : Store) (workspace : Workspace) :
    keepsStoreOnError (WorkspaceRepository.CreateWorkspace s workspace) s := by
  simp only [WorkspaceRepository.CreateWorkspace]
  split
  · exact keeps_error _ _
  · exact keeps_ok _ _ _

theorem keeps_repo_UpdateWorkspace (s : Store) (w : Workspace) :
    keepsStoreOnError (WorkspaceRepository.UpdateWorkspace s w) s := by
  unfold WorkspaceRepository.UpdateWorkspace
  split
  · exact keeps_ok _ _ _
  · exact keeps_error _ _

theorem keeps_repo_UpdateStatus (s : Store) (st : Status) :
    keepsStoreOnError (StatusRepository.UpdateStatus s st) s := by
  unfold StatusRepository.UpdateStatus
  split
  · exact keeps_ok _ _ _
  · exact keeps_error _ _

theorem keeps_repo_UpdateBoard (s : Store) (b : Board) :
    keepsStoreOnError (BoardRepository.UpdateBoard s b) s := by
  unfold BoardRepository.UpdateBoard
  split
  · exact keeps_ok _ _ _
  · exact keeps_error _ _

theorem keeps_repo_UpdateTask (s : Store) (t : Task) :
    keepsStoreOnError (TaskRepository.UpdateTask s t) s := by
  unfold TaskRepository.UpdateTask
  split
  · exact keeps_ok _ _ _
  · exact keeps_error _ _

theorem keeps_CreateWorkspace (s : Store) (creator : String) (req : WorkspaceRequest)
    (uuid : String) : keepsStoreOnError (WorkspaceService.CreateWorkspace s creator req uuid) s := by
  simp only [WorkspaceService.CreateWorkspace]
  repeat' split
  all_goals first
    | exact keeps_error _ _
    | exact keeps_ok _ _ _
    | (rename_i h; exact keeps_of_eq (keeps_repo_CreateWorkspace _ _) h)

theorem keeps_UpdateWorkspace (s : Store) (actor workspace : String) (req : WorkspaceRequest) :
    keepsStoreOnError (WorkspaceService.UpdateWorkspace s actor workspace req) s := by
  simp only [WorkspaceService.UpdateWorkspace]
  repeat' split
  all_goals first
    | exact keeps_error _ _
    | exact keeps_ok _ _ _
    | (rename_i h; exact keeps_of_eq (keeps_repo_UpdateWorkspace _ _) h)

theorem keeps_DeleteWorkspace (s : Store) (actor workspace : String) :
    keepsStoreOnError (WorkspaceService.DeleteWorkspace s actor workspace) s := by
  simp only [WorkspaceService.DeleteWorkspace, WorkspaceRepository.DeleteWorkspace]
  repeat' split
  all_goals first
    | exact keeps_error _ _
    | exact keeps_ok _ _ _

theorem keeps_InviteMember (s : Store) (actor workspace : String) (req : InviteMemberRequest) :
    keepsStoreOnError (WorkspaceService.InviteMember s actor workspace req) s := by
  simp only [WorkspaceService.InviteMember]
  repeat' split
  all_goals first
    | exact keeps_error _ _
    | exact keeps_ok _ _ _
    | (rename_i h; exact keeps_of_eq (keeps_AddMember _ _) h)

theorem keeps_UpdateMemberRole (s : Store) (actor workspace target : String)
    (req : UpdateMemberRoleRequest) :
    keepsStoreOnError (WorkspaceService.UpdateMemberRole s actor workspace target req) s := by
  simp only [WorkspaceService.UpdateMemberRole, WorkspaceRepository.UpdateMemberRole]
  repeat' split
  all_goals first
    | exact keeps_error _ _
    | exact keeps_ok _ _ _

theorem keeps_RemoveMember (s : Store) (actor workspace target : String) :
    keepsStoreOnError (WorkspaceService.RemoveMember s actor workspace target) s := by
  simp only [WorkspaceService.RemoveMember, WorkspaceRepository.RemoveMember]
  repeat' split
  all_goals first
    | exact keeps_error _ _
    | exact keeps_ok _ _ _

theorem keeps_CreateBoard (s : Store) (actor workspace : String) (req : BoardRequest)
    (uuid : String) : keepsStoreOnError (BoardService.CreateBoard s actor workspace req uuid) s := by
  simp only [BoardService.CreateBoard, BoardRepository.CreateBoard]
  repeat' split
  all_goals first
    | exact keeps_error _ _
    | exact keeps_ok _ _ _

theorem keeps_UpdateBoard (s : Store) (actor board : String) (req : BoardRequest) :
    keepsStoreOnError (BoardService.UpdateBoard s actor board req) s := by
  simp only [BoardService.UpdateBoard]
  repeat' split
  all_goals first
    | exact keeps_error _ _
    | exact keeps_ok _ _ _
    | (rename_i h; exact keeps_of_eq (keeps_repo_UpdateBoard _ _) h)

theorem keeps_DeleteBoard (s : Store) (actor board : String) :
    keepsStoreOnError (BoardService.DeleteBoard s actor board) s := by
  simp only [BoardService.DeleteBoard, BoardRepository.DeleteBoard]
  repeat' split
  all_goals first
    | exact keeps_error _ _
    | exact keeps_ok _ _ _

theorem keeps_CreateStatus (s : Store) (req : StatusRequest) (uuid : String) :
    keepsStoreOnError (StatusService.CreateStatus s req uuid) s := by
  simp only [StatusService.CreateStatus, StatusRepository.CreateStatus]
  repeat' split
  all_goals first
    | exact keeps_error _ _
    | exact keeps_ok _ _ _

theorem keeps_UpdateStatus (s : Store) (ext : String) (req : StatusRequest) :
    keepsStoreOnError (StatusService.UpdateStatus s ext req) s := by
  simp only [StatusService.UpdateStatus]
  repeat' split
  all_goals first
    | exact keeps_error _ _
    | exact keeps_ok _ _ _
    | (rename_i h; exact keeps_of_eq (keeps_repo_UpdateStatus _ _) h)

theorem keeps_DeleteStatus (s : Store) (ext : String) :
    keepsStoreOnError (StatusService.DeleteStatus s ext) s := by
  simp only [StatusService.DeleteStatus, StatusRepository.DeleteStatus]
  repeat' split
  all_goals first
    | exact keeps_error _ _
    | exact keeps_ok _ _ _

theorem keeps_CreateTask (s : Store) (actor board : String) (req : TaskRequest) (uuid : String) :
    keepsStoreOnError (TaskService.CreateTask s actor board req uuid) s := by
  simp only [TaskService.CreateTask, TaskRepository.CreateTask]
  repeat' split
  all_goals first
    | exact keeps_error _ _
    | exact keeps_ok _ _ _

theorem keeps_UpdateTask (s : Store) (actor task : String) (req : TaskRequest) :
    keepsStoreOnError (TaskService.UpdateTask s actor task req) s := by
  simp only [TaskService.UpdateTask, TaskService.GetTask]
  repeat' split
  all_goals first
    | exact keeps_error _ _
    | exact keeps_ok _ _ _
    | (rename_i h; exact keeps_of_eq (keeps_repo_UpdateTask _ _) h)

theorem keeps_MoveTaskStatus (s : Store) (actor task : String) (req : MoveTaskStatusRequest) :
    keepsStoreOnError (TaskService.MoveTaskStatus s actor task req) s := by
  simp only [TaskService.MoveTaskStatus, TaskService.GetTask]
  repeat' split
  all_goals first
    | exact keeps_error _ _
    | exact keeps_ok _ _ _
    | (rename_i h; exact keeps_of_eq (keeps_repo_UpdateTask _ _) h)

theorem keeps_AssignTask (s : Store) (actor task : String) (req : AssignTaskRequest) :
    keepsStoreOnError (TaskService.AssignTask s actor task req) s := by
  simp only [TaskService.AssignTask, TaskService.GetTask]
  repeat' split
  all_goals first
    | exact keeps_error _ _
    | exact keeps_ok _ _ _
    | (rename_i h; exact keeps_of_eq (keeps_repo_UpdateTask _ _) h)

theorem keeps_DeleteTask (s : Store) (actor task : String) :
    keepsStoreOnError (TaskService.DeleteTask s actor task) s := by
  simp only [TaskService.DeleteTask, TaskRepository.DeleteTask]
  repeat' split
  all_goals first
    | exact keeps_error _ _
    | exact keeps_ok _ _ _

theorem keeps_elim {α : Type} {r : Except Err α × Store} {s s1 : Store} {e : Err}
    (hf : keepsStoreOnError r s) (h : r = (.error e, s1)) : s1 = s := by
  have := hf e (by rw [h])
  rw [h] at this
  exact this

/-- C19: whenever an operation of the workspace, board, status or task service
returns an error, whether from resolution, from authorization, from the
referential guard or from the write itself, the store it leaves is the store
it was called on: no write was made. -/
theorem C19_failed_call_keeps_store (s : Store) :
    ((∀ actor req uuid e s1,
        WorkspaceService.CreateWorkspace s actor req uuid = (.error e, s1) → s1 = s) ∧
      (∀ actor workspace req e s1,
        WorkspaceService.UpdateWorkspace s actor workspace req = (.error e, s1) → s1 = s) ∧
      (∀ actor workspace e s1,
        WorkspaceService.DeleteWorkspace s actor workspace = (.error e, s1) → s1 = s) ∧
      (∀ actor workspace req e s1,
        WorkspaceService.InviteMember s actor workspace req = (.error e, s1) → s1 = s) ∧
      (∀ actor workspace target req e s1,
        WorkspaceService.UpdateMemberRole s actor workspace target req = (.error e, s1) →
        s1 = s) ∧
      (∀ actor workspace target e s1,
        WorkspaceService.RemoveMember s actor workspace target = (.error e, s1) → s1 = s)) ∧
    ((∀ actor workspace req uuid e s1,
        BoardService.CreateBoard s actor workspace req uuid = (.error e, s1) → s1 = s) ∧
      (∀ actor board req e s1,
        BoardService.UpdateBoard s actor board req = (.error e, s1) → s1 = s) ∧
      (∀ actor board e s1,
        BoardService.DeleteBoard s actor board = (.error e, s1) → s1 = s)) ∧
    ((∀ req uuid e s1, StatusService.CreateStatus s req uuid = (.error e, s1) → s1 = s) ∧
      (∀ ext req e s1, StatusService.UpdateStatus s ext req = (.error e, s1) → s1 = s) ∧
      (∀ ext e s1, StatusService.DeleteStatus s ext = (.error e, s1) → s1 = s)) ∧
    ((∀ actor board req uuid e s1,
        TaskService.CreateTask s actor board req uuid = (.error e, s1) → s1 = s) ∧
      (∀ actor task req e s1,
        TaskService.UpdateTask s actor task req = (.error e, s1) → s1 = s) ∧
      (∀ actor task req e s1,
        TaskService.MoveTaskStatus s actor task req = (.error e, s1) → s1 = s) ∧
      (∀ actor task req e s1,
        TaskService.AssignTask s actor task req = (.error e, s1) → s1 = s) ∧
      (∀ actor task e s1, TaskService.DeleteTask s actor task = (.error e, s1) → s1 = s)) :=
  ⟨⟨fun _ _ _ _ _ h => keeps_elim (keeps_CreateWorkspace s _ _ _) h,
    fun _ _ _ _ _ h => keeps_elim (keeps_UpdateWorkspace s _ _ _) h,
    fun _ _ _ _ h => keeps_elim (keeps_DeleteWorkspace s _ _) h,
    fun _ _ _ _ _ h => keeps_elim (keeps_InviteMember s _ _ _) h,
    fun _ _ _ _ _ _ h => keeps_elim (keeps_UpdateMemberRole s _ _ _ _) h,
    fun _ _ _ _ _ h => keeps_elim (keeps_RemoveMember s _ _ _) h⟩,
   ⟨fun _ _ _ _ _ _ h => keeps_elim (keeps_CreateBoard s _ _ _ _) h,
    fun _ _ _ _ _ h => keeps_elim (keeps_UpdateBoard s _ _ _) h,
    fun _ _ _ _ h => keeps_elim (keeps_DeleteBoard s _ _) h⟩,
   ⟨fun _ _ _ _ h => keeps_elim (keeps_CreateStatus s _ _) h,
    fun _ _ _ _ h => keeps_elim (keeps_UpdateStatus s _ _) h,
    fun _ _ _ h => keeps_elim (keeps_DeleteStatus s _) h⟩,
   ⟨fun _ _ _ _ _ _ h => keeps_elim (keeps_CreateTask s _ _ _ _) h,
    fun _ _ _ _ _ h => keeps_elim (keeps_UpdateTask s _ _ _) h,
    fun _ _ _ _ _ h => keeps_elim (keeps_MoveTaskStatus s _ _ _) h,
    fun _ _ _ _ _ h => keeps_elim (keeps_AssignTask s _ _ _) h,
    fun _ _ _ _ h => keeps_elim (keeps_DeleteTask s _ _) h⟩⟩

/-- C19, at a concrete store: in `sampleStore`, `RemoveMember` by the plain member
`bob` (authorization fails), `DeleteStatus` of the used status `s-1` (the
guard fails) and `DeleteBoard` of the unknown board `nope` (resolution fails)
each return their error and leave `sampleStore` as it was. -/
theorem C19_failed_call_keeps_store_witness :
    (WorkspaceService.RemoveMember sampleStore "bob" "w-1" "alice").1 =
        .error (.New "unauthorized: only owner or admin can remove members") ∧
      (WorkspaceService.RemoveMember sampleStore "bob" "w-1" "alice").2 = sampleStore ∧
    (StatusService.DeleteStatus sampleStore "s-1").1 =
        .error (.New "conflict: status is in use by one or more tasks and cannot be deleted") ∧
      (StatusService.DeleteStatus sampleStore "s-1").2 = sampleStore ∧
    (BoardService.DeleteBoard sampleStore "alice" "nope").1 = .error (.New "board not found") ∧
      (BoardService.DeleteBoard sampleStore "alice" "nope").2 = sampleStore :=
  have h := C19_failed_call_keeps_store sampleStore
  ⟨rfl, h.1.2.2.2.2.2 "bob" "w-1" "alice" _ _ rfl,
   rfl, h.2.2.1.2.2 "s-1" _ _ rfl,
   rfl, h.2.1.2.2 "alice" "nope" _ _ rfl⟩

/-! ## Creating a workspace is all-or-nothing -/

/-- Without faults the transaction is `WorkspaceRepository.CreateWorkspace`. -/
theorem CreateWorkspaceTx_none (s : Store) (workspace : Workspace) :
    WorkspaceRepository.CreateWorkspaceTx CreateWorkspaceFaults.none s workspace =
      WorkspaceRepository.CreateWorkspace s workspace := rfl

/-- Without faults the service is `WorkspaceService.CreateWorkspace`. -/
theorem Service_CreateWorkspaceTx_none (s : Store) (creator : String) (req : WorkspaceRequest)
    (uuid : String) :
    WorkspaceService.CreateWorkspaceTx CreateWorkspaceFaults.none s creator req uuid =
      WorkspaceService.CreateWorkspace s creator req uuid := rfl

theorem repo_CreateWorkspaceTx_cases (f : CreateWorkspaceFaults) (s : Store)
    (workspace : Workspace) :
    (∃ e, WorkspaceRepository.CreateWorkspaceTx f s workspace = (.error e, s)) ∨
    (f = CreateWorkspaceFaults.none ∧
      memberRows s s.workspaces_seq workspace.OwnerID = [] ∧
      WorkspaceRepository.CreateWorkspaceTx f s workspace =
        (.ok { workspace with ID := s.workspaces_seq },
         { s with
           workspaces := s.workspaces ++
             [{ ID := s.workspaces_seq, ExternalID := workspace.ExternalID,
                Name := workspace.Name, Description := workspace.Description,
                OwnerID := workspace.OwnerID, ActiveStatus := 1 }],
           workspaces_seq := s.workspaces_seq + 1,
           workspace_members := s.workspace_members ++
             [{ ID := s.workspace_members_seq, WorkspaceID := s.workspaces_seq,
                UserID := workspace.OwnerID, Role := "owner" }],
           workspace_members_seq := s.workspace_members_seq + 1 })) := by
  obtain ⟨fb, fw, fm, fc⟩ := f
  cases fb with
  | some e => exact Or.inl ⟨e, rfl⟩
  | none =>
    cases fw with
    | some e => exact Or.inl ⟨e, rfl⟩
    | none =>
      cases fm with
      | some e => exact Or.inl ⟨e, rfl⟩
      | none =>
        by_cases hany : s.workspace_members.any
            (fun m => m.WorkspaceID == s.workspaces_seq && m.UserID == workspace.OwnerID) = true
        · left
          refine ⟨.Db "pq: duplicate key value violates unique constraint", ?_⟩
          simp only [WorkspaceRepository.CreateWorkspaceTx, insertWorkspaceMember, hany, if_true]
        · have hfalse : s.workspace_members.any
              (fun m => m.WorkspaceID == s.workspaces_seq && m.UserID == workspace.OwnerID) =
              false := by simpa using hany
          cases fc with
          | some e =>
            left
            refine ⟨e, ?_⟩
            simp only [WorkspaceRepository.CreateWorkspaceTx, insertWorkspaceMember, hfalse,
              Bool.false_eq_true, if_false]
          | none =>
            right
            refine ⟨rfl, (any_member_eq_false_iff s _ _).1 hfalse, ?_⟩
            simp only [WorkspaceRepository.CreateWorkspaceTx, insertWorkspaceMember, hfalse,
              Bool.false_eq_true, if_false]

theorem Service_CreateWorkspaceTx_cases (f : CreateWorkspaceFaults) (s : Store)
    (creator uuid : String) (req : WorkspaceRequest) (user : User)
    (hu : UserRepository.GetUserByExternalID s creator = .ok user) :
    (∃ e, WorkspaceService.CreateWorkspaceTx f s creator req uuid = (.error e, s)) ∨
    (f = CreateWorkspaceFaults.none ∧ memberRows s s.workspaces_seq user.ID = [] ∧
      WorkspaceService.CreateWorkspaceTx f s creator req uuid =
        (.ok { ExternalID := uuid, Name := req.Name, Description := req.Description,
               OwnerExternalID := user.ExternalID }, s.withWorkspace uuid req user.ID)) := by
  rcases repo_CreateWorkspaceTx_cases f s
    { ID := 0, ExternalID := uuid, Name := req.Name, Description := req.Description,
      OwnerID := user.ID, OwnerExternalID := "", ActiveStatus := 0 } with ⟨e, he⟩ | ⟨hf, hnil, hok⟩
  · left
    refine ⟨e, ?_⟩
    simp only [WorkspaceService.CreateWorkspaceTx, hu, he]
  · right
    refine ⟨hf, hnil, ?_⟩
    simp only [WorkspaceService.CreateWorkspaceTx, hu, hok, Store.withWorkspace]

/-- C16: `CreateWorkspace` by a resolved creator, on a database whose transaction
steps may fail, is all-or-nothing. On success the store is the old one plus
the new workspace row, whose `OwnerID` is the creator, and the membership row
(workspace, creator, `owner`), and `GetMemberRole(workspace, creator)` returns
`owner`. On any error, in particular when the workspace insert or the
membership insert fails, the store is exactly the old one, so neither row is
present; and a fault in any step makes the call fail. -/
theorem C16_create_workspace_atomic (f : CreateWorkspaceFaults) (s : Store)
    (creator uuid : String) (req : WorkspaceRequest) (user : User)
    (hu : UserRepository.GetUserByExternalID s creator = .ok user) :
    (∀ resp s1, WorkspaceService.CreateWorkspaceTx f s creator req uuid = (.ok resp, s1) →
      s1 = s.withWorkspace uuid req user.ID ∧
      ({ ID := s.workspaces_seq, ExternalID := uuid, Name := req.Name,
         Description := req.Description, OwnerID := user.ID, ActiveStatus := 1 } :
        WorkspaceRow) ∈ s1.workspaces ∧
      ({ ID := s.workspace_members_seq, WorkspaceID := s.workspaces_seq, UserID := user.ID,
         Role := "owner" } : WorkspaceMember) ∈ s1.workspace_members ∧
      WorkspaceRepository.GetMemberRole s1 s.workspaces_seq user.ID = .ok "owner") ∧
    (∀ e s1, WorkspaceService.CreateWorkspaceTx f s creator req uuid = (.error e, s1) →
      s1 = s ∧ s1.workspaces = s.workspaces ∧ s1.workspace_members = s.workspace_members) ∧
    (f ≠ CreateWorkspaceFaults.none →
      ∃ e, WorkspaceService.CreateWorkspaceTx f s creator req uuid = (.error e, s)) ∧
    (f = CreateWorkspaceFaults.none → memberRows s s.workspaces_seq user.ID = [] →
      WorkspaceService.CreateWorkspaceTx f s creator req uuid =
        (.ok { ExternalID := uuid, Name := req.Name, Description := req.Description,
               OwnerExternalID := user.ExternalID }, s.withWorkspace uuid req user.ID)) := by
  have h4 : f = CreateWorkspaceFaults.none → memberRows s s.workspaces_seq user.ID = [] →
      WorkspaceService.CreateWorkspaceTx f s creator req uuid =
        (.ok { ExternalID := uuid, Name := req.Name, Description := req.Description,
               OwnerExternalID := user.ExternalID }, s.withWorkspace uuid req user.ID) := by
    intro hf hnil
    subst hf
    have hany := (any_member_eq_false_iff s _ _).2 hnil
    simp only [WorkspaceService.CreateWorkspaceTx, hu, WorkspaceRepository.CreateWorkspaceTx,
      CreateWorkspaceFaults.none, insertWorkspaceMember, hany, Bool.false_eq_true, if_false,
      Store.withWorkspace]
  rcases Service_CreateWorkspaceTx_cases f s creator uuid req user hu with
    ⟨e, he⟩ | ⟨hf, hnil, hok⟩
  · refine ⟨?_, ?_, fun _ => ⟨e, he⟩, h4⟩
    · intro resp s1 h
      rw [he] at h
      simp at h
    · intro e1 s1 h
      rw [he] at h
      simp only [Prod.mk.injEq] at h
      obtain ⟨-, rfl⟩ := h
      exact ⟨rfl, rfl, rfl⟩
  · refine ⟨?_, ?_, fun hne => absurd hf hne, fun _ _ => hok⟩
    · intro resp s1 h
      rw [hok] at h
      simp only [Prod.mk.injEq] at h
      obtain ⟨-, rfl⟩ := h
      refine ⟨rfl, ?_, ?_, ?_⟩
      · simp [Store.withWorkspace]
      · simp [Store.withWorkspace]
      · have hnil' := hnil
        simp only [memberRows] at hnil'
        simp [WorkspaceRepository.GetMemberRole, Store.withWorkspace, List.filter_append, hnil',
          List.filter_cons, QueryRow]
    · intro e s1 h
      rw [hok] at h
      simp at h

/-- C16, at a concrete store: from `twoUsers`, `alice` creating `w-1` on a sound
database ends with her role `owner` in workspace 1; when the membership
insert or the workspace insert fails, the call returns the database's error
and the store is `twoUsers` again. -/
theorem C16_create_workspace_atomic_witness :
    WorkspaceRepository.GetMemberRole
        (WorkspaceService.CreateWorkspaceTx CreateWorkspaceFaults.none twoUsers "alice"
          teamRequest "w-1").2 1 1 = .ok "owner" ∧
    WorkspaceService.CreateWorkspaceTx memberInsertFails twoUsers "alice" teamRequest "w-1" =
      (.error (.Db "driver: bad connection"), twoUsers) ∧
    WorkspaceService.CreateWorkspaceTx workspaceInsertFails twoUsers "alice" teamRequest "w-1" =
      (.error (.Db "driver: bad connection"), twoUsers) :=
  have h0 := C16_create_workspace_atomic CreateWorkspaceFaults.none twoUsers "alice" "w-1"
    teamRequest
    { ID := 1, ExternalID := "alice", Name := "Alice", Email := "alice@example.org",
      Password := "hash-a", AvatarURL := none, ActiveStatus := 1 } rfl
  have h1 := C16_create_workspace_atomic memberInsertFails twoUsers "alice" "w-1" teamRequest
    { ID := 1, ExternalID := "alice", Name := "Alice", Email := "alice@example.org",
      Password := "hash-a", AvatarURL := none, ActiveStatus := 1 } rfl
  have h2 := C16_create_workspace_atomic workspaceInsertFails twoUsers "alice" "w-1" teamRequest
    { ID := 1, ExternalID := "alice", Name := "Alice", Email := "alice@example.org",
      Password := "hash-a", AvatarURL := none, ActiveStatus := 1 } rfl
  ⟨(h0.1 _ _ rfl).2.2.2,
   Prod.ext rfl (h1.2.1 (.Db "driver: bad connection")
     (WorkspaceService.CreateWorkspaceTx memberInsertFails twoUsers "alice" teamRequest "w-1").2
     rfl).1,
   Prod.ext rfl (h2.2.1 (.Db "driver: bad connection")
     (WorkspaceService.CreateWorkspaceTx workspaceInsertFails twoUsers "alice" teamRequest
       "w-1").2 rfl).1⟩

/-! ## Failures of the database during resolution -/

/-- Over a sound database the three services over repositories are the services
of the store. -/
theorem Via_ofStore (s : Store) :
    (∀ actor workspace, WorkspaceService.GetWorkspaceVia (Repositories.ofStore s) actor workspace =
      WorkspaceService.GetWorkspace s actor workspace) ∧
    (∀ ext, StatusService.GetStatusVia (Repositories.ofStore s) ext =
      StatusService.GetStatus s ext) ∧
    (∀ ext, StatusService.DeleteStatusVia (Repositories.ofStore s) ext =
      (StatusService.DeleteStatus s ext).1) := by
  refine ⟨fun _ _ => rfl, fun _ => rfl, fun ext => ?_⟩
  simp only [StatusService.DeleteStatusVia, StatusService.DeleteStatus, Repositories.ofStore]
  repeat' split
  all_goals rfl

/-- C20, evaluated over `sampleStore` with the database failing with
`driver: bad connection` (not `sql.ErrNoRows`) at one lookup: `GetWorkspace`
answers `user not found`, `workspace not found` or `unauthorized: not a member
of this workspace`, and `DeleteStatus` answers `status not found` or
`could not verify status references`. None of these is the database's error.
The sibling `GetStatus` does return the database's error unchanged. -/
theorem C20_failure_replaced :
    WorkspaceService.GetWorkspaceVia failsOnUser "alice" "w-1" =
      .error (.New "user not found") ∧
    WorkspaceService.GetWorkspaceVia failsOnWorkspace "alice" "w-1" =
      .error (.New "workspace not found") ∧
    WorkspaceService.GetWorkspaceVia failsOnMembership "alice" "w-1" =
      .error (.New "unauthorized: not a member of this workspace") ∧
    StatusService.DeleteStatusVia failsOnStatus "s-2" = .error (.New "status not found") ∧
    StatusService.DeleteStatusVia failsOnCount "s-2" =
      .error (.New "could not verify status references") ∧
    StatusService.GetStatusVia failsOnStatus "s-2" = .error unavailable ∧
    unavailable ≠ .ErrNoRows :=
  ⟨rfl, rfl, rfl, rfl, rfl, rfl, by decide⟩

/-- Whatever error a lookup returns, `GetWorkspace` and `DeleteStatus` replace it
by a fixed text of their own. -/
theorem lookup_error_replaced (r : Repositories) (actor workspace ext : String) (e : Err) :
    (r.GetUserByExternalID actor = .error e →
      WorkspaceService.GetWorkspaceVia r actor workspace = .error (.New "user not found")) ∧
    (∀ user, r.GetUserByExternalID actor = .ok user →
      r.GetWorkspaceByExternalID workspace = .error e →
      WorkspaceService.GetWorkspaceVia r actor workspace =
        .error (.New "workspace not found")) ∧
    (∀ user w, r.GetUserByExternalID actor = .ok user →
      r.GetWorkspaceByExternalID workspace = .ok w → r.GetMemberRole w.ID user.ID = .error e →
      WorkspaceService.GetWorkspaceVia r actor workspace =
        .error (.New "unauthorized: not a member of this workspace")) ∧
    (r.GetStatusByExternalID ext = .error e →
      StatusService.DeleteStatusVia r ext = .error (.New "status not found")) ∧
    (∀ status, r.GetStatusByExternalID ext = .ok status →
      r.CheckIfReferenced status.ID = .error e →
      StatusService.DeleteStatusVia r ext =
        .error (.New "could not verify status references")) := by
  refine ⟨?_, ?_, ?_, ?_, ?_⟩
  · intro h
    simp only [WorkspaceService.GetWorkspaceVia, h]
  · intro user hu h
    simp only [WorkspaceService.GetWorkspaceVia, hu, h]
  · intro user w hu hw h
    simp only [WorkspaceService.GetWorkspaceVia, hu, hw, h]
  · intro h
    simp only [StatusService.DeleteStatusVia, h]
  · intro status hs h
    simp only [StatusService.DeleteStatusVia, hs, h]

/-! ## Reading one task -/

/-- C21, evaluated: `GetTask` never reads the store. For the active task `t-1` of
`sampleStore` (title `Write`, priority `low`, board `b-1`, status `s-1`, as
`GetBoardTasks` reports it) it returns a response that carries the external id
and nothing else; for the id `nope`, which resolves to no task, it returns
success as well; and a successful `MoveTaskStatus` returns that same empty
response. -/
theorem C21_get_task_stub :
    (∀ (s : Store) (actor ext : String), TaskService.GetTask s actor ext =
      .ok { ExternalID := ext, BoardExternalID := "",
            Status := { ExternalID := "", Name := "", Color := none }, AssignedTo := none,
            Title := "", Description := none, Priority := "", DueDate := none,
            Position := 0 }) ∧
    TaskService.GetBoardTasks sampleStore "alice" "b-1" =
      .ok [{ ExternalID := "t-1", BoardExternalID := "b-1",
             Status := { ExternalID := "s-1", Name := "Todo", Color := none },
             AssignedTo := none, Title := "Write", Description := none, Priority := "low",
             DueDate := none, Position := 0 }] ∧
    TaskService.GetTask sampleStore "alice" "t-1" =
      .ok { ExternalID := "t-1", BoardExternalID := "",
            Status := { ExternalID := "", Name := "", Color := none }, AssignedTo := none,
            Title := "", Description := none, Priority := "", DueDate := none,
            Position := 0 } ∧
    TaskRepository.GetTaskByExternalID sampleStore "nope" = .error .ErrNoRows ∧
    (TaskService.GetTask sampleStore "alice" "nope").isOk = true ∧
    (TaskService.MoveTaskStatus sampleStore "alice" "t-1" { StatusExternalID := "s-2" }).1 =
      .ok { ExternalID := "t-1", BoardExternalID := "",
            Status := { ExternalID := "", Name := "", Color := none }, AssignedTo := none,
            Title := "", Description := none, Priority := "", DueDate := none,
            Position := 0 } :=
  ⟨fun _ _ _ => rfl, rfl, rfl, rfl, rfl, rfl⟩

/-! ## Statuses: create, then fetch -/

/-- C22: for a request whose name no ACTIVE status holds, and an external id no
status uses yet, `CreateStatus` succeeds with the request's name and color and
the request's position, or 0 when the request leaves it unset; and `GetStatus`
on the returned external id then returns exactly the create response. -/
theorem C22_status_round_trip (s : Store) (req : StatusRequest) (uuid : String)
    (hname : req.Name ∉ activeStatusNames s)
    (hfresh : ∀ st ∈ s.statuses, st.ExternalID ≠ uuid) :
    ∃ s1, StatusService.CreateStatus s req uuid =
        (.ok { ExternalID := uuid, Name := req.Name, Color := req.Color,
               Position := req.Position.getD 0 }, s1) ∧
      StatusService.GetStatus s1 uuid =
        .ok { ExternalID := uuid, Name := req.Name, Color := req.Color,
              Position := req.Position.getD 0 } := by
  obtain ⟨e, he⟩ := GetStatusByName_error_of_not_mem hname
  have hnone : s.statuses.filter (fun st => st.ExternalID == uuid && st.ActiveStatus == 1) = [] := by
    rw [List.filter_eq_nil_iff]
    intro st hst
    simp only [Bool.and_eq_true, beq_iff_eq, not_and]
    exact fun h => absurd h (hfresh st hst)
  refine ⟨(StatusService.CreateStatus s req uuid).2, ?_, ?_⟩
  · simp only [StatusService.CreateStatus, he, StatusRepository.CreateStatus,
      StatusService.mapToResponse]
  · simp only [StatusService.CreateStatus, he, StatusRepository.CreateStatus,
      StatusService.GetStatus, StatusRepository.GetStatusByExternalID,
      List.filter_append, hnone, List.nil_append, List.filter_cons, beq_self_eq_true,
      Bool.and_self, if_true, List.filter_nil, QueryRow, StatusService.mapToResponse]

/-- C22, at a concrete store: in `sampleStore`, creating `Blocked` without a
position and fetching it returns name `Blocked`, no color and position 0. -/
theorem C22_status_round_trip_witness :
    ∃ s1, StatusService.CreateStatus sampleStore
        { Name := "Blocked", Color := none, Position := none } "s-3" =
        (.ok { ExternalID := "s-3", Name := "Blocked", Color := none, Position := 0 }, s1) ∧
      StatusService.GetStatus s1 "s-3" =
        .ok { ExternalID := "s-3", Name := "Blocked", Color := none, Position := 0 } :=
  C22_status_round_trip sampleStore { Name := "Blocked", Color := none, Position := none } "s-3"
    (by decide) (by decide)

/-! ## Tasks: the default priority -/

/-- C23: after a successful `CreateTask` the returned task and the row stored for
it (the one row added to the table) carry priority `low` when the request's
priority is empty, and the request's priority otherwise. -/
theorem C23_default_priority (s s1 : Store) (actor board uuid : String) (req : TaskRequest)
    (task : Task) (h : TaskService.CreateTask s actor board req uuid = (.ok task, s1)) :
    s1.tasks = s.tasks ++ [{ task with ActiveStatus := 1 }] ∧
    task.ExternalID = uuid ∧
    (req.Priority = "" → task.Priority = "low") ∧
    (req.Priority ≠ "" → task.Priority = req.Priority) := by
  simp only [TaskService.CreateTask, TaskRepository.CreateTask] at h
  repeat' split at h
  all_goals first
    | (simp at h; done)
    | (simp only [Prod.mk.injEq, Except.ok.injEq] at h
       obtain ⟨rfl, rfl⟩ := h
       rename_i hq
       refine ⟨rfl, rfl, ?_, ?_⟩
       · intro hp
         simp_all
       · intro hp
         simp_all)

/-- C23, at a concrete store: alice creates a task on board `b-1` of
`sampleStore` without a priority; the task returned has priority `low`. -/
theorem C23_default_priority_witness :
    ({ sampleStore with
        tasks := sampleStore.tasks ++ [
          { ID := 2, ExternalID := "t-2", BoardID := 1, StatusID := 1, AssignedTo := none,
            CreatedByID := 1, Title := "Ship", Description := none, Priority := "low",
            DueDate := none, Position := 0, ActiveStatus := 1 }],
        tasks_seq := 3 } : Store).tasks =
      sampleStore.tasks ++ [
        { ID := 2, ExternalID := "t-2", BoardID := 1, StatusID := 1, AssignedTo := none,
          CreatedByID := 1, Title := "Ship", Description := none, Priority := "low",
          DueDate := none, Position := 0, ActiveStatus := 1 }] ∧
    "t-2" = "t-2" ∧ ("" = "" → "low" = "low") ∧ (("" : String) ≠ "" → "low" = "") :=
  C23_default_priority sampleStore
    { sampleStore with
        tasks := sampleStore.tasks ++ [
          { ID := 2, ExternalID := "t-2", BoardID := 1, StatusID := 1, AssignedTo := none,
            CreatedByID := 1, Title := "Ship", Description := none, Priority := "low",
            DueDate := none, Position := 0, ActiveStatus := 1 }],
        tasks_seq := 3 }
    "alice" "b-1" "t-2"
    { Title := "Ship", Description := none, Priority := "", DueDate := none,
      StatusExternalID := "s-1", AssignedToExternalID := none }
    { ID := 2, ExternalID := "t-2", BoardID := 1, StatusID := 1, AssignedTo := none,
      CreatedByID := 1, Title := "Ship", Description := none, Priority := "low",
      DueDate := none, Position := 0, ActiveStatus := 0 } rfl

/-! ## Changing or removing a membership that does not exist -/

theorem map_role_of_no_row {s : Store} {workspaceID userID : Int} {role : String}
    (h : memberRows s workspaceID userID = []) :
    s.workspace_members.map (fun m =>
      if m.WorkspaceID == workspaceID && m.UserID == userID then { m with Role := role } else m) =
      s.workspace_members := by
  rw [memberRows, List.filter_eq_nil_iff] at h
  conv_rhs => rw [← List.map_id s.workspace_members]
  apply List.map_congr_left
  intro m hm
  have hb : (m.WorkspaceID == workspaceID && m.UserID == userID) = false := by
    simpa using h m hm
  simp only [hb, Bool.false_eq_true, if_false, id]

theorem filter_of_no_row {s : Store} {workspaceID userID : Int}
    (h : memberRows s workspaceID userID = []) :
    s.workspace_members.filter (fun m => !(m.WorkspaceID == workspaceID && m.UserID == userID)) =
      s.workspace_members := by
  rw [memberRows, List.filter_eq_nil_iff] at h
  rw [List.filter_eq_self]
  intro m hm
  have hb : (m.WorkspaceID == workspaceID && m.UserID == userID) = false := by
    simpa using h m hm
  simp only [hb, Bool.not_false]

/-- C29: when the acting user, the workspace and the target user resolve, the
target is not the workspace's owner and has no membership row in the workspace,
then `UpdateMemberRole` called by the owner (for any requested role) and
`RemoveMember` called by a member whose role is `owner` or `admin` both return
success, and the store after the call, the membership table included, is the
store before it. -/
theorem C29_absent_member_success (s : Store) (actor workspace target : String)
    (user targetUser : User) (w : Workspace)
    (hu : UserRepository.GetUserByExternalID s actor = .ok user)
    (hw : WorkspaceRepository.GetWorkspaceByExternalID s workspace = .ok w)
    (ht : UserRepository.GetUserByExternalID s target = .ok targetUser)
    (hnot : targetUser.ID ≠ w.OwnerID)
    (hrow : memberRows s w.ID targetUser.ID = []) :
    (user.ID = w.OwnerID → ∀ req : UpdateMemberRoleRequest,
      WorkspaceService.UpdateMemberRole s actor workspace target req = (.ok (), s)) ∧
    (∀ role, WorkspaceRepository.GetMemberRole s w.ID user.ID = .ok role →
      role = "owner" ∨ role = "admin" →
      WorkspaceService.RemoveMember s actor workspace target = (.ok (), s)) := by
  have hb : (targetUser.ID == w.OwnerID) = false := by simpa using hnot
  constructor
  · intro hown req
    have ho : (w.OwnerID != user.ID) = false := by simp [hown]
    simp only [WorkspaceService.UpdateMemberRole, hu, hw, ho, ht, hb, Bool.false_eq_true,
      if_false, WorkspaceRepository.UpdateMemberRole, map_role_of_no_row hrow]
  · intro role hrole hr
    have ha : (!(role != "owner" && role != "admin")) = true := by
      rcases hr with rfl | rfl <;> decide
    simp only [WorkspaceService.RemoveMember, hu, hw, hrole, ha, ht, hb, Bool.not_true,
      Bool.false_eq_true, if_false, WorkspaceRepository.RemoveMember, filter_of_no_row hrow]

/-- C29, at a concrete store: in `sampleStore` carol has no row in workspace
`w-1`; alice, its owner, changes carol's role and removes carol, both with
success and without any change to the store. -/
theorem C29_absent_member_success_witness :
    (sampleStore.users.get ⟨0, by decide⟩).ID = 1 ∧
    (∀ req : UpdateMemberRoleRequest,
      WorkspaceService.UpdateMemberRole sampleStore "alice" "w-1" "carol" req =
        (.ok (), sampleStore)) ∧
    WorkspaceService.RemoveMember sampleStore "alice" "w-1" "carol" = (.ok (), sampleStore) :=
  have h := C29_absent_member_success sampleStore "alice" "w-1" "carol"
    (sampleStore.users.get ⟨0, by decide⟩) (sampleStore.users.get ⟨2, by decide⟩)
    { ID := 1, ExternalID := "w-1", Name := "Team", Description := none, OwnerID := 1,
      OwnerExternalID := "alice", ActiveStatus := 1 }
    rfl rfl rfl (by decide) rfl
  ⟨rfl, h.1 rfl, h.2 "owner" rfl (Or.inl rfl)⟩

/-! ## Tasks: what an update writes -/

/-- With internal ids as a key, the row that carries the id of a stored task is
that task. -/
theorem task_eq_of_ID {s : Store} (hids : (s.tasks.map (fun t => t.ID)).Nodup) {r task : Task}
    (hr : r ∈ s.tasks) (htask : task ∈ s.tasks) (h : r.ID = task.ID) : r = task :=
  List.inj_on_of_nodup_map hids hr htask h

/-- A successful `MoveTaskStatus` resolves the task and the status and writes
the task with the status replaced. -/
theorem MoveTaskStatus_ok {s s1 : Store} {actor taskExt : String} {req : MoveTaskStatusRequest}
    {resp : TaskResponse} (h : TaskService.MoveTaskStatus s actor taskExt req = (.ok resp, s1)) :
    ∃ (task : Task) (status : Status),
      TaskRepository.GetTaskByExternalID s taskExt = .ok task ∧
      StatusRepository.GetStatusByExternalID s req.StatusExternalID = .ok status ∧
      s1 = { s with tasks := s.tasks.map (TaskRepository.setColumns { task with StatusID := status.ID }) } := by
  unfold TaskService.MoveTaskStatus at h
  split at h
  · simp at h
  · split at h
    · simp at h
    · rename_i task htask
      split at h
      · simp at h
      · rename_i status hstatus
        have hmem := (GetTaskByExternalID_ok htask).1
        simp only at h
        rw [UpdateTask_of_mem (t := { task with StatusID := status.ID }) ⟨task, hmem, rfl⟩] at h
        simp only [Prod.mk.injEq] at h
        exact ⟨task, status, htask, hstatus, h.2.symm⟩

/-- C28: with internal ids as the key of the task table, a successful
`MoveTaskStatus` resolves the task and the requested status and leaves the store
as it was except for the task table, where the row of the task has its status
replaced by the requested one, every other column of that row kept, and every
other row is untouched. -/
theorem C28_move_changes_status_only (s s1 : Store) (actor taskExt : String)
    (req : MoveTaskStatusRequest) (resp : TaskResponse)
    (hids : (s.tasks.map (fun t => t.ID)).Nodup)
    (h : TaskService.MoveTaskStatus s actor taskExt req = (.ok resp, s1)) :
    ∃ (task : Task) (status : Status),
      TaskRepository.GetTaskByExternalID s taskExt = .ok task ∧
      StatusRepository.GetStatusByExternalID s req.StatusExternalID = .ok status ∧
      s1 = { s with tasks := s.tasks.map (fun r =>
        if r = task then { r with StatusID := status.ID } else r) } := by
  obtain ⟨task, status, htask, hstatus, rfl⟩ := MoveTaskStatus_ok h
  refine ⟨task, status, htask, hstatus, ?_⟩
  have hmem := (GetTaskByExternalID_ok htask).1
  congr 1
  apply List.map_congr_left
  intro r hr
  by_cases hid : r.ID = task.ID
  · have hrt : r = task := task_eq_of_ID hids hr hmem hid
    subst hrt
    simp only [TaskRepository.setColumns, beq_self_eq_true, if_true]
  · have hne : r ≠ task := fun e => hid (by rw [e])
    rw [setColumns_other (by simpa using hid), if_neg hne]

/-- C28, at a concrete store: alice moves task `t-1` of `sampleStore` to status
`s-2`; the stored row differs from the old one in its status only. -/
theorem C28_move_changes_status_only_witness :
    ∃ (task : Task) (status : Status),
      TaskRepository.GetTaskByExternalID sampleStore "t-1" = .ok task ∧
      StatusRepository.GetStatusByExternalID sampleStore "s-2" = .ok status ∧
      (TaskService.MoveTaskStatus sampleStore "alice" "t-1" { StatusExternalID := "s-2" }).2 =
        { sampleStore with tasks := sampleStore.tasks.map (fun r =>
          if r = task then { r with StatusID := status.ID } else r) } :=
  C28_move_changes_status_only sampleStore _ "alice" "t-1" { StatusExternalID := "s-2" }
    { ExternalID := "t-1", BoardExternalID := "",
      Status := { ExternalID := "", Name := "", Color := none }, AssignedTo := none,
      Title := "", Description := none, Priority := "", DueDate := none, Position := 0 }
    (by decide) rfl


/-- A successful `UpdateTask` resolves the task, the status and the assignee of
the request and writes the task with the request's columns, the priority being
the old one when the request's is empty. -/
theorem UpdateTask_ok {s s1 : Store} {actor taskExt : String} {req : TaskRequest}
    {resp : TaskResponse} (h : TaskService.UpdateTask s actor taskExt req = (.ok resp, s1)) :
    ∃ (task : Task) (status : Status) (assignee : Option User),
      TaskRepository.GetTaskByExternalID s taskExt = .ok task ∧
      StatusRepository.GetStatusByExternalID s req.StatusExternalID = .ok status ∧
      (∀ u, assignee = some u →
        ∃ ext, req.AssignedToExternalID = some ext ∧
          UserRepository.GetUserByExternalID s ext = .ok u) ∧
      (assignee = none → req.AssignedToExternalID = none) ∧
      s1 = { s with tasks := s.tasks.map (TaskRepository.setColumns
        { task with Title := req.Title, Description := req.Description,
                    Priority := if req.Priority == "" then task.Priority else req.Priority,
                    DueDate := req.DueDate, StatusID := status.ID,
                    AssignedTo := assignee.map (fun u => u.ID) }) } := by
  unfold TaskService.UpdateTask at h
  split at h
  · simp at h
  · split at h
    · simp at h
    · rename_i task htask
      split at h
      · simp at h
      · rename_i status hstatus
        have hmem := (GetTaskByExternalID_ok htask).1
        have hup : ∀ (a : String) (b : Option String) (c : String) (d : Option Time) (e : Int)
            (f : Option Int), TaskRepository.UpdateTask s
              { task with Title := a, Description := b, Priority := c, DueDate := d,
                          StatusID := e, AssignedTo := f } =
            (.ok (), { s with tasks := s.tasks.map (TaskRepository.setColumns
              { task with Title := a, Description := b, Priority := c, DueDate := d,
                          StatusID := e, AssignedTo := f }) }) :=
          fun _ _ _ _ _ _ => UpdateTask_of_mem ⟨task, hmem, rfl⟩
        cases hreq : req.AssignedToExternalID with
        | none =>
          simp only [hreq, hup, TaskService.GetTask, Prod.mk.injEq] at h
          exact ⟨task, status, none, htask, hstatus, fun u hu => by simp at hu, fun _ => rfl,
            h.2.symm⟩
        | some ext =>
          cases hu : UserRepository.GetUserByExternalID s ext with
          | error e => simp [hreq, hu] at h
          | ok u =>
            simp only [hreq, hu, hup, TaskService.GetTask, Prod.mk.injEq] at h
            refine ⟨task, status, some u, htask, hstatus, ?_, fun hn => by simp at hn, h.2.symm⟩
            intro u1 hu1
            simp only [Option.some.injEq] at hu1
            subst hu1
            exact ⟨ext, rfl, hu⟩

/-- What a successful `UpdateTask` stores, with internal ids as the key of the
task table: the row of the task gets the request's title, description, due
date, status and assignee, and the request's priority unless that is empty, in
which case the priority of the row is written back; nothing else changes. -/
theorem UpdateTask_columns (s s1 : Store) (actor taskExt : String) (req : TaskRequest)
    (resp : TaskResponse) (hids : (s.tasks.map (fun t => t.ID)).Nodup)
    (h : TaskService.UpdateTask s actor taskExt req = (.ok resp, s1)) :
    ∃ (task : Task) (status : Status) (assignee : Option User),
      TaskRepository.GetTaskByExternalID s taskExt = .ok task ∧
      StatusRepository.GetStatusByExternalID s req.StatusExternalID = .ok status ∧
      (∀ u, assignee = some u →
        ∃ ext, req.AssignedToExternalID = some ext ∧
          UserRepository.GetUserByExternalID s ext = .ok u) ∧
      (assignee = none → req.AssignedToExternalID = none) ∧
      s1 = { s with tasks := s.tasks.map (fun r =>
        if r = task then
          { r with Title := req.Title, Description := req.Description,
                   Priority := if req.Priority = "" then r.Priority else req.Priority,
                   DueDate := req.DueDate, StatusID := status.ID,
                   AssignedTo := assignee.map (fun u => u.ID) }
        else r) } := by
  obtain ⟨task, status, assignee, htask, hstatus, ha1, ha2, rfl⟩ := UpdateTask_ok h
  refine ⟨task, status, assignee, htask, hstatus, ha1, ha2, ?_⟩
  have hmem := (GetTaskByExternalID_ok htask).1
  congr 1
  apply List.map_congr_left
  intro r hr
  by_cases hid : r.ID = task.ID
  · have hrt : r = task := task_eq_of_ID hids hr hmem hid
    subst hrt
    simp only [TaskRepository.setColumns, beq_self_eq_true, if_true, beq_iff_eq]
  · have hne : r ≠ task := fun e => hid (by rw [e])
    rw [setColumns_other (by simpa using hid), if_neg hne]

/-- C27, evaluated: `UpdateTask` does not override the priority when the request
carries none. The request below has an empty priority, which its binding
admits; on task `t-1` of `sampleStore` the call succeeds, title and status are
overridden, and the stored priority is still `low`, not the request's. With
priority `high` in the same request the stored priority becomes `high`. For
every store with internal ids as the key of the task table, a successful
`UpdateTask` with an empty priority leaves a row with the task's id and the
task's old priority. -/
theorem C27_empty_priority_kept :
    (TaskService.UpdateTask sampleStore "alice" "t-1"
      { Title := "Rewrite", Description := none, Priority := "", DueDate := none,
        StatusExternalID := "s-2", AssignedToExternalID := none }).1.isOk = true ∧
    (TaskService.UpdateTask sampleStore "alice" "t-1"
      { Title := "Rewrite", Description := none, Priority := "", DueDate := none,
        StatusExternalID := "s-2", AssignedToExternalID := none }).2.tasks =
      [{ ID := 1, ExternalID := "t-1", BoardID := 1, StatusID := 2, AssignedTo := none,
         CreatedByID := 1, Title := "Rewrite", Description := none, Priority := "low",
         DueDate := none, Position := 0, ActiveStatus := 1 }] ∧
    (TaskService.UpdateTask sampleStore "alice" "t-1"
      { Title := "Rewrite", Description := none, Priority := "high", DueDate := none,
        StatusExternalID := "s-2", AssignedToExternalID := none }).2.tasks =
      [{ ID := 1, ExternalID := "t-1", BoardID := 1, StatusID := 2, AssignedTo := none,
         CreatedByID := 1, Title := "Rewrite", Description := none, Priority := "high",
         DueDate := none, Position := 0, ActiveStatus := 1 }] ∧
    (∀ (s s1 : Store) (actor taskExt : String) (req : TaskRequest) (resp : TaskResponse),
      (s.tasks.map (fun t => t.ID)).Nodup →
      TaskService.UpdateTask s actor taskExt req = (.ok resp, s1) →
      req.Priority = "" →
      ∃ task, TaskRepository.GetTaskByExternalID s taskExt = .ok task ∧
        ∃ r ∈ s1.tasks, r.ID = task.ID ∧ r.Title = req.Title ∧ r.Priority = task.Priority) := by
  refine ⟨rfl, rfl, rfl, ?_⟩
  intro s s1 actor taskExt req resp hids h hp
  obtain ⟨task, status, assignee, htask, -, -, -, hs1⟩ :=
    UpdateTask_columns s s1 actor taskExt req resp hids h
  have hmem := (GetTaskByExternalID_ok htask).1
  refine ⟨task, htask, ?_⟩
  subst hs1
  simp only [List.mem_map]
  refine ⟨_, ⟨task, hmem, rfl⟩, ?_⟩
  simp [hp]

/-! ## Profiles never carry the credential hash -/

/-- With external ids as a key of the user table, the lookup of a stored ACTIVE
user by its external id returns that user. -/
theorem GetUserByExternalID_self {s : Store}
    (hkey : ∀ a ∈ s.users, ∀ b ∈ s.users, a.ExternalID = b.ExternalID → a = b)
    {u : User} (hu : u ∈ s.users) (hact : u.ActiveStatus = 1) :
    UserRepository.GetUserByExternalID s u.ExternalID = .ok u := by
  cases hq : UserRepository.GetUserByExternalID s u.ExternalID with
  | error e =>
    have hnil := QueryRow_error_iff.1 ⟨e, hq⟩
    rw [List.filter_eq_nil_iff] at hnil
    exact absurd (by simp [hact]) (hnil u hu)
  | ok r =>
    obtain ⟨hr, hext, -⟩ := GetUserByExternalID_ok hq
    rw [hkey r hr u hu hext]

theorem UpdateUserProfile_columns (s : Store) (user : User) :
    (UserRepository.UpdateUserProfile s user).2.users.map (fun r => r.Password) =
        s.users.map (fun r => r.Password) ∧
    (UserRepository.UpdateUserProfile s user).2.users.map (fun r => r.Email) =
        s.users.map (fun r => r.Email) ∧
    (UserRepository.UpdateUserProfile s user).2.users.map (fun r => r.ExternalID) =
        s.users.map (fun r => r.ExternalID) ∧
    (UserRepository.UpdateUserProfile s user).2.users.map (fun r => r.ID) =
        s.users.map (fun r => r.ID) := by
  unfold UserRepository.UpdateUserProfile
  split
  · simp only [List.map_map]
    refine ⟨?_, ?_, ?_, ?_⟩ <;>
    · apply List.map_congr_left
      intro r _
      simp only [Function.comp]
      split <;> rfl
  · exact ⟨rfl, rfl, rfl, rfl⟩

/-- C25: with external ids as a key of the user table, for every stored ACTIVE
user `u`: `GetProfile` on its external id returns `u` with an empty password and
internal id 0, every other field being that of `u`; `UpdateProfile` on its
external id succeeds and returns `u` with the request's name and avatar, an
empty password and internal id 0, its external id and email being those of `u`;
the row stored for the user afterwards is `u` with the request's name and
avatar; and the passwords, emails, external ids and internal ids stored in the
user table are, row by row, what they were. -/
theorem C25_profile_sanitized (s : Store)
    (hkey : ∀ a ∈ s.users, ∀ b ∈ s.users, a.ExternalID = b.ExternalID → a = b)
    (u : User) (hu : u ∈ s.users) (hact : u.ActiveStatus = 1) (req : UpdateProfileRequest) :
    AuthService.GetProfile s u.ExternalID = .ok { u with Password := "", ID := 0 } ∧
    (AuthService.UpdateProfile s u.ExternalID req).1 =
      .ok { u with Name := req.Name, AvatarURL := req.AvatarURL, Password := "", ID := 0 } ∧
    { u with Name := req.Name, AvatarURL := req.AvatarURL } ∈
      (AuthService.UpdateProfile s u.ExternalID req).2.users ∧
    (AuthService.UpdateProfile s u.ExternalID req).2.users.map (fun r => r.Password) =
      s.users.map (fun r => r.Password) ∧
    (AuthService.UpdateProfile s u.ExternalID req).2.users.map (fun r => r.Email) =
      s.users.map (fun r => r.Email) ∧
    (AuthService.UpdateProfile s u.ExternalID req).2.users.map (fun r => r.ExternalID) =
      s.users.map (fun r => r.ExternalID) ∧
    (AuthService.UpdateProfile s u.ExternalID req).2.users.map (fun r => r.ID) =
      s.users.map (fun r => r.ID) := by
  have hget := GetUserByExternalID_self hkey hu hact
  have hany : s.users.any (fun r => r.ID == u.ID) = true := by
    rw [List.any_eq_true]
    exact ⟨u, hu, by simp⟩
  have hcols := UpdateUserProfile_columns s { u with Name := req.Name, AvatarURL := req.AvatarURL }
  have hup : AuthService.UpdateProfile s u.ExternalID req =
      (.ok { u with Name := req.Name, AvatarURL := req.AvatarURL, Password := "", ID := 0 },
       (UserRepository.UpdateUserProfile s
          { u with Name := req.Name, AvatarURL := req.AvatarURL }).2) := by
    simp only [AuthService.UpdateProfile, hget, UserRepository.UpdateUserProfile, hany, if_true]
  refine ⟨?_, ?_, ?_, ?_⟩
  · simp only [AuthService.GetProfile, hget]
  · rw [hup]
  · rw [hup]
    simp only [UserRepository.UpdateUserProfile, hany, if_true, List.mem_map]
    exact ⟨u, hu, by simp⟩
  · rw [hup]
    exact hcols

/-- C25, at a concrete store: bob's profile in `sampleStore`, read and then
renamed; the record returned has no password and id 0, and the stored password
hashes are the three of before. -/
theorem C25_profile_sanitized_witness :
    AuthService.GetProfile sampleStore "bob" =
      .ok { ID := 0, ExternalID := "bob", Name := "Bob", Email := "bob@example.org",
            Password := "", AvatarURL := none, ActiveStatus := 1 } ∧
    (AuthService.UpdateProfile sampleStore "bob" { Name := "Robert", AvatarURL := some "r.png" }).1 =
      .ok { ID := 0, ExternalID := "bob", Name := "Robert", Email := "bob@example.org",
            Password := "", AvatarURL := some "r.png", ActiveStatus := 1 } ∧
    (AuthService.UpdateProfile sampleStore "bob"
      { Name := "Robert", AvatarURL := some "r.png" }).2.users.map (fun r => r.Password) =
      ["hash-a", "hash-b", "hash-c"] :=
  have h := C25_profile_sanitized sampleStore (by decide)
    { ID := 2, ExternalID := "bob", Name := "Bob", Email := "bob@example.org",
      Password := "hash-b", AvatarURL := none, ActiveStatus := 1 }
    (by decide) rfl { Name := "Robert", AvatarURL := some "r.png" }
  ⟨h.1, h.2.1, h.2.2.2.1⟩

/-! ## The Authorization header -/

theorem Split_empty (sep : Char) : strings.Split "" sep = [""] := by
  simp only [strings.Split, List.splitOn_nil, List.map_cons, List.map_nil]

/-- A header made of `Bearer`, one space and a token without a space splits
into exactly these two parts. -/
theorem Split_bearer (token : String) (h : ' ' ∉ token.data) :
    strings.Split ("Bearer " ++ token) ' ' = ["Bearer", token] := by
  have hd : ("Bearer " ++ token).data = [' '].intercalate ["Bearer".data, token.data] := by
    simp [List.intercalate, String.data_append]
  have hs : ([' '].intercalate ["Bearer".data, token.data]).splitOn ' ' =
      ["Bearer".data, token.data] := List.splitOn_intercalate ["Bearer".data, token.data] ' '
    (by
      intro l hl
      simp only [List.mem_cons, List.mem_singleton, List.not_mem_nil, or_false] at hl
      rcases hl with rfl | rfl
      · decide
      · exact h)
    (by simp)
  simp only [strings.Split, hd, hs, List.map_cons, List.map_nil]


/-- What `AuthRequired` does once the header is known to be non-empty and its
parts are known. -/
theorem AuthRequired_of_parts (V : String → Except Err Claims) {h : String} (he : h ≠ "")
    {parts : List String} (hp : strings.Split h ' ' = parts) :
    AuthRequired V h =
      if parts.length != 2 || parts.getD 0 "" != "Bearer" then
        (.Abort { Code := 401, Message := "Invalid authorization header format" }, [])
      else
        match V (parts.getD 1 "") with
        | .error _ =>
          (.Abort { Code := 401, Message := "Invalid or expired token" }, [parts.getD 1 ""])
        | .ok claims => (.Next claims.ExternalID claims.Email, [parts.getD 1 ""]) := by
  have hb : (h == "") = false := by simpa using he
  simp only [AuthRequired, hb, Bool.false_eq_true, if_false, hp]

/-- C30: for every token validator and every value of the `Authorization`
header, `AuthRequired` hands a token to validation exactly when the header,
split on single spaces, is the two parts `Bearer` and a token; then that second
part is the one token validated and the outcome is decided by its validation
(401 when it is refused, otherwise the request goes on with the claims). For
every other header nothing is validated and the request is aborted with 401;
so it is for the empty header, a lower-case scheme, two spaces after the scheme
and a third part. A header `Bearer`, one space and a token without a space is
handed on with that token. -/
theorem C30_bearer_header (V : String → Except Err Claims) (h : String) :
    ((AuthRequired V h).2 ≠ [] ↔ ∃ token, strings.Split h ' ' = ["Bearer", token]) ∧
    (∀ token, strings.Split h ' ' = ["Bearer", token] →
      AuthRequired V h =
        match V token with
        | .error _ => (.Abort { Code := 401, Message := "Invalid or expired token" }, [token])
        | .ok claims => (.Next claims.ExternalID claims.Email, [token])) ∧
    ((¬ ∃ token, strings.Split h ' ' = ["Bearer", token]) →
      AuthRequired V h =
          (.Abort { Code := 401, Message := "Authorization header required" }, []) ∨
      AuthRequired V h =
          (.Abort { Code := 401, Message := "Invalid authorization header format" }, [])) ∧
    (∀ token : String, ' ' ∉ token.data →
      strings.Split ("Bearer " ++ token) ' ' = ["Bearer", token]) ∧
    AuthRequired V "" =
      (.Abort { Code := 401, Message := "Authorization header required" }, []) ∧
    AuthRequired V "bearer abc" =
      (.Abort { Code := 401, Message := "Invalid authorization header format" }, []) ∧
    AuthRequired V "Bearer  abc" =
      (.Abort { Code := 401, Message := "Invalid authorization header format" }, []) ∧
    AuthRequired V "Bearer abc def" =
      (.Abort { Code := 401, Message := "Invalid authorization header format" }, []) := by
  have hpass : ∀ token, strings.Split h ' ' = ["Bearer", token] →
      AuthRequired V h =
        match V token with
        | .error _ => (.Abort { Code := 401, Message := "Invalid or expired token" }, [token])
        | .ok claims => (.Next claims.ExternalID claims.Email, [token]) := by
    intro token hp
    have he : h ≠ "" := by
      rintro rfl
      rw [Split_empty] at hp
      simp at hp
    rw [AuthRequired_of_parts V he hp]
    simp
  have hfail : (¬ ∃ token, strings.Split h ' ' = ["Bearer", token]) →
      AuthRequired V h =
          (.Abort { Code := 401, Message := "Authorization header required" }, []) ∨
      AuthRequired V h =
          (.Abort { Code := 401, Message := "Invalid authorization header format" }, []) := by
    intro hno
    by_cases he : h = ""
    · subst he
      exact Or.inl rfl
    · right
      rw [AuthRequired_of_parts V he rfl]
      rcases hp : strings.Split h ' ' with _ | ⟨a, _ | ⟨b, _ | ⟨c, l⟩⟩⟩
      · simp
      · simp
      · have ha : a ≠ "Bearer" := by
          rintro rfl
          exact hno ⟨b, hp⟩
        simp [ha]
      · simp
  refine ⟨⟨?_, ?_⟩, hpass, hfail, Split_bearer, rfl, rfl, rfl, rfl⟩
  · intro hne
    by_contra hno
    rcases hfail hno with e | e <;> exact hne (by rw [e])
  · rintro ⟨token, hp⟩
    rw [hpass token hp]
    cases V token <;> simp

/-! ## The order of the lists -/

theorem byPosition_total (a b : Status) :
    StatusRepository.byPosition a b ∨ StatusRepository.byPosition b a :=
  Int.le_total a.Position b.Position

theorem byPosition_trans (a b c : Status) (h1 : StatusRepository.byPosition a b)
    (h2 : StatusRepository.byPosition b c) : StatusRepository.byPosition a c :=
  Int.le_trans h1 h2

theorem byStatusThenPosition_total (a b : Int × TaskResponse) :
    TaskRepository.byStatusThenPosition a b ∨ TaskRepository.byStatusThenPosition b a := by
  unfold TaskRepository.byStatusThenPosition
  omega

theorem byStatusThenPosition_trans (a b c : Int × TaskResponse)
    (h1 : TaskRepository.byStatusThenPosition a b)
    (h2 : TaskRepository.byStatusThenPosition b c) : TaskRepository.byStatusThenPosition a c := by
  unfold TaskRepository.byStatusThenPosition at *
  omega

/-- The statuses `GetAllStatuses` reads are the ACTIVE ones, each once, in
non-decreasing order of position. -/
theorem GetAllStatuses_sorted (s : Store) :
    ∃ statuses, StatusRepository.GetAllStatuses s = .ok statuses ∧
      statuses.Perm (s.statuses.filter (fun st => st.ActiveStatus == 1)) ∧
      statuses.Sorted StatusRepository.byPosition := by
  haveI : IsTotal Status StatusRepository.byPosition := ⟨byPosition_total⟩
  haveI : IsTrans Status StatusRepository.byPosition := ⟨byPosition_trans⟩
  exact ⟨_, rfl, List.perm_insertionSort _ _, List.sorted_insertionSort _ _⟩

/-- The rows `GetTasksByBoardID` reads are the joined rows of the ACTIVE tasks of
the board, each once, ordered by status position and then task position. -/
theorem GetTasksByBoardID_sorted (s : Store) (boardID : Int) :
    ∃ rows : List (Int × TaskResponse),
      TaskRepository.GetTasksByBoardID s boardID = .ok (rows.map (fun r => r.2)) ∧
      rows.Perm ((s.tasks.filter (fun t => t.BoardID == boardID && t.ActiveStatus == 1)).flatMap
        (TaskRepository.joinTask s)) ∧
      rows.Sorted TaskRepository.byStatusThenPosition := by
  haveI : IsTotal (Int × TaskResponse) TaskRepository.byStatusThenPosition :=
    ⟨byStatusThenPosition_total⟩
  haveI : IsTrans (Int × TaskResponse) TaskRepository.byStatusThenPosition :=
    ⟨byStatusThenPosition_trans⟩
  exact ⟨_, rfl, List.perm_insertionSort _ _, List.sorted_insertionSort _ _⟩

/-- With internal ids as keys, a task whose board and status rows exist is
joined into exactly one row: the task scanned with its board, its status and
its assignee. -/
theorem joinTask_singleton {s : Store} (hboards : (s.boards.map (fun b => b.ID)).Nodup)
    (hstatuses : (s.statuses.map (fun st => st.ID)).Nodup)
    (husers : (s.users.map (fun u => u.ID)).Nodup) (t : Task)
    {b : BoardRow} (hb : b ∈ s.boards) (hbid : b.ID = t.BoardID)
    {st : Status} (hst : st ∈ s.statuses) (hstid : st.ID = t.StatusID) :
    ∃ u, TaskRepository.joinTask s t = [TaskRepository.scanRow t b st u] := by
  obtain ⟨x, hx⟩ := leftJoinAssignee_singleton husers t
  have h1 := filter_key_eq_singleton (fun b : BoardRow => b.ID) hboards hb
  have h2 := filter_key_eq_singleton (fun st : Status => st.ID) hstatuses hst
  simp only [hbid] at h1
  simp only [hstid] at h2
  exact ⟨x, by simp only [TaskRepository.joinTask, h1, h2, hx, List.flatMap_cons,
    List.flatMap_nil, List.map_cons, List.map_nil, List.append_nil]⟩


/-- When every task of the list is joined into exactly one row, the external
ids of the joined rows are those of the tasks, in the same order. -/
theorem flatMap_joinTask_externalIDs (s : Store) :
    ∀ l : List Task, (∀ t ∈ l, ∃ p, TaskRepository.joinTask s t = [p]) →
      (l.flatMap (TaskRepository.joinTask s)).map (fun p => p.2.ExternalID) =
        l.map (fun t => t.ExternalID) := by
  intro l
  induction l with
  | nil => intro _; rfl
  | cons a l ih =>
    intro h
    obtain ⟨p, hp⟩ := h a (List.mem_cons_self _ _)
    have hext : p.2.ExternalID = a.ExternalID :=
      joinTask_externalID (by rw [hp]; exact List.mem_singleton_self p)
    simp only [List.flatMap_cons, hp, List.singleton_append, List.map_cons, hext,
      ih (fun t ht => h t (List.mem_cons_of_mem _ ht))]

/-- C24: for every store, `GetAllStatuses` returns the responses of the ACTIVE
statuses, each once, in non-decreasing order of position. For every store,
every successful `GetBoardTasks` returns the second components of rows that are
ordered by status position and then task position and that are, up to order,
the joined rows of the ACTIVE tasks of the board. With internal ids as keys of
the board, status and user tables and every task pointing at a stored status,
every task of the board is joined into exactly one row (the task scanned with
the board, the task's status, whose position is the first sort key, and its
assignee), and the external ids returned are, up to order, those of the ACTIVE
tasks of the board, each once. -/
theorem C24_lists_ordered (s : Store) :
    (∃ statuses : List Status,
      StatusService.GetAllStatuses s = .ok (statuses.map StatusService.mapToResponse) ∧
      statuses.Perm (s.statuses.filter (fun st => st.ActiveStatus == 1)) ∧
      statuses.Sorted StatusRepository.byPosition) ∧
    ∀ (viewer board : String) (entries : List TaskResponse),
      TaskService.GetBoardTasks s viewer board = .ok entries →
      ∃ (b : Board) (rows : List (Int × TaskResponse)),
        BoardRepository.GetBoardByExternalID s board = .ok b ∧
        entries = rows.map (fun r => r.2) ∧
        rows.Sorted TaskRepository.byStatusThenPosition ∧
        rows.Perm ((s.tasks.filter (fun t => t.BoardID == b.ID && t.ActiveStatus == 1)).flatMap
          (TaskRepository.joinTask s)) ∧
        ((s.boards.map (fun b => b.ID)).Nodup →
          (s.statuses.map (fun st => st.ID)).Nodup →
          (s.users.map (fun u => u.ID)).Nodup →
          (∀ t ∈ s.tasks, ∃ st ∈ s.statuses, st.ID = t.StatusID) →
          (∀ t ∈ s.tasks, t.BoardID = b.ID →
            ∃ br ∈ s.boards, ∃ st ∈ s.statuses, ∃ u,
              br.ID = b.ID ∧ st.ID = t.StatusID ∧
              TaskRepository.joinTask s t = [TaskRepository.scanRow t br st u]) ∧
          (entries.map (fun r => r.ExternalID)).Perm
            ((s.tasks.filter (fun t => t.BoardID == b.ID && t.ActiveStatus == 1)).map
              (fun t => t.ExternalID))) := by
  constructor
  · obtain ⟨statuses, hget, hperm, hsorted⟩ := GetAllStatuses_sorted s
    exact ⟨statuses, by simp only [StatusService.GetAllStatuses, hget], hperm, hsorted⟩
  · intro viewer board entries h
    obtain ⟨b, hb, hrows⟩ := GetBoardTasks_ok h
    obtain ⟨br, hbr, hbrid, -⟩ := GetBoardByExternalID_ok hb
    obtain ⟨rows, hget, hperm, hsorted⟩ := GetTasksByBoardID_sorted s b.ID
    rw [hget, Except.ok.injEq] at hrows
    refine ⟨b, rows, hb, hrows.symm, hsorted, hperm, ?_⟩
    intro hboards hstatuses husers hfk
    have hone : ∀ t ∈ s.tasks, t.BoardID = b.ID →
        ∃ br ∈ s.boards, ∃ st ∈ s.statuses, ∃ u,
          br.ID = b.ID ∧ st.ID = t.StatusID ∧
          TaskRepository.joinTask s t = [TaskRepository.scanRow t br st u] := by
      intro t ht htb
      obtain ⟨st, hst, hstid⟩ := hfk t ht
      obtain ⟨u, hu⟩ := joinTask_singleton hboards hstatuses husers t hbr
        (hbrid.trans htb.symm) hst hstid
      exact ⟨br, hbr, st, hst, u, hbrid, hstid, hu⟩
    refine ⟨hone, ?_⟩
    have hids := flatMap_joinTask_externalIDs s
      (s.tasks.filter (fun t => t.BoardID == b.ID && t.ActiveStatus == 1))
      (by
        intro t ht
        simp only [List.mem_filter, Bool.and_eq_true, beq_iff_eq] at ht
        obtain ⟨_, _, _, _, u, _, _, hu⟩ := hone t ht.1 ht.2.1
        exact ⟨_, hu⟩)
    rw [← hids, ← hrows, List.map_map]
    exact hperm.map _

/-- C24, at a concrete store: the lists of `sampleStore`, as alice reads them.
The two statuses come back as `Todo`, `Done`, and board `b-1` shows the one
task `t-1`. -/
theorem C24_lists_ordered_witness :
    StatusService.GetAllStatuses sampleStore =
      .ok [{ ExternalID := "s-1", Name := "Todo", Color := none, Position := 0 },
           { ExternalID := "s-2", Name := "Done", Color := some "green", Position := 1 }] ∧
    (∃ statuses : List Status,
      StatusService.GetAllStatuses sampleStore =
        .ok (statuses.map StatusService.mapToResponse) ∧
      statuses.Perm (sampleStore.statuses.filter (fun st => st.ActiveStatus == 1)) ∧
      statuses.Sorted StatusRepository.byPosition) ∧
    ∃ (b : Board) (rows : List (Int × TaskResponse)),
      BoardRepository.GetBoardByExternalID sampleStore "b-1" = .ok b ∧
      [({ ExternalID := "t-1", BoardExternalID := "b-1",
          Status := { ExternalID := "s-1", Name := "Todo", Color := none },
          AssignedTo := none, Title := "Write", Description := none, Priority := "low",
          DueDate := none, Position := 0 } : TaskResponse)] = rows.map (fun r => r.2) ∧
      rows.Sorted TaskRepository.byStatusThenPosition ∧
      rows.Perm ((sampleStore.tasks.filter (fun t => t.BoardID == b.ID && t.ActiveStatus == 1)).flatMap
        (TaskRepository.joinTask sampleStore)) :=
  have h := C24_lists_ordered sampleStore
  have ⟨b, rows, hb, he, hs, hp, _⟩ := h.2 "alice" "b-1" _ rfl
  ⟨rfl, h.1, b, rows, hb, he, hs, hp⟩

/-! ## Two creators of one status name -/

/-- The two database calls of a call, made back to back on one store, are
`StatusService.CreateStatus`. -/
theorem CreateStatus_two_steps (s : Store) (req : StatusRequest) (uuid : String) :
    CreateStatusCall.step (CreateStatusCall.step s req uuid .start).2 req uuid
        (CreateStatusCall.step s req uuid .start).1 =
      (.returned (StatusService.CreateStatus s req uuid).1,
       (StatusService.CreateStatus s req uuid).2) := by
  simp only [CreateStatusCall.step, StatusService.CreateStatus.check,
    StatusService.CreateStatus, StatusService.CreateStatus.insert,
    StatusRepository.CreateStatus]
  cases StatusRepository.GetStatusByName s req.Name <;> rfl


/-- When both checks are made before either insert, both calls return success
and the name is stored twice. -/
theorem run_checks_first (s : Store) (req1 req2 : StatusRequest) (uuid1 uuid2 : String)
    (hname : req1.Name ∉ activeStatusNames s) (hsame : req2.Name = req1.Name)
    (sched : List Caller)
    (hsched : sched ∈ [[Caller.first, .second, .first, .second], [.first, .second, .second, .first],
      [.second, .first, .first, .second], [.second, .first, .second, .first]]) :
    (TwoCalls.run req1 uuid1 req2 uuid2 sched (TwoCalls.start s)).first =
      .returned (.ok { ExternalID := uuid1, Name := req1.Name, Color := req1.Color,
                       Position := req1.Position.getD 0 }) ∧
    (TwoCalls.run req1 uuid1 req2 uuid2 sched (TwoCalls.start s)).second =
      .returned (.ok { ExternalID := uuid2, Name := req1.Name, Color := req2.Color,
                       Position := req2.Position.getD 0 }) ∧
    (activeStatusNames (TwoCalls.run req1 uuid1 req2 uuid2 sched (TwoCalls.start s)).store).count
      req1.Name = 2 := by
  obtain ⟨e1, he1⟩ := GetStatusByName_error_of_not_mem hname
  have he2 : StatusRepository.GetStatusByName s req2.Name = .error e1 := by rw [hsame, he1]
  have hcount : (activeStatusNames s).count req1.Name = 0 := List.count_eq_zero_of_not_mem hname
  simp only [activeStatusNames] at hcount
  simp only [List.mem_cons, List.mem_singleton, List.not_mem_nil, or_false] at hsched
  rcases hsched with rfl | rfl | rfl | rfl <;>
  · simp only [TwoCalls.run, TwoCalls.start, CreateStatusCall.step,
      StatusService.CreateStatus.check, he1, he2, StatusService.CreateStatus.insert,
      StatusRepository.CreateStatus, StatusService.mapToResponse, hsame, activeStatusNames]
    refine ⟨trivial, trivial, ?_⟩
    simp [List.filter_append, List.count_append, hcount]


/-- C26, evaluated: `CreateStatus` makes its uniqueness check and its insert as
two separate database calls. Under each of the four schedules of two calls that
make both checks before either insert, for every store, every pair of requests
with one name that no ACTIVE status holds and every pair of external ids, both
calls return success and the name is afterwards held by two ACTIVE statuses.
So it is for two requests for `Blocked` on `sampleStore`; only under the two
serial schedules does the second call fail with the text of the name check. -/
theorem C26_both_creators_succeed :
    (∀ (s : Store) (req1 req2 : StatusRequest) (uuid1 uuid2 : String),
      req1.Name ∉ activeStatusNames s → req2.Name = req1.Name →
      ∀ sched ∈ [[Caller.first, .second, .first, .second], [.first, .second, .second, .first],
          [.second, .first, .first, .second], [.second, .first, .second, .first]],
        (TwoCalls.run req1 uuid1 req2 uuid2 sched (TwoCalls.start s)).first =
          .returned (.ok { ExternalID := uuid1, Name := req1.Name, Color := req1.Color,
                           Position := req1.Position.getD 0 }) ∧
        (TwoCalls.run req1 uuid1 req2 uuid2 sched (TwoCalls.start s)).second =
          .returned (.ok { ExternalID := uuid2, Name := req1.Name, Color := req2.Color,
                           Position := req2.Position.getD 0 }) ∧
        (activeStatusNames
          (TwoCalls.run req1 uuid1 req2 uuid2 sched (TwoCalls.start s)).store).count
            req1.Name = 2) ∧
    "Blocked" ∉ activeStatusNames sampleStore ∧
    (TwoCalls.run blocked "s-3" blocked "s-4" [.first, .second, .first, .second]
        (TwoCalls.start sampleStore)).first =
      .returned (.ok { ExternalID := "s-3", Name := "Blocked", Color := none, Position := 0 }) ∧
    (TwoCalls.run blocked "s-3" blocked "s-4" [.first, .second, .first, .second]
        (TwoCalls.start sampleStore)).second =
      .returned (.ok { ExternalID := "s-4", Name := "Blocked", Color := none, Position := 0 }) ∧
    activeStatusNames (TwoCalls.run blocked "s-3" blocked "s-4" [.first, .second, .first, .second]
        (TwoCalls.start sampleStore)).store = ["Todo", "Done", "Blocked", "Blocked"] ∧
    (TwoCalls.run blocked "s-3" blocked "s-4" [.first, .first, .second, .second]
        (TwoCalls.start sampleStore)).first =
      .returned (.ok { ExternalID := "s-3", Name := "Blocked", Color := none, Position := 0 }) ∧
    (TwoCalls.run blocked "s-3" blocked "s-4" [.first, .first, .second, .second]
        (TwoCalls.start sampleStore)).second =
      .returned (.error (.New "a status with this name already exists")) ∧
    (TwoCalls.run blocked "s-3" blocked "s-4" [.second, .second, .first, .first]
        (TwoCalls.start sampleStore)).first =
      .returned (.error (.New "a status with this name already exists")) :=
  ⟨fun s req1 req2 uuid1 uuid2 hname hsame sched hsched =>
      run_checks_first s req1 req2 uuid1 uuid2 hname hsame sched hsched,
    by decide, rfl, rfl, rfl, rfl, rfl, rfl⟩

end Nexboard
